import Mathlib

/-!
# Oldland debugger: the debug-session engine of `debugger/debugger.c`

A shallow embedding of the register-window protocol, the ADDRESS/WDATA write
coalescing cache, the memory-dirty flag and the execution controller of
`debugger.c`, together with the properties of the specification that were
checked against it.

Conventions.
* `uint32_t` values are natural numbers; masks are applied where the C code
  applies them.
* The stream socket is an environment `Env`: `io n` is what `writev`/`readv`
  do for the `n`-th exchange of the session and what ends up in the response
  buffer.  Every attempted exchange is recorded in `World.sent`, most recent
  first, so `sent.length` is the number of the next exchange.
* `err(1, ...)` ends the process: functions that may call it return a `Run`.
-/

namespace Oldland

/-! ## protocol.h / debugger.h -/

/-- Modelled from the spec: `protocol.h` is not among the sources.  The register
selectors of the debug window, under the names `debugger.c` uses. -/
inductive dbg_reg where
  | REG_CMD
  | REG_ADDRESS
  | REG_WDATA
  | REG_RDATA
deriving DecidableEq, Repr

/-- Modelled from the spec: `protocol.h` is not among the sources.  The opcodes
carried by `REG_CMD`, under the names `debugger.c` uses. -/
inductive dbg_cmd where
  | CMD_STOP
  | CMD_RUN
  | CMD_STEP
  | CMD_RESET
  | CMD_READ_REG
  | CMD_WRITE_REG
  | CMD_CPUID
  | CMD_GET_EXEC_STATUS
  | CMD_CACHE_SYNC
  | CMD_SIM_TERM
  | CMD_START_TRACE
  | CMD_RMEM8
  | CMD_RMEM16
  | CMD_RMEM32
  | CMD_WMEM8
  | CMD_WMEM16
  | CMD_WMEM32
deriving DecidableEq, Repr

open dbg_reg dbg_cmd

/-- Modelled from the spec: `protocol.h` is not among the sources, so the
numeric value of each opcode is the position of the opcode in the list the
specification gives for selector CMD.  Only their distinctness is used. -/
def dbg_cmd.code : dbg_cmd → Nat
  | CMD_STOP => 0
  | CMD_RUN => 1
  | CMD_STEP => 2
  | CMD_RESET => 3
  | CMD_READ_REG => 4
  | CMD_WRITE_REG => 5
  | CMD_CPUID => 6
  | CMD_GET_EXEC_STATUS => 7
  | CMD_CACHE_SYNC => 8
  | CMD_SIM_TERM => 9
  | CMD_START_TRACE => 10
  | CMD_RMEM8 => 11
  | CMD_RMEM16 => 12
  | CMD_RMEM32 => 13
  | CMD_WMEM8 => 14
  | CMD_WMEM16 => 15
  | CMD_WMEM32 => 16

/-- The access widths for which `MEM_READ_FN` / `MEM_WRITE_FN` are expanded. -/
inductive width where
  | w8
  | w16
  | w32
deriving DecidableEq, Repr

/-- Number of bits of a width (the macro argument). -/
def width.bits : width → Nat
  | .w8 => 8
  | .w16 => 16
  | .w32 => 32

/-- Token pasting `CMD_RMEM##width`. -/
def CMD_RMEM : width → dbg_cmd
  | .w8 => CMD_RMEM8
  | .w16 => CMD_RMEM16
  | .w32 => CMD_RMEM32

/-- Token pasting `CMD_WMEM##width`. -/
def CMD_WMEM : width → dbg_cmd
  | .w8 => CMD_WMEM8
  | .w16 => CMD_WMEM16
  | .w32 => CMD_WMEM32

/-- Constants of `debugger.h` and `protocol.h` whose values the sources do not
show: register numbers, execution-status bits and the sizes of the two wire
records. -/
structure Consts where
  PC : Nat
  CR_BASE : Nat
  EXEC_STATUS_RUNNING : Nat
  EXEC_STATUS_STOPPED_ON_BKPT : Nat
  sizeof_req : Int
  sizeof_resp : Int

/-- The errno value of an input/output error (5 on Linux). -/
def EIO_code : Int := 5

/-- Wire request, `struct dbg_request`. -/
structure dbg_request where
  addr : dbg_reg
  value : Nat
  read_not_write : Nat
deriving DecidableEq, Repr

/-- Wire response, `struct dbg_response`. -/
structure dbg_response where
  status : Int
  data : Nat
deriving DecidableEq, Repr

/-! ## The environment -/

/-- What the socket does for one exchange: the value `writev` returns, the
value `readv` returns, and the content of the response buffer once
`target_exchange` is over (indeterminate when nothing was read into it). -/
structure io_result where
  wrc : Int
  rrc : Int
  resp : dbg_response

/-- Everything outside the debugger: the socket, and the delivery of SIGINT.
`sigint n` says that SIGINT arrives while `wait_until_stopped` is between the
end of exchange number `n - 1` and the test of its loop condition. -/
structure Env where
  io : Nat → io_result
  sigint : Nat → Bool

/-! ## State -/

/-- Modelled from the spec: `breakpoint.c` is not among the sources.  An active
breakpoint: id, address and the saved original instruction word. -/
structure breakpoint where
  id : Nat
  addr : Nat
  orig_instr : Nat
deriving DecidableEq, Repr

/-- The `struct target` of `debugger.c` (the socket descriptor is left out: it
never changes).  `regcache` is modelled from the spec, see `regcache_sync`. -/
structure target where
  interrupted : Bool
  addr_written : Bool
  cached_addr : Nat
  wdata_written : Bool
  cached_wdata : Nat
  mem_written : Bool
  breakpoint_hit : Bool
  psr : Nat
  pc : Nat
  regcache : List (Nat × Nat)
deriving DecidableEq, Repr

/-- What the debugger prints. -/
inductive console where
  | warnx (msg : String)
  | err (msg : String)
  | bkpt_hit (id : Nat) (addr : Nat)
deriving DecidableEq, Repr

/-- The debugger process: the target record, the requests put on the wire so
far (most recent first), the console output (most recent first) and the
breakpoint table. -/
structure World where
  t : target
  sent : List dbg_request
  out : List console
  bkps : List breakpoint
deriving DecidableEq, Repr

/-- The record `calloc` returns in `target_alloc`. -/
def target_alloc : target :=
  { interrupted := false, addr_written := false, cached_addr := 0,
    wdata_written := false, cached_wdata := 0, mem_written := false,
    breakpoint_hit := false, psr := 0, pc := 0, regcache := [] }

/-- A freshly allocated session on which nothing has been exchanged yet. -/
def World.fresh : World :=
  { t := target_alloc, sent := [], out := [], bkps := [] }

/-! ## Wire transport -/

/-- The value `target_exchange` returns for a given behaviour of the socket. -/
def exchange_rc (K : Consts) (o : io_result) : Int :=
  if o.wrc < 0 then -EIO_code
  else if o.wrc ≠ K.sizeof_req then -EIO_code
  else if o.rrc < 0 then o.rrc
  else if o.rrc ≠ K.sizeof_resp then -EIO_code
  else 0

/-- Embedding of `target_exchange`: return code, response buffer, and the world in which
the request has been put on the wire. -/
def target_exchange (K : Consts) (env : Env) (w : World) (req : dbg_request) :
    Int × dbg_response × World :=
  let o := env.io w.sent.length
  (exchange_rc K o, o.resp, { w with sent := req :: w.sent })

/-- The code an exchange yields to `dbg_write` / `dbg_read`: the transport's
return code, or the response status when the transport succeeded. -/
def reply_rc (K : Consts) (o : io_result) : Int :=
  if exchange_rc K o = 0 then o.resp.status else exchange_rc K o

/-- Embedding of `dbg_write`. -/
def dbg_write (K : Consts) (env : Env) (w : World) (addr : dbg_reg) (value : Nat) :
    Int × World :=
  let req : dbg_request := { addr := addr, value := value, read_not_write := 0 }
  if addr = REG_ADDRESS ∧ value = w.t.cached_addr ∧ w.t.addr_written = true then (0, w)
  else
    let w1 : World :=
      if addr = REG_ADDRESS then
        { w with t := { w.t with cached_addr := value, addr_written := true } }
      else w
    if addr = REG_WDATA ∧ value = w1.t.cached_wdata ∧ w1.t.wdata_written = true then (0, w1)
    else
      let w2 : World :=
        if addr = REG_WDATA then
          { w1 with t := { w1.t with cached_wdata := value, wdata_written := true } }
        else w1
      let x := target_exchange K env w2 req
      ((if x.1 = 0 then x.2.1.status else x.1), x.2.2)

/-- Embedding of `dbg_read`: return code, the value stored through `value`, world. -/
def dbg_read (K : Consts) (env : Env) (w : World) (addr : dbg_reg) : Int × Nat × World :=
  let req : dbg_request := { addr := addr, value := 0, read_not_write := 1 }
  let x := target_exchange K env w req
  ((if x.1 = 0 then x.2.1.status else x.1), x.2.1.data, x.2.2)

/-- Appends a `warnx` line to the console. -/
def World.warnx (w : World) (msg : String) : World :=
  { w with out := console.warnx msg :: w.out }

/-- Appends the line of an `err` call to the console. -/
def World.err (w : World) (msg : String) : World :=
  { w with out := console.err msg :: w.out }

/-- Embedding of `dbg_term`. -/
def dbg_term (K : Consts) (env : Env) (w : World) : Int × World :=
  dbg_write K env w REG_CMD CMD_SIM_TERM.code

/-- Embedding of `dbg_start_trace`. -/
def dbg_start_trace (K : Consts) (env : Env) (w : World) : Int × World :=
  dbg_write K env w REG_CMD CMD_START_TRACE.code

/-- Embedding of `dbg_stop`: `dbg_read` stores through `&t->pc` whatever its result is. -/
def dbg_stop (K : Consts) (env : Env) (w : World) : Int × World :=
  let r := dbg_write K env w REG_CMD CMD_STOP.code
  if r.1 = 0 then
    let x := dbg_read K env r.2 REG_RDATA
    (x.1, { x.2.2 with t := { x.2.2.t with pc := x.2.1 } })
  else (r.1, r.2)

/-- Embedding of `dbg_cache_sync`. -/
def dbg_cache_sync (K : Consts) (env : Env) (w : World) : Int × World :=
  if w.t.mem_written = false then (0, w)
  else
    let r := dbg_write K env w REG_CMD CMD_CACHE_SYNC.code
    if r.1 = 0 then (r.1, { r.2 with t := { r.2.t with mem_written := false } })
    else (r.1, r.2)

/-- Embedding of `dbg_reload_pc`. -/
def dbg_reload_pc (K : Consts) (env : Env) (w : World) : Int × World :=
  let r := dbg_write K env w REG_ADDRESS K.PC
  if r.1 ≠ 0 then (r.1, r.2)
  else
    let r2 := dbg_write K env r.2 REG_CMD CMD_READ_REG.code
    if r2.1 ≠ 0 then (r2.1, r2.2)
    else
      let x := dbg_read K env r2.2 REG_RDATA
      (x.1, { x.2.2 with t := { x.2.2.t with pc := x.2.1 } })

/-- Embedding of `dbg_read_reg`; `val` is what the caller's variable held before the call. -/
def dbg_read_reg (K : Consts) (env : Env) (w : World) (reg : Nat) (val : Nat) :
    Int × Nat × World :=
  if reg = K.PC then (0, w.t.pc, w)
  else
    let r := dbg_write K env w REG_ADDRESS reg
    if r.1 ≠ 0 then (r.1, val, r.2)
    else
      let r2 := dbg_write K env r.2 REG_CMD CMD_READ_REG.code
      if r2.1 ≠ 0 then (r2.1, val, r2.2)
      else dbg_read K env r2.2 REG_RDATA

/-- Embedding of `dbg_read_cpuid`. -/
def dbg_read_cpuid (K : Consts) (env : Env) (w : World) (reg : Nat) (val : Nat) :
    Int × Nat × World :=
  let r := dbg_write K env w REG_ADDRESS reg
  if r.1 ≠ 0 then (r.1, val, r.2)
  else
    let r2 := dbg_write K env r.2 REG_CMD CMD_CPUID.code
    if r2.1 ≠ 0 then (r2.1, val, r2.2)
    else dbg_read K env r2.2 REG_RDATA

/-- Embedding of `dbg_get_exec_status`. -/
def dbg_get_exec_status (K : Consts) (env : Env) (w : World) (status : Nat) :
    Int × Nat × World :=
  let r := dbg_write K env w REG_CMD CMD_GET_EXEC_STATUS.code
  if r.1 ≠ 0 then (r.1, status, r.2)
  else dbg_read K env r.2 REG_RDATA

/-- The function `dbg_read##width` of `MEM_READ_FN(width)`.  The C code passes the global
`target` to `dbg_cache_sync`; every caller passes that same record as `t`. -/
def dbg_read_w (K : Consts) (env : Env) (w : World) (wd : width) (addr : Nat) (val : Nat) :
    Int × Nat × World :=
  let r0 := dbg_cache_sync K env w
  if r0.1 ≠ 0 then (r0.1, val, r0.2)
  else
    let r := dbg_write K env r0.2 REG_ADDRESS addr
    if r.1 ≠ 0 then (r.1, val, r.2)
    else
      let r2 := dbg_write K env r.2 REG_CMD (CMD_RMEM wd).code
      if r2.1 ≠ 0 then (r2.1, val, r2.2)
      else dbg_read K env r2.2 REG_RDATA

/-- The function `lua_read##width` of `MEM_READ_FN(width)`: the value pushed to the
script.  `v0` is the indeterminate initial content of the local `v`. -/
def lua_read (K : Consts) (env : Env) (w : World) (wd : width) (addr : Int) (v0 : Nat) :
    Nat × World :=
  let r := dbg_read_w K env w wd (addr % 2 ^ 32).toNat v0
  let w1 := if r.1 ≠ 0 then r.2.2.warnx "failed to read address" else r.2.2
  (r.2.1 &&& (((1 <<< wd.bits) - 1) % 2 ^ 32), w1)

/-- The function `dbg_write##width` of `MEM_WRITE_FN(width)`. -/
def dbg_write_w (K : Consts) (env : Env) (w : World) (wd : width) (addr : Nat) (val : Nat) :
    Int × World :=
  let r := dbg_write K env w REG_ADDRESS addr
  if r.1 ≠ 0 then (r.1, r.2)
  else
    let r2 := dbg_write K env r.2 REG_WDATA val
    if r2.1 ≠ 0 then (r2.1, r2.2)
    else
      let r3 := dbg_write K env r2.2 REG_CMD (CMD_WMEM wd).code
      if r3.1 ≠ 0 then (r3.1, r3.2)
      else (r3.1, { r3.2 with t := { r3.2.t with mem_written := true } })

/-- The function `lua_write##width` of `MEM_WRITE_FN(width)`. -/
def lua_write (K : Consts) (env : Env) (w : World) (wd : width) (addr : Int) (val : Int) :
    World :=
  let r := dbg_write_w K env w wd (addr % 2 ^ 32).toNat (val % 2 ^ 32).toNat
  if r.1 ≠ 0 then r.2.warnx "failed to write address" else r.2

/-- Embedding of `dbg_write_reg`. -/
def dbg_write_reg (K : Consts) (env : Env) (w : World) (reg : Nat) (val : Nat) : Int × World :=
  let r := dbg_write K env w REG_ADDRESS reg
  if r.1 ≠ 0 then (r.1, r.2)
  else
    let r2 := dbg_write K env r.2 REG_WDATA val
    if r2.1 ≠ 0 then (r2.1, r2.2)
    else
      let r3 := dbg_write K env r2.2 REG_CMD CMD_WRITE_REG.code
      if r3.1 = 0 ∧ reg = K.PC then (r3.1, { r3.2 with t := { r3.2.t with pc := val } })
      else (r3.1, r3.2)

/-! ## Register cache (regcache.c is not among the sources) -/

/-- Modelled from the spec: the flush loop of `regcache_sync` (`regcache.c`, absent
from the sources).  It writes the pending register writes to the target, oldest
first, stopping at the first failure; what was not written stays pending. -/
def regcache_flush (K : Consts) (env : Env) : World → List (Nat × Nat) → Int × World
  | w, [] => (0, { w with t := { w.t with regcache := [] } })
  | w, p :: rest =>
    let r := dbg_write_reg K env w p.1 p.2
    if r.1 ≠ 0 then (r.1, { r.2 with t := { r.2.t with regcache := p :: rest } })
    else regcache_flush K env r.2 rest

/-- Modelled from the spec: `regcache_sync` of `regcache.c`, absent from the
sources.  It flushes the general-purpose register writes accumulated since the
last sync, each through `dbg_write_reg`. -/
def regcache_sync (K : Consts) (env : Env) (w : World) : Int × World :=
  regcache_flush K env w w.t.regcache

/-- Modelled from the spec: `regcache_write` of `regcache.c`, absent from the
sources.  It accumulates a register write for the next sync. -/
def regcache_write (w : World) (reg : Nat) (val : Nat) : World :=
  { w with t := { w.t with regcache := w.t.regcache ++ [(reg, val)] } }

/-! ## Execution control -/

/-- Embedding of `dbg_run`. -/
def dbg_run (K : Consts) (env : Env) (w : World) : Int × World :=
  let r := regcache_sync K env w
  if r.1 ≠ 0 then (r.1, r.2)
  else
    let r2 := dbg_cache_sync K env r.2
    if r2.1 ≠ 0 then (r2.1, r2.2)
    else dbg_write K env r2.2 REG_CMD CMD_RUN.code

/-- Embedding of `dbg_step`. -/
def dbg_step (K : Consts) (env : Env) (w : World) : Int × World :=
  let r := regcache_sync K env w
  if r.1 ≠ 0 then (r.1, r.2)
  else
    let r2 := dbg_cache_sync K env r.2
    if r2.1 ≠ 0 then (r2.1, r2.2)
    else
      let r3 := dbg_write K env r2.2 REG_CMD CMD_STEP.code
      if r3.1 ≠ 0 then (r3.1, r3.2)
      else
        let x := dbg_read K env r3.2 REG_RDATA
        (x.1, { x.2.2 with t := { x.2.2.t with pc := x.2.1 } })

/-- Embedding of `dbg_reset`: the results of `dbg_stop` and `dbg_cache_sync` are dropped. -/
def dbg_reset (K : Consts) (env : Env) (w : World) : Int × World :=
  let r := regcache_sync K env w
  if r.1 ≠ 0 then (r.1, r.2)
  else
    let w1 := (dbg_stop K env r.2).2
    let w2 := (dbg_cache_sync K env w1).2
    dbg_write K env w2 REG_CMD CMD_RESET.code

/-- How a function that may call `err(1, ...)` ends: it returns, the process
exits with a status, or the bound on the number of poll iterations that the
embedding imposes was reached. -/
inductive Run where
  | returned (w : World)
  | exited (status : Nat) (w : World)
  | out_of_fuel
deriving DecidableEq, Repr

/-- Sequencing: the continuation runs only if the first part returned. -/
def Run.andThen (r : Run) (k : World → Run) : Run :=
  match r with
  | .returned w => k w
  | .exited s w => .exited s w
  | .out_of_fuel => .out_of_fuel

/-- The constant `~(1 << 7)` converted to `uint32_t`. -/
def MMU_CLEAR_MASK : Nat := 0xFFFFFF7F

/-- Embedding of `disable_mmu`.  The local `psr` is indeterminate before the read; it is only
used when the read succeeded. -/
def disable_mmu (K : Consts) (env : Env) (w : World) : Run :=
  let x := dbg_read_reg K env w (K.CR_BASE + 1) 0
  if x.1 ≠ 0 then .exited 1 (x.2.2.err "failed to read psr")
  else
    let w1 : World := { x.2.2 with t := { x.2.2.t with psr := x.2.1 } }
    let psr := x.2.1 &&& MMU_CLEAR_MASK
    let r := dbg_write_reg K env w1 (K.CR_BASE + 1) psr
    if r.1 ≠ 0 then .exited 1 (r.2.err "failed to write psr")
    else .returned r.2

/-- Embedding of `restore_mmu`. -/
def restore_mmu (K : Consts) (env : Env) (w : World) : Run :=
  let r := dbg_write_reg K env w (K.CR_BASE + 1) w.t.psr
  if r.1 ≠ 0 then .exited 1 (r.2.err "failed to write psr")
  else .returned r.2

/-- Embedding of `sigint_handler` (a target is connected). -/
def sigint_handler (K : Consts) (env : Env) (w : World) : World :=
  let w1 : World := { w with t := { w.t with interrupted := true } }
  (dbg_stop K env w1).2

/-- The part of `wait_until_stopped` that follows the poll loop. -/
def wait_finish (K : Consts) (env : Env) (w : World) (exec_status : Nat) : Run :=
  let r := dbg_reload_pc K env w
  if r.1 ≠ 0 then .exited 1 (r.2.err "failed to read PC")
  else
    .returned { r.2 with t := { r.2.t with
      breakpoint_hit := decide (exec_status &&& K.EXEC_STATUS_STOPPED_ON_BKPT ≠ 0) } }

/-- The `do ... while` loop of `wait_until_stopped`, at most `fuel` iterations, followed by
the rest of the function.  SIGINT, when the environment delivers it, runs the
handler after the status exchange of the iteration and before the loop
condition is tested. -/
def poll_loop (K : Consts) (env : Env) : Nat → World → Nat → Run
  | 0, _, _ => .out_of_fuel
  | fuel + 1, w, exec_status =>
    let x := dbg_get_exec_status K env w exec_status
    if x.1 ≠ 0 then .exited 1 (x.2.2.err "failed to get execution status.")
    else
      let w1 := if env.sigint x.2.2.sent.length = true then sigint_handler K env x.2.2 else x.2.2
      if w1.t.interrupted = false ∧ x.2.1 &&& K.EXEC_STATUS_RUNNING ≠ 0 then
        poll_loop K env fuel w1 x.2.1
      else wait_finish K env w1 x.2.1

/-- Embedding of `wait_until_stopped`. -/
def wait_until_stopped (K : Consts) (env : Env) (fuel : Nat) (w : World) : Run :=
  poll_loop K env fuel { w with t := { w.t with interrupted := false } } 0

/-- Modelled from the spec: `breakpoint_at_addr` of `breakpoint.c`, absent from
the sources: the active breakpoint at an address, if any. -/
def breakpoint_at_addr (w : World) (addr : Nat) : Option breakpoint :=
  w.bkps.find? (fun b => b.addr = addr)

/-- Modelled from the spec: `breakpoint_exec_orig` of `breakpoint.c`, absent
from the sources: the original instruction is put back at the address of the
breakpoint through the width-32 memory write. -/
def breakpoint_exec_orig (K : Consts) (env : Env) (w : World) (b : breakpoint) : Int × World :=
  dbg_write_w K env w .w32 b.addr b.orig_instr

/-- Embedding of `do_exec`; `fn` is `dbg_run` or `dbg_step`. -/
def do_exec (K : Consts) (env : Env) (fuel : Nat) (w : World) (fn : World → Int × World) :
    Run :=
  let w1 := match breakpoint_at_addr w w.t.pc with
    | some b => (breakpoint_exec_orig K env w b).2
    | none => w
  (restore_mmu K env w1).andThen fun w2 =>
    let r := fn w2
    let w3 := if r.1 ≠ 0 then r.2.warnx "failed to step target" else r.2
    (wait_until_stopped K env fuel w3).andThen fun w4 =>
      (disable_mmu K env w4).andThen fun w5 =>
        match breakpoint_at_addr w5 w5.t.pc with
        | some b => .returned { w5 with out := console.bkpt_hit b.id b.addr :: w5.out }
        | none => .returned w5

/-- Embedding of `lua_step` (a target is connected). -/
def lua_step (K : Consts) (env : Env) (fuel : Nat) (w : World) : Run :=
  do_exec K env fuel w (dbg_step K env)

/-- Embedding of `lua_run` (a target is connected). -/
def lua_run (K : Consts) (env : Env) (fuel : Nat) (w : World) : Run :=
  do_exec K env fuel w (dbg_run K env)

/-- Embedding of `lua_stop` (a target is connected). -/
def lua_stop (K : Consts) (env : Env) (w : World) : Run :=
  let r := dbg_stop K env w
  let w1 := if r.1 ≠ 0 then r.2.warnx "failed to step target" else r.2
  disable_mmu K env w1

/-- Embedding of `lua_reset` (a target is connected). -/
def lua_reset (K : Consts) (env : Env) (w : World) : Run :=
  let r := dbg_reset K env w
  let w1 := if r.1 ≠ 0 then r.2.warnx "failed to reset target" else r.2
  disable_mmu K env w1

/-! ## Reading the wire trace -/

/-- The write request that carries opcode `c` to the CMD register. -/
def cmd_req (c : dbg_cmd) : dbg_request :=
  { addr := REG_CMD, value := c.code, read_not_write := 0 }

/-- The write request of `value` to selector `s`. -/
def write_req (s : dbg_reg) (value : Nat) : dbg_request :=
  { addr := s, value := value, read_not_write := 0 }

/-- The read request of the RDATA register. -/
def rdata_req : dbg_request :=
  { addr := REG_RDATA, value := 0, read_not_write := 1 }

/-- The coalescing cache holds `v` for selector `s`. -/
def cache_holds (w : World) (s : dbg_reg) (v : Nat) : Prop :=
  (s = REG_ADDRESS ∧ v = w.t.cached_addr ∧ w.t.addr_written = true) ∨
  (s = REG_WDATA ∧ v = w.t.cached_wdata ∧ w.t.wdata_written = true)

instance (w : World) (s : dbg_reg) (v : Nat) : Decidable (cache_holds w s v) := by
  unfold cache_holds; infer_instance

/-- An environment in which every exchange succeeds with status 0 and data
taken from `data`, and SIGINT never arrives. -/
def Env.ok (K : Consts) (data : Nat → Nat) : Env :=
  { io := fun n => { wrc := K.sizeof_req, rrc := K.sizeof_resp,
                     resp := { status := 0, data := data n } },
    sigint := fun _ => false }

/-- A choice of the absent constants, used for concrete runs: sixteen
general-purpose registers before PC, control registers from 32. -/
def K0 : Consts :=
  { PC := 16, CR_BASE := 32, EXEC_STATUS_RUNNING := 1, EXEC_STATUS_STOPPED_ON_BKPT := 2,
    sizeof_req := 12, sizeof_resp := 8 }

/-- A primitive access to the register window: a `dbg_write` or a `dbg_read`. -/
inductive prim where
  | write (s : dbg_reg) (v : Nat)
  | read (s : dbg_reg)
deriving DecidableEq, Repr

/-- The selector a primitive access writes, if it is a write. -/
def prim.writes : prim → Option dbg_reg
  | .write s _ => some s
  | .read _ => none

/-- Runs a sequence of primitive accesses, whatever their results. -/
def run_prims (K : Consts) (env : Env) : World → List prim → World
  | w, [] => w
  | w, .write s v :: ps => run_prims K env (dbg_write K env w s v).2 ps
  | w, .read s :: ps => run_prims K env (dbg_read K env w s).2.2 ps

/-- The environment `Env.ok K fun _ => 0`, except that exchange number `k` is
answered with response status `st`. -/
def Env.status_at (K : Consts) (k : Nat) (st : Int) : Env :=
  { io := fun n => { wrc := K.sizeof_req, rrc := K.sizeof_resp,
                     resp := { status := if n = k then st else 0, data := 0 } },
    sigint := fun _ => false }

/-- The requests `dbg_write_reg` can put on the wire. -/
def is_reg_write_req (q : dbg_request) : Prop :=
  (∃ v, q = write_req REG_ADDRESS v) ∨ (∃ v, q = write_req REG_WDATA v) ∨
  q = cmd_req CMD_WRITE_REG

/-! ## The memory-dirty flag read off the wire -/

/-- A request that carries one of the memory write commands. -/
def is_wmem (q : dbg_request) : Bool :=
  decide (q = cmd_req CMD_WMEM8 ∨ q = cmd_req CMD_WMEM16 ∨ q = cmd_req CMD_WMEM32)

/-- Some memory write command was put on the wire after the last CACHE_SYNC
command (trace most recent first), whatever the exchanges returned. -/
def wmem_issued_since_sync : List dbg_request → Bool
  | [] => false
  | q :: older =>
    if is_wmem q then true
    else if q = cmd_req CMD_CACHE_SYNC then false
    else wmem_issued_since_sync older

/-- Some memory write command exchange succeeded after the last CACHE_SYNC
exchange that succeeded (trace most recent first; exchange number `n` is the
one whose request has `n` older requests). -/
def wmem_done_since_sync (K : Consts) (env : Env) : List dbg_request → Bool
  | [] => false
  | q :: older =>
    if reply_rc K (env.io older.length) = 0 then
      if is_wmem q then true
      else if q = cmd_req CMD_CACHE_SYNC then false
      else wmem_done_since_sync K env older
    else wmem_done_since_sync K env older

/-- The world a `Run` ended in, if it ended. -/
def Run.world : Run → Option World
  | .returned w => some w
  | .exited _ w => some w
  | .out_of_fuel => none

/-- The operations of the engine. -/
inductive op where
  | term
  | start_trace
  | stop
  | cache_sync
  | run
  | step
  | reset
  | reload_pc
  | read_reg (reg val : Nat)
  | read_cpuid (reg val : Nat)
  | get_exec_status (status : Nat)
  | read_mem (wd : width) (addr val : Nat)
  | write_mem (wd : width) (addr val : Nat)
  | write_reg (reg val : Nat)
  | regcache_write (reg val : Nat)
  | set_bkps (table : List breakpoint)
  | sigint
  | lua_read (wd : width) (addr : Int) (v0 : Nat)
  | lua_write (wd : width) (addr val : Int)
  | lua_step (fuel : Nat)
  | lua_run (fuel : Nat)
  | lua_stop
  | lua_reset

/-- The world after an operation; `none` when the poll bound was reached.
`set_bkps` stands for the table update of breakpoint registration and removal
(`breakpoint.c`, absent), whose memory accesses are `read_mem` / `write_mem`. -/
def op.apply (K : Consts) (env : Env) (w : World) : op → Option World
  | .term => some (dbg_term K env w).2
  | .start_trace => some (dbg_start_trace K env w).2
  | .stop => some (dbg_stop K env w).2
  | .cache_sync => some (dbg_cache_sync K env w).2
  | .run => some (dbg_run K env w).2
  | .step => some (dbg_step K env w).2
  | .reset => some (dbg_reset K env w).2
  | .reload_pc => some (dbg_reload_pc K env w).2
  | .read_reg reg val => some (dbg_read_reg K env w reg val).2.2
  | .read_cpuid reg val => some (dbg_read_cpuid K env w reg val).2.2
  | .get_exec_status status => some (dbg_get_exec_status K env w status).2.2
  | .read_mem wd addr val => some (dbg_read_w K env w wd addr val).2.2
  | .write_mem wd addr val => some (dbg_write_w K env w wd addr val).2
  | .write_reg reg val => some (dbg_write_reg K env w reg val).2
  | .regcache_write reg val => some (Oldland.regcache_write w reg val)
  | .set_bkps table => some { w with bkps := table }
  | .sigint => some (sigint_handler K env w)
  | .lua_read wd addr v0 => some (Oldland.lua_read K env w wd addr v0).2
  | .lua_write wd addr val => some (Oldland.lua_write K env w wd addr val)
  | .lua_step fuel => (Oldland.lua_step K env fuel w).world
  | .lua_run fuel => (Oldland.lua_run K env fuel w).world
  | .lua_stop => (Oldland.lua_stop K env w).world
  | .lua_reset => (Oldland.lua_reset K env w).world

/-- Runs operations one after the other from `w`. -/
def run_ops (K : Consts) (env : Env) : World → List op → Option World
  | w, [] => some w
  | w, o :: os =>
    match op.apply K env w o with
    | some w1 => run_ops K env w1 os
    | none => none

/-- The flag agrees with the wire: it is set exactly when a memory write
command has succeeded since the last successful CACHE_SYNC. -/
def flag_tracks_wire (K : Consts) (env : Env) (w : World) : Prop :=
  w.t.mem_written = wmem_done_since_sync K env w.sent

/-- A property of worlds that depends only on the wire trace and on the
memory-dirty flag, that survives a request which is neither a memory write
command nor CACHE_SYNC, and that the two functions which assign the flag
preserve. -/
structure wire_closed (K : Consts) (env : Env) (P : World → Prop) : Prop where
  same : ∀ w w1, P w → w1.sent = w.sent → w1.t.mem_written = w.t.mem_written → P w1
  push : ∀ w w1 q, P w → w1.sent = q :: w.sent → w1.t.mem_written = w.t.mem_written →
    is_wmem q = false → q ≠ cmd_req CMD_CACHE_SYNC → P w1
  sync : ∀ w, P w → P (dbg_cache_sync K env w).2
  wmem : ∀ w wd addr val, P w → P (dbg_write_w K env w wd addr val).2

/-- The world in which `do_exec` calls `restore_mmu`: the original instruction has been put
back if a breakpoint sits at `pc`. -/
def exec_orig_at_pc (K : Consts) (env : Env) (w : World) : World :=
  match breakpoint_at_addr w w.t.pc with
  | some b => (breakpoint_exec_orig K env w b).2
  | none => w

/-- The last exchanges on the wire are those of a completed `disable_mmu`: READ_REG, the
RDATA read whose data word is now in `psr`, possibly the WDATA write of that
word with bit 7 cleared, and WRITE_REG, the cache holding `CR_BASE + 1` for
ADDRESS and the cleared word for WDATA. -/
def psr_written_cleared (K : Consts) (env : Env) (w : World) : Prop :=
  ∃ b rest, w.sent = cmd_req CMD_WRITE_REG :: b ++ rdata_req :: cmd_req CMD_READ_REG :: rest ∧
    (b = [] ∨ b = [write_req REG_WDATA (w.t.psr &&& MMU_CLEAR_MASK)]) ∧
    w.t.psr = (env.io (rest.length + 1)).resp.data ∧
    cache_holds w REG_ADDRESS (K.CR_BASE + 1) ∧
    cache_holds w REG_WDATA (w.t.psr &&& MMU_CLEAR_MASK)

/-- The operations that end with `disable_mmu`. -/
def op.disables : op → Bool
  | .lua_step _ => true
  | .lua_run _ => true
  | .lua_stop => true
  | .lua_reset => true
  | _ => false

/-- Embedding of `lua_connect` for a server that accepts the connection, in batch mode (the
`report_cpu` script hook of interactive mode is outside the engine): the error
raised, if any, and the world.  The global `target` is assigned before the
stop, so the session exists even when an error is raised. -/
def lua_connect (K : Consts) (env : Env) : Option String × World :=
  let r := dbg_stop K env World.fresh
  if r.1 ≠ 0 then (some "failed to stop target", r.2)
  else
    let r2 := dbg_reset K env r.2
    if r2.1 ≠ 0 then (some "failed to reset target", r2.2)
    else (none, r2.2)

/-- The exit status of a `Run` that ended in `err`. -/
def Run.status : Run → Option Nat
  | .exited s _ => some s
  | _ => none

/-- The most recent exchange on the wire failed: transport error or non-zero
response status. -/
def last_failed (K : Consts) (env : Env) (w : World) : Prop :=
  ∃ q rest, w.sent = q :: rest ∧ reply_rc K (env.io rest.length) ≠ 0

/-- The process ended through `err(1, ...)` right after a failed exchange. -/
def died_on_failure (K : Consts) (env : Env) (s : Nat) (w : World) : Prop :=
  s = 1 ∧ last_failed K env w ∧ ∃ msg, w.out.head? = some (console.err msg)

/-- An environment for an interrupted run: the target answers every read with
the RUNNING bit, every exchange with status 0 except exchange number `k`,
answered with `st`, and SIGINT arrives once `k` exchanges have been made. -/
def Env.interrupt (K : Consts) (k : Nat) (st : Int) : Env :=
  { io := fun n => { wrc := K.sizeof_req, rrc := K.sizeof_resp,
                     resp := { status := if n = k then st else 0,
                               data := K.EXEC_STATUS_RUNNING } },
    sigint := fun n => decide (n = k) }

/-- The environment `Env.ok K fun _ => 0`, except that the exchanges whose
numbers are in `ks` are answered with response status `st`. -/
def Env.status_in (K : Consts) (ks : List Nat) (st : Int) : Env :=
  { io := fun n => { wrc := K.sizeof_req, rrc := K.sizeof_resp,
                     resp := { status := if n ∈ ks then st else 0, data := 0 } },
    sigint := fun _ => false }

/-- The transport works for every exchange: each `writev` and each `readv` moves the whole
record, so `target_exchange` returns 0 and the code an exchange yields is the
response status. -/
def transport_works (K : Consts) (env : Env) : Prop :=
  ∀ n, exchange_rc K (env.io n) = 0

/-- Every exchange from number `n` on succeeds. -/
def replies_ok_from (K : Consts) (env : Env) (n : Nat) : Prop :=
  ∀ m, n ≤ m → reply_rc K (env.io m) = 0

/-- Every exchange from number `n` on is answered with response status 0. -/
def status_ok_from (env : Env) (n : Nat) : Prop :=
  ∀ m, n ≤ m → (env.io m).resp.status = 0

/-- The target reports RUNNING in the response to exchange number `n`. -/
def reports_running (K : Consts) (env : Env) (n : Nat) : Prop :=
  (env.io n).resp.data &&& K.EXEC_STATUS_RUNNING ≠ 0

/-- Embedding of the end of `main`, with a target connected: `if (target) dbg_run(target);`. -/
def main_exit (K : Consts) (env : Env) (w : World) : Int × World :=
  dbg_run K env w

/-- An environment in which the target answers every read with `data` and every
exchange with status 0, except exchange number `k`, which it refuses with
status 1; SIGINT never arrives. -/
def Env.refuse (K : Consts) (k : Nat) (data : Nat) : Env :=
  { io := fun n => { wrc := K.sizeof_req, rrc := K.sizeof_resp,
                     resp := { status := if n = k then 1 else 0, data := data } },
    sigint := fun _ => false }

/-! ## Basic facts about `dbg_write` and `dbg_read` -/

theorem dbg_write_cmd (K : Consts) (env : Env) (w : World) (v : Nat) :
    dbg_write K env w REG_CMD v
      = (reply_rc K (env.io w.sent.length), { w with sent := write_req REG_CMD v :: w.sent }) := by
  simp [dbg_write, target_exchange, reply_rc, write_req]

theorem dbg_read_eq (K : Consts) (env : Env) (w : World) (s : dbg_reg) :
    dbg_read K env w s
      = (reply_rc K (env.io w.sent.length), (env.io w.sent.length).resp.data,
          { w with sent := { addr := s, value := 0, read_not_write := 1 } :: w.sent }) := by
  simp [dbg_read, target_exchange, reply_rc]

theorem dbg_write_hit (K : Consts) (env : Env) (w : World) (s : dbg_reg) (v : Nat)
    (h : cache_holds w s v) : dbg_write K env w s v = (0, w) := by
  rcases h with ⟨hs, hv, hw⟩ | ⟨hs, hv, hw⟩
  · subst hs; simp [dbg_write, hv, hw]
  · subst hs; simp [dbg_write, hv, hw]

theorem dbg_write_addr_miss (K : Consts) (env : Env) (w : World) (v : Nat)
    (h : ¬ cache_holds w REG_ADDRESS v) :
    dbg_write K env w REG_ADDRESS v
      = (reply_rc K (env.io w.sent.length),
          { w with t := { w.t with cached_addr := v, addr_written := true },
                   sent := write_req REG_ADDRESS v :: w.sent }) := by
  have h1 : ¬ (v = w.t.cached_addr ∧ w.t.addr_written = true) := by
    intro hc; exact h (Or.inl ⟨rfl, hc.1, hc.2⟩)
  simp [dbg_write, target_exchange, reply_rc, write_req, h1]

theorem dbg_write_wdata_miss (K : Consts) (env : Env) (w : World) (v : Nat)
    (h : ¬ cache_holds w REG_WDATA v) :
    dbg_write K env w REG_WDATA v
      = (reply_rc K (env.io w.sent.length),
          { w with t := { w.t with cached_wdata := v, wdata_written := true },
                   sent := write_req REG_WDATA v :: w.sent }) := by
  have h1 : ¬ (v = w.t.cached_wdata ∧ w.t.wdata_written = true) := by
    intro hc; exact h (Or.inr ⟨rfl, hc.1, hc.2⟩)
  simp [dbg_write, target_exchange, reply_rc, write_req, h1]

theorem dbg_write_rdata (K : Consts) (env : Env) (w : World) (v : Nat) :
    dbg_write K env w REG_RDATA v
      = (reply_rc K (env.io w.sent.length), { w with sent := write_req REG_RDATA v :: w.sent }) := by
  simp [dbg_write, target_exchange, reply_rc, write_req]

/-- After `dbg_write` to ADDRESS or WDATA the cache holds the value, whatever the
exchange did. -/
theorem cache_holds_after_write (K : Consts) (env : Env) (w : World) (s : dbg_reg) (v : Nat)
    (hs : s = REG_ADDRESS ∨ s = REG_WDATA) :
    cache_holds (dbg_write K env w s v).2 s v := by
  by_cases h : cache_holds w s v
  · rw [dbg_write_hit K env w s v h]; exact h
  · rcases hs with hs | hs
    · subst hs; rw [dbg_write_addr_miss K env w v h]; exact Or.inl ⟨rfl, rfl, rfl⟩
    · subst hs; rw [dbg_write_wdata_miss K env w v h]; exact Or.inr ⟨rfl, rfl, rfl⟩

/-- A write to another selector leaves the cache entry of `s` alone. -/
theorem cache_holds_write_other (K : Consts) (env : Env) (w : World) (s s2 : dbg_reg)
    (v v2 : Nat) (hne : s2 ≠ s) (h : cache_holds w s v) :
    cache_holds (dbg_write K env w s2 v2).2 s v := by
  by_cases h2 : cache_holds w s2 v2
  · rw [dbg_write_hit K env w s2 v2 h2]; exact h
  · cases s2
    · rw [dbg_write_cmd]; exact h
    · rw [dbg_write_addr_miss K env w v2 h2]
      rcases h with ⟨hs, _, _⟩ | ⟨hs, hv, hw⟩
      · exact absurd hs.symm hne
      · exact Or.inr ⟨hs, hv, hw⟩
    · rw [dbg_write_wdata_miss K env w v2 h2]
      rcases h with ⟨hs, hv, hw⟩ | ⟨hs, _, _⟩
      · exact Or.inl ⟨hs, hv, hw⟩
      · exact absurd hs.symm hne
    · rw [dbg_write_rdata]; exact h

theorem cache_holds_run_prims (K : Consts) (env : Env) (s : dbg_reg) (v : Nat) :
    ∀ (ps : List prim) (w : World), (∀ p ∈ ps, p.writes ≠ some s) → cache_holds w s v →
      cache_holds (run_prims K env w ps) s v := by
  intro ps
  induction ps with
  | nil => intro w _ h; exact h
  | cons p ps ih =>
    intro w hall h
    have hp := hall p (List.mem_cons_self _ _)
    have hrest : ∀ q ∈ ps, q.writes ≠ some s := fun q hq => hall q (List.mem_cons_of_mem _ hq)
    cases p with
    | write s2 v2 =>
      have hne : s2 ≠ s := by
        intro e; exact hp (by simp [prim.writes, e])
      exact ih _ hrest (cache_holds_write_other K env w s s2 v v2 hne h)
    | read s2 =>
      simp only [run_prims]
      apply ih _ hrest
      rw [dbg_read_eq]; exact h

/-! ## C1 -/

/-- C1: for ADDRESS and WDATA, a `dbg_write` of `v` followed (possibly after
accesses that do not write that selector) by a second `dbg_write` of the same
`v`: the second call returns 0 and leaves the world as it was, so it puts
nothing on the wire; the first call puts exactly one request on the wire when
the cache did not already hold `v`, and none when it did. -/
theorem C1_write_twice_one_exchange (K : Consts) (env : Env) (w : World) (s : dbg_reg)
    (v : Nat) (between : List prim)
    (hs : s = REG_ADDRESS ∨ s = REG_WDATA)
    (hbetween : ∀ p ∈ between, p.writes ≠ some s) :
    let w1 := (dbg_write K env w s v).2
    let w2 := run_prims K env w1 between
    dbg_write K env w2 s v = (0, w2) ∧
    (¬ cache_holds w s v → w1.sent = write_req s v :: w.sent) ∧
    (cache_holds w s v → w1.sent = w.sent) := by
  intro w1 w2
  refine ⟨?_, ?_, ?_⟩
  · exact dbg_write_hit K env w2 s v
      (cache_holds_run_prims K env s v between w1 hbetween
        (cache_holds_after_write K env w s v hs))
  · intro h
    rcases hs with hs | hs
    · subst hs; simp only [w1]; rw [dbg_write_addr_miss K env w v h]
    · subst hs; simp only [w1]; rw [dbg_write_wdata_miss K env w v h]
  · intro h
    simp only [w1]; rw [dbg_write_hit K env w s v h]

/-- C1 at a concrete input: a fresh session, ADDRESS written twice with 0x2000,
a command write and an RDATA read in between. -/
theorem C1_write_twice_one_exchange_witness :
    (REG_ADDRESS = REG_ADDRESS ∨ REG_ADDRESS = REG_WDATA) ∧
    (∀ p ∈ [prim.write REG_CMD 4, prim.read REG_RDATA], p.writes ≠ some REG_ADDRESS) ∧
    (let w1 := (dbg_write K0 (Env.ok K0 fun _ => 0) World.fresh REG_ADDRESS 0x2000).2
     let w2 := run_prims K0 (Env.ok K0 fun _ => 0) w1 [prim.write REG_CMD 4, prim.read REG_RDATA]
     dbg_write K0 (Env.ok K0 fun _ => 0) w2 REG_ADDRESS 0x2000 = (0, w2) ∧
     (¬ cache_holds World.fresh REG_ADDRESS 0x2000 →
        w1.sent = write_req REG_ADDRESS 0x2000 :: World.fresh.sent) ∧
     (cache_holds World.fresh REG_ADDRESS 0x2000 → w1.sent = World.fresh.sent)) :=
  ⟨Or.inl rfl, by decide,
    C1_write_twice_one_exchange K0 (Env.ok K0 fun _ => 0) World.fresh REG_ADDRESS 0x2000
      [prim.write REG_CMD 4, prim.read REG_RDATA] (Or.inl rfl) (by decide)⟩

theorem dbg_write_cases (K : Consts) (env : Env) (w : World) (s : dbg_reg) (v : Nat) :
    (dbg_write K env w s v = (0, w)) ∨
    ((dbg_write K env w s v).1 = reply_rc K (env.io w.sent.length) ∧
     (dbg_write K env w s v).2.sent = write_req s v :: w.sent) := by
  by_cases h : cache_holds w s v
  · exact Or.inl (dbg_write_hit K env w s v h)
  · right
    cases s
    · rw [dbg_write_cmd]; exact ⟨rfl, rfl⟩
    · rw [dbg_write_addr_miss K env w v h]; exact ⟨rfl, rfl⟩
    · rw [dbg_write_wdata_miss K env w v h]; exact ⟨rfl, rfl⟩
    · rw [dbg_write_rdata]; exact ⟨rfl, rfl⟩

theorem dbg_write_mem_written (K : Consts) (env : Env) (w : World) (s : dbg_reg) (v : Nat) :
    (dbg_write K env w s v).2.t.mem_written = w.t.mem_written := by
  by_cases h : cache_holds w s v
  · rw [dbg_write_hit K env w s v h]
  · cases s
    · rw [dbg_write_cmd]
    · rw [dbg_write_addr_miss K env w v h]
    · rw [dbg_write_wdata_miss K env w v h]
    · rw [dbg_write_rdata]

theorem dbg_cache_sync_clean (K : Consts) (env : Env) (w : World)
    (hc : w.t.mem_written = false) : dbg_cache_sync K env w = (0, w) := by
  simp [dbg_cache_sync, hc]

theorem dbg_cache_sync_dirty (K : Consts) (env : Env) (w : World)
    (hd : w.t.mem_written = true) :
    dbg_cache_sync K env w =
      (reply_rc K (env.io w.sent.length),
        { w with t := { w.t with mem_written := decide (reply_rc K (env.io w.sent.length) ≠ 0) },
                 sent := cmd_req CMD_CACHE_SYNC :: w.sent }) := by
  by_cases hr : reply_rc K (env.io w.sent.length) = 0
  · simp [dbg_cache_sync, hd, dbg_write_cmd, hr, cmd_req, write_req]
  · simp [dbg_cache_sync, hd, dbg_write_cmd, hr, cmd_req, write_req]
    cases w with
    | mk t sent out bkps => cases t; simp_all

/-- The exchanges of `dbg_read##width` once the cache sync is out of the way. -/
theorem dbg_read_w_clean (K : Consts) (env : Env) (w : World) (wd : width) (addr val : Nat)
    (hc : w.t.mem_written = false) :
    ∃ new, (dbg_read_w K env w wd addr val).2.2.sent = new ++ w.sent ∧
      (∀ q ∈ new, q = rdata_req ∨ q = cmd_req (CMD_RMEM wd) ∨ q = write_req REG_ADDRESS addr) ∧
      (dbg_read_w K env w wd addr val).2.2.t.mem_written = false := by
  have hm := dbg_write_mem_written K env w REG_ADDRESS addr
  rw [hc] at hm
  simp only [dbg_read_w, dbg_cache_sync_clean K env w hc, dbg_write_cmd, dbg_read_eq]
  rcases dbg_write_cases K env w REG_ADDRESS addr with h | ⟨h1, h2⟩
  · simp only [h]
    by_cases hr : reply_rc K (env.io w.sent.length) = 0
    · refine ⟨[rdata_req, cmd_req (CMD_RMEM wd)], ?_, ?_, ?_⟩ <;>
        simp [hr, hc, rdata_req, cmd_req, write_req]
    · refine ⟨[cmd_req (CMD_RMEM wd)], ?_, ?_, ?_⟩ <;>
        simp [hr, hc, rdata_req, cmd_req, write_req]
  · generalize dbg_write K env w REG_ADDRESS addr = r at h1 h2 hm
    by_cases hr : r.1 = 0
    · by_cases hr2 : reply_rc K (env.io (w.sent.length + 1)) = 0
      · refine ⟨[rdata_req, cmd_req (CMD_RMEM wd), write_req REG_ADDRESS addr], ?_, ?_, ?_⟩ <;>
          simp [hr, hr2, hm, h2, rdata_req, cmd_req, write_req]
      · refine ⟨[cmd_req (CMD_RMEM wd), write_req REG_ADDRESS addr], ?_, ?_, ?_⟩ <;>
          simp [hr, hr2, hm, h2, rdata_req, cmd_req, write_req]
    · refine ⟨[write_req REG_ADDRESS addr], ?_, ?_, ?_⟩ <;>
        simp [hr, hm, h2, rdata_req, cmd_req, write_req]

theorem dbg_read_w_dirty_ok (K : Consts) (env : Env) (w : World) (wd : width) (addr val : Nat)
    (hd : w.t.mem_written = true) (hok : reply_rc K (env.io w.sent.length) = 0) :
    dbg_read_w K env w wd addr val =
      dbg_read_w K env { w with t := { w.t with mem_written := false },
                                sent := cmd_req CMD_CACHE_SYNC :: w.sent } wd addr val := by
  rw [dbg_read_w, dbg_cache_sync_dirty K env w hd, dbg_read_w, dbg_cache_sync_clean K env _ rfl]
  simp [hok]

theorem dbg_read_w_dirty_fail (K : Consts) (env : Env) (w : World) (wd : width)
    (addr val : Nat) (hd : w.t.mem_written = true)
    (hf : reply_rc K (env.io w.sent.length) ≠ 0) :
    dbg_read_w K env w wd addr val =
      (reply_rc K (env.io w.sent.length), val,
        { w with sent := cmd_req CMD_CACHE_SYNC :: w.sent }) := by
  rw [dbg_read_w, dbg_cache_sync_dirty K env w hd]
  simp [hf]
  cases w with
  | mk t sent out bkps => cases t; simp_all

theorem read_seq_ne_sync (wd : width) (addr : Nat) (q : dbg_request)
    (h : q = rdata_req ∨ q = cmd_req (CMD_RMEM wd) ∨ q = write_req REG_ADDRESS addr) :
    q ≠ cmd_req CMD_CACHE_SYNC := by
  rcases h with h | h | h <;> subst h
  · decide
  · cases wd <;> decide
  · simp [write_req, cmd_req]

/-! ## C2 -/

/-- C2, the claim as stated fails: memory is dirty after `write32(0x2000, 0xDEADBEEF)`,
the target answers the CACHE_SYNC exchange of the following `read32` with status 1,
and the memory-dirty flag is still set after the read. -/
theorem C2_counterexample :
    ((dbg_write_w K0 (Env.status_at K0 3 1) World.fresh .w32 0x2000 0xDEADBEEF).2).t.mem_written
      = true ∧
    (dbg_read_w K0 (Env.status_at K0 3 1)
      (dbg_write_w K0 (Env.status_at K0 3 1) World.fresh .w32 0x2000 0xDEADBEEF).2
      .w32 0x2000 0).2.2.t.mem_written = true := by
  decide

/-- C2 (amended): with the memory-dirty flag set, `dbg_read##width` puts CMD(CACHE_SYNC) on
the wire first and exactly once, everything after it is one of the requests of
the read sequence, and the flag is clear afterwards when that exchange
succeeded; when it failed the flag stays set, nothing else is sent and the
error is returned.  With the flag clear no CACHE_SYNC is sent.  In the scenario
`write32(0x2000, 0xDEADBEEF)` then `read32(0x2000)` on a fresh session with a
target that answers every exchange with status 0, the wire carries ADDRESS,
WDATA, WMEM32, then one CACHE_SYNC, then RMEM32 and the RDATA read (the ADDRESS
write of the read is coalesced), and the read returns the data of that last
exchange. -/
theorem C2_read_syncs_first (K : Consts) (env : Env) (w : World) (wd : width)
    (addr val : Nat) :
    (w.t.mem_written = true →
      ∃ rest, (dbg_read_w K env w wd addr val).2.2.sent
          = rest ++ cmd_req CMD_CACHE_SYNC :: w.sent ∧
        cmd_req CMD_CACHE_SYNC ∉ rest ∧
        (∀ q ∈ rest, q = rdata_req ∨ q = cmd_req (CMD_RMEM wd) ∨
          q = write_req REG_ADDRESS addr) ∧
        (reply_rc K (env.io w.sent.length) = 0 →
          (dbg_read_w K env w wd addr val).2.2.t.mem_written = false) ∧
        (reply_rc K (env.io w.sent.length) ≠ 0 →
          rest = [] ∧ (dbg_read_w K env w wd addr val).2.2.t.mem_written = true ∧
          (dbg_read_w K env w wd addr val).1 = reply_rc K (env.io w.sent.length))) ∧
    (w.t.mem_written = false →
      ∃ new, (dbg_read_w K env w wd addr val).2.2.sent = new ++ w.sent ∧
        cmd_req CMD_CACHE_SYNC ∉ new ∧
        (dbg_read_w K env w wd addr val).2.2.t.mem_written = false) ∧
    (∀ data : Nat → Nat,
      ((dbg_write_w K0 (Env.ok K0 data) World.fresh .w32 0x2000 0xDEADBEEF).2).t.mem_written
        = true ∧
      (dbg_read_w K0 (Env.ok K0 data)
          (dbg_write_w K0 (Env.ok K0 data) World.fresh .w32 0x2000 0xDEADBEEF).2
          .w32 0x2000 0).1 = 0 ∧
      (dbg_read_w K0 (Env.ok K0 data)
          (dbg_write_w K0 (Env.ok K0 data) World.fresh .w32 0x2000 0xDEADBEEF).2
          .w32 0x2000 0).2.1 = data 5 ∧
      (dbg_read_w K0 (Env.ok K0 data)
          (dbg_write_w K0 (Env.ok K0 data) World.fresh .w32 0x2000 0xDEADBEEF).2
          .w32 0x2000 0).2.2.sent
        = [rdata_req, cmd_req CMD_RMEM32, cmd_req CMD_CACHE_SYNC, cmd_req CMD_WMEM32,
            write_req REG_WDATA 0xDEADBEEF, write_req REG_ADDRESS 0x2000]) := by
  refine ⟨?_, ?_, ?_⟩
  · intro hd
    by_cases hok : reply_rc K (env.io w.sent.length) = 0
    · obtain ⟨new, h1, h2, _⟩ := dbg_read_w_clean K env
        { w with t := { w.t with mem_written := false },
                 sent := cmd_req CMD_CACHE_SYNC :: w.sent } wd addr val rfl
      rw [dbg_read_w_dirty_ok K env w wd addr val hd hok]
      refine ⟨new, h1, ?_, h2, ?_, ?_⟩
      · intro hmem
        exact read_seq_ne_sync wd addr _ (h2 _ hmem) rfl
      · intro _
        exact (dbg_read_w_clean K env _ wd addr val rfl).choose_spec.2.2
      · intro hne; exact absurd hok hne
    · rw [dbg_read_w_dirty_fail K env w wd addr val hd hok]
      refine ⟨[], rfl, by simp, by simp, ?_, ?_⟩
      · intro h; exact absurd h hok
      · intro _; exact ⟨rfl, hd, rfl⟩
  · intro hc
    obtain ⟨new, h1, h2, h3⟩ := dbg_read_w_clean K env w wd addr val hc
    refine ⟨new, h1, ?_, h3⟩
    intro hmem
    exact read_seq_ne_sync wd addr _ (h2 _ hmem) rfl
  · intro data
    refine ⟨?_, ?_, ?_, ?_⟩ <;> rfl

/-- C2 at a concrete input: a session made dirty by `write32`, every exchange
answered with status 0. -/
theorem C2_read_syncs_first_witness :
    ((dbg_write_w K0 (Env.ok K0 fun _ => 7) World.fresh .w32 0x2000 0xDEADBEEF).2).t.mem_written
      = true ∧
    (dbg_read_w K0 (Env.ok K0 fun _ => 7)
      (dbg_write_w K0 (Env.ok K0 fun _ => 7) World.fresh .w32 0x2000 0xDEADBEEF).2
      .w32 0x2000 0).2.2.t.mem_written = false := by
  have h := (C2_read_syncs_first K0 (Env.ok K0 fun _ => 7)
    (dbg_write_w K0 (Env.ok K0 fun _ => 7) World.fresh .w32 0x2000 0xDEADBEEF).2
    .w32 0x2000 0).1 (by decide)
  obtain ⟨_, _, _, _, hok, _⟩ := h
  exact ⟨by decide, hok (by decide)⟩

/-! ## C3 -/

/-- C3: what the code does.  After any `dbg_write` to ADDRESS or to WDATA the coalescing
cache holds the value whatever the exchange returned; on a fresh session an
ADDRESS write of 0x2000 whose exchange is answered with status 1 returns 1,
leaves `cached_addr = 0x2000` with `addr_written` set, and the next ADDRESS
write of 0x2000 returns 0 without putting anything on the wire. -/
theorem C3_failed_write_updates_cache :
    (∀ (K : Consts) (env : Env) (w : World) (v : Nat),
      cache_holds (dbg_write K env w REG_ADDRESS v).2 REG_ADDRESS v ∧
      cache_holds (dbg_write K env w REG_WDATA v).2 REG_WDATA v) ∧
    ¬ cache_holds World.fresh REG_ADDRESS 0x2000 ∧
    (dbg_write K0 (Env.status_at K0 0 1) World.fresh REG_ADDRESS 0x2000).1 = 1 ∧
    (dbg_write K0 (Env.status_at K0 0 1) World.fresh REG_ADDRESS 0x2000).2.t.cached_addr
      = 0x2000 ∧
    (dbg_write K0 (Env.status_at K0 0 1) World.fresh REG_ADDRESS 0x2000).2.t.addr_written
      = true ∧
    dbg_write K0 (Env.status_at K0 0 1)
        (dbg_write K0 (Env.status_at K0 0 1) World.fresh REG_ADDRESS 0x2000).2 REG_ADDRESS 0x2000
      = (0, (dbg_write K0 (Env.status_at K0 0 1) World.fresh REG_ADDRESS 0x2000).2) ∧
    (dbg_write K0 (Env.status_at K0 0 1) World.fresh REG_ADDRESS 0x2000).2.sent
      = [write_req REG_ADDRESS 0x2000] := by
  refine ⟨fun K env w v => ⟨cache_holds_after_write K env w _ v (Or.inl rfl),
    cache_holds_after_write K env w _ v (Or.inr rfl)⟩, ?_, ?_, ?_, ?_, ?_, ?_⟩ <;> decide

/-! ## C8 -/

/-- C8: `dbg_read_reg` of the PC returns 0 and the cached `pc`, and the world (target record,
wire trace, console) is the one it started from. -/
theorem C8_read_pc_is_local (K : Consts) (env : Env) (w : World) (val : Nat) :
    dbg_read_reg K env w K.PC val = (0, w.t.pc, w) := by
  simp [dbg_read_reg]

theorem lua_read_mask (wd : width) (x : Nat) :
    x &&& (((1 <<< wd.bits) - 1) % 2 ^ 32) = x % 2 ^ wd.bits := by
  cases wd
  · exact Nat.and_pow_two_sub_one_eq_mod x 8
  · exact Nat.and_pow_two_sub_one_eq_mod x 16
  · exact Nat.and_pow_two_sub_one_eq_mod x 32

/-- When the last request of `dbg_read##width` is the RDATA read, the value stored is the
data word of its response (flag clear on entry). -/
theorem dbg_read_w_clean_value (K : Consts) (env : Env) (w : World) (wd : width)
    (addr val : Nat) (hc : w.t.mem_written = false)
    (hlast : (dbg_read_w K env w wd addr val).2.2.sent.head? = some rdata_req) :
    (dbg_read_w K env w wd addr val).2.1
      = (env.io ((dbg_read_w K env w wd addr val).2.2.sent.length - 1)).resp.data := by
  revert hlast
  simp only [dbg_read_w, dbg_cache_sync_clean K env w hc, dbg_write_cmd, dbg_read_eq]
  rcases dbg_write_cases K env w REG_ADDRESS addr with h | ⟨h1, h2⟩
  · simp only [h]
    by_cases hr : reply_rc K (env.io w.sent.length) = 0
    · simp [hr, rdata_req, cmd_req, write_req]
    · simp [hr, rdata_req, cmd_req, write_req]
  · generalize dbg_write K env w REG_ADDRESS addr = r at h1 h2
    by_cases hr : r.1 = 0
    · by_cases hr2 : reply_rc K (env.io (w.sent.length + 1)) = 0
      · simp [hr, hr2, h2, rdata_req, cmd_req, write_req]
      · simp [hr, hr2, h2, rdata_req, cmd_req, write_req]
    · simp [hr, h2, rdata_req, cmd_req, write_req]

theorem dbg_read_w_value (K : Consts) (env : Env) (w : World) (wd : width)
    (addr val : Nat)
    (hlast : (dbg_read_w K env w wd addr val).2.2.sent.head? = some rdata_req) :
    (dbg_read_w K env w wd addr val).2.1
      = (env.io ((dbg_read_w K env w wd addr val).2.2.sent.length - 1)).resp.data := by
  cases hd : w.t.mem_written
  · exact dbg_read_w_clean_value K env w wd addr val hd hlast
  · by_cases hok : reply_rc K (env.io w.sent.length) = 0
    · rw [dbg_read_w_dirty_ok K env w wd addr val hd hok] at hlast ⊢
      exact dbg_read_w_clean_value K env _ wd addr val rfl hlast
    · rw [dbg_read_w_dirty_fail K env w wd addr val hd hok] at hlast
      simp [cmd_req, rdata_req] at hlast

/-! ## C7 -/

/-- C7: whenever the last request `lua_read##width` put on the wire is the RDATA read, the
value it pushes is the data word `d` of the response to that exchange reduced
modulo `2 ^ width`; for width 32 and a 32-bit `d` it is `d` itself. -/
theorem C7_read_masks_to_width (K : Consts) (env : Env) (w : World) (wd : width)
    (addr : Int) (v0 : Nat)
    (hlast : (lua_read K env w wd addr v0).2.sent.head? = some rdata_req) :
    (lua_read K env w wd addr v0).1
      = (env.io ((lua_read K env w wd addr v0).2.sent.length - 1)).resp.data % 2 ^ wd.bits ∧
    (wd = .w32 →
      (env.io ((lua_read K env w wd addr v0).2.sent.length - 1)).resp.data < 2 ^ 32 →
      (lua_read K env w wd addr v0).1
        = (env.io ((lua_read K env w wd addr v0).2.sent.length - 1)).resp.data) := by
  have hsent : (lua_read K env w wd addr v0).2.sent
      = (dbg_read_w K env w wd (addr % 2 ^ 32).toNat v0).2.2.sent := by
    simp only [lua_read]; split <;> rfl
  have hval : (lua_read K env w wd addr v0).1
      = (dbg_read_w K env w wd (addr % 2 ^ 32).toNat v0).2.1 % 2 ^ wd.bits := by
    simp only [lua_read]; exact lua_read_mask wd _
  rw [hsent] at hlast ⊢
  rw [hval, dbg_read_w_value K env w wd _ v0 hlast]
  refine ⟨rfl, ?_⟩
  intro hw hlt
  subst hw
  exact Nat.mod_eq_of_lt hlt

/-- C7 at a concrete input: `read32` on a fresh session, the target answering every
exchange with status 0 and data 0xDEADBEEF. -/
theorem C7_read_masks_to_width_witness :
    (lua_read K0 (Env.ok K0 fun _ => 0xDEADBEEF) World.fresh .w32 0x2000 0).2.sent.head?
      = some rdata_req ∧
    (lua_read K0 (Env.ok K0 fun _ => 0xDEADBEEF) World.fresh .w32 0x2000 0).1
      = 0xDEADBEEF % 2 ^ 32 ∧
    (lua_read K0 (Env.ok K0 fun _ => 0xDEADBEEF) World.fresh .w32 0x2000 0).1 = 0xDEADBEEF :=
  ⟨by decide,
    (C7_read_masks_to_width K0 (Env.ok K0 fun _ => 0xDEADBEEF) World.fresh .w32 0x2000 0
      (by decide)).1,
    (C7_read_masks_to_width K0 (Env.ok K0 fun _ => 0xDEADBEEF) World.fresh .w32 0x2000 0
      (by decide)).2 rfl (by decide)⟩

/-! ## Frame facts: what a call adds to the wire and what it leaves alone -/

theorem dbg_write_sent (K : Consts) (env : Env) (w : World) (s : dbg_reg) (v : Nat) :
    (dbg_write K env w s v).2.sent = w.sent ∨
    (dbg_write K env w s v).2.sent = write_req s v :: w.sent := by
  rcases dbg_write_cases K env w s v with h | ⟨_, h⟩
  · left; rw [h]
  · right; exact h

theorem dbg_write_reg_frame (K : Consts) (env : Env) (w : World) (reg val : Nat) :
    (∃ new, (dbg_write_reg K env w reg val).2.sent = new ++ w.sent ∧
      ∀ q ∈ new, is_reg_write_req q) ∧
    (dbg_write_reg K env w reg val).2.t.mem_written = w.t.mem_written := by
  have ha := dbg_write_sent K env w REG_ADDRESS reg
  have hma := dbg_write_mem_written K env w REG_ADDRESS reg
  have hd := dbg_write_sent K env (dbg_write K env w REG_ADDRESS reg).2 REG_WDATA val
  have hmd := dbg_write_mem_written K env (dbg_write K env w REG_ADDRESS reg).2 REG_WDATA val
  simp only [dbg_write_reg, dbg_write_cmd]
  generalize dbg_write K env w REG_ADDRESS reg = r1 at ha hma hd hmd
  generalize dbg_write K env r1.2 REG_WDATA val = r2 at hd hmd
  have hA : is_reg_write_req (write_req REG_ADDRESS reg) := Or.inl ⟨_, rfl⟩
  have hD : is_reg_write_req (write_req REG_WDATA val) := Or.inr (Or.inl ⟨_, rfl⟩)
  have hC : is_reg_write_req (write_req REG_CMD CMD_WRITE_REG.code) := Or.inr (Or.inr rfl)
  constructor
  · split
    · rcases ha with ha | ha
      · exact ⟨[], by simp [ha], by simp⟩
      · exact ⟨[write_req REG_ADDRESS reg], by simp [ha], by simpa using hA⟩
    · split
      · rcases ha with ha | ha <;> rcases hd with hd | hd
        · exact ⟨[], by simp [ha, hd], by simp⟩
        · exact ⟨[write_req REG_WDATA val], by simp [ha, hd], by simpa using hD⟩
        · exact ⟨[write_req REG_ADDRESS reg], by simp [ha, hd], by simpa using hA⟩
        · exact ⟨[write_req REG_WDATA val, write_req REG_ADDRESS reg], by simp [ha, hd],
            by simp [hA, hD]⟩
      · split <;>
        · rcases ha with ha | ha <;> rcases hd with hd | hd
          · exact ⟨[write_req REG_CMD CMD_WRITE_REG.code], by simp [ha, hd], by simpa using hC⟩
          · exact ⟨[write_req REG_CMD CMD_WRITE_REG.code, write_req REG_WDATA val],
              by simp [ha, hd], by simp [hC, hD]⟩
          · exact ⟨[write_req REG_CMD CMD_WRITE_REG.code, write_req REG_ADDRESS reg],
              by simp [ha, hd], by simp [hC, hA]⟩
          · exact ⟨[write_req REG_CMD CMD_WRITE_REG.code, write_req REG_WDATA val,
              write_req REG_ADDRESS reg], by simp [ha, hd], by simp [hA, hC, hD]⟩
  · split
    · exact hma
    · split
      · simp [hmd, hma]
      · split <;> simp [hmd, hma]

theorem regcache_flush_frame (K : Consts) (env : Env) :
    ∀ (ps : List (Nat × Nat)) (w : World),
      (∃ new, (regcache_flush K env w ps).2.sent = new ++ w.sent ∧
        ∀ q ∈ new, is_reg_write_req q) ∧
      (regcache_flush K env w ps).2.t.mem_written = w.t.mem_written := by
  intro ps
  induction ps with
  | nil => intro w; exact ⟨⟨[], rfl, by simp⟩, rfl⟩
  | cons p ps ih =>
    intro w
    obtain ⟨⟨n1, h1, h1q⟩, hm1⟩ := dbg_write_reg_frame K env w p.1 p.2
    simp only [regcache_flush]
    split
    · exact ⟨⟨n1, by simpa using h1, h1q⟩, by simpa using hm1⟩
    · obtain ⟨⟨n2, h2, h2q⟩, hm2⟩ := ih (dbg_write_reg K env w p.1 p.2).2
      refine ⟨⟨n2 ++ n1, ?_, ?_⟩, ?_⟩
      · rw [h2, h1, List.append_assoc]
      · intro q hq
        rcases List.mem_append.mp hq with hq | hq
        · exact h2q q hq
        · exact h1q q hq
      · rw [hm2, hm1]

theorem is_reg_write_req_ne (q : dbg_request) (h : is_reg_write_req q) :
    q ≠ cmd_req CMD_CACHE_SYNC ∧ q ≠ cmd_req CMD_RUN ∧ q ≠ cmd_req CMD_STEP ∧
    q ≠ cmd_req CMD_STOP ∧ q ≠ cmd_req CMD_RESET ∧ q ≠ rdata_req := by
  rcases h with ⟨v, h⟩ | ⟨v, h⟩ | h <;> subst h <;>
    simp [write_req, cmd_req, rdata_req, dbg_cmd.code]

theorem dbg_run_after_flush (K : Consts) (env : Env) (w : World) :
    dbg_run K env w =
      if (regcache_sync K env w).1 ≠ 0 then regcache_sync K env w
      else if (dbg_cache_sync K env (regcache_sync K env w).2).1 ≠ 0 then
        dbg_cache_sync K env (regcache_sync K env w).2
      else dbg_write K env (dbg_cache_sync K env (regcache_sync K env w).2).2 REG_CMD
        CMD_RUN.code := by
  simp only [dbg_run]

theorem dbg_step_after_flush (K : Consts) (env : Env) (w : World) :
    dbg_step K env w =
      if (regcache_sync K env w).1 ≠ 0 then regcache_sync K env w
      else if (dbg_cache_sync K env (regcache_sync K env w).2).1 ≠ 0 then
        dbg_cache_sync K env (regcache_sync K env w).2
      else if (dbg_write K env (dbg_cache_sync K env (regcache_sync K env w).2).2 REG_CMD
          CMD_STEP.code).1 ≠ 0 then
        dbg_write K env (dbg_cache_sync K env (regcache_sync K env w).2).2 REG_CMD CMD_STEP.code
      else
        ((dbg_read K env (dbg_write K env (dbg_cache_sync K env (regcache_sync K env w).2).2
            REG_CMD CMD_STEP.code).2 REG_RDATA).1,
          { (dbg_read K env (dbg_write K env (dbg_cache_sync K env (regcache_sync K env w).2).2
              REG_CMD CMD_STEP.code).2 REG_RDATA).2.2 with
            t := { (dbg_read K env (dbg_write K env (dbg_cache_sync K env
                (regcache_sync K env w).2).2 REG_CMD CMD_STEP.code).2 REG_RDATA).2.2.t with
              pc := (dbg_read K env (dbg_write K env (dbg_cache_sync K env
                (regcache_sync K env w).2).2 REG_CMD CMD_STEP.code).2 REG_RDATA).2.1 } }) := by
  simp only [dbg_step]

/-! ## C10 -/

/-- C10: `dbg_run` and `dbg_step` first flush the register cache, which puts no CACHE_SYNC,
RUN or STEP on the wire.  With the memory-dirty flag set, what follows on the
wire is: nothing (the flush failed); or CMD(CACHE_SYNC) alone, when that
exchange failed, the error being returned and the flag left set; or
CMD(CACHE_SYNC), answered with success, and then the resume command (and for
`dbg_step` the RDATA read when STEP succeeded), the flag being clear.  Whenever
either function returns 0 the flag is clear. -/
theorem C10_resume_only_after_sync (K : Consts) (env : Env) (w : World) :
    ∃ flush, (regcache_sync K env w).2.sent = flush ++ w.sent ∧
      (∀ q ∈ flush, q ≠ cmd_req CMD_CACHE_SYNC ∧ q ≠ cmd_req CMD_RUN ∧ q ≠ cmd_req CMD_STEP) ∧
      (w.t.mem_written = true →
        ((dbg_run K env w).1 ≠ 0 ∧ (dbg_run K env w).2.sent = flush ++ w.sent) ∨
        ((dbg_run K env w).1 ≠ 0 ∧ reply_rc K (env.io (flush ++ w.sent).length) ≠ 0 ∧
          (dbg_run K env w).2.sent = cmd_req CMD_CACHE_SYNC :: (flush ++ w.sent) ∧
          (dbg_run K env w).2.t.mem_written = true) ∨
        (reply_rc K (env.io (flush ++ w.sent).length) = 0 ∧
          (dbg_run K env w).2.sent
            = cmd_req CMD_RUN :: cmd_req CMD_CACHE_SYNC :: (flush ++ w.sent) ∧
          (dbg_run K env w).2.t.mem_written = false)) ∧
      (w.t.mem_written = true →
        ((dbg_step K env w).1 ≠ 0 ∧ (dbg_step K env w).2.sent = flush ++ w.sent) ∨
        ((dbg_step K env w).1 ≠ 0 ∧ reply_rc K (env.io (flush ++ w.sent).length) ≠ 0 ∧
          (dbg_step K env w).2.sent = cmd_req CMD_CACHE_SYNC :: (flush ++ w.sent) ∧
          (dbg_step K env w).2.t.mem_written = true) ∨
        (reply_rc K (env.io (flush ++ w.sent).length) = 0 ∧
          ((dbg_step K env w).2.sent
              = cmd_req CMD_STEP :: cmd_req CMD_CACHE_SYNC :: (flush ++ w.sent) ∨
            (dbg_step K env w).2.sent
              = rdata_req :: cmd_req CMD_STEP :: cmd_req CMD_CACHE_SYNC :: (flush ++ w.sent)) ∧
          (dbg_step K env w).2.t.mem_written = false)) ∧
      ((dbg_run K env w).1 = 0 → (dbg_run K env w).2.t.mem_written = false) ∧
      ((dbg_step K env w).1 = 0 → (dbg_step K env w).2.t.mem_written = false) := by
  obtain ⟨⟨flush, hs, hq⟩, hm⟩ := regcache_flush_frame K env w.t.regcache w
  have hs1 : (regcache_sync K env w).2.sent = flush ++ w.sent := hs
  have hm1 : (regcache_sync K env w).2.t.mem_written = w.t.mem_written := hm
  refine ⟨flush, hs1, ?_, ?_, ?_, ?_, ?_⟩
  · intro q hmem
    have h := is_reg_write_req_ne q (hq q hmem)
    exact ⟨h.1, h.2.1, h.2.2.1⟩
  · intro hd
    rw [dbg_run_after_flush]
    generalize regcache_sync K env w = rs at hs1 hm1
    rw [hd] at hm1
    rw [dbg_cache_sync_dirty K env rs.2 hm1, hs1]
    generalize flush ++ w.sent = tr at hs1 ⊢
    by_cases h1 : rs.1 = 0
    · by_cases hok : reply_rc K (env.io tr.length) = 0
      · right; right
        simp [h1, hok, dbg_write_cmd, hs1, cmd_req, write_req]
      · right; left
        simp [h1, hok, hs1, cmd_req, write_req]
    · left
      simp [h1, hs1]
  · intro hd
    rw [dbg_step_after_flush]
    generalize regcache_sync K env w = rs at hs1 hm1
    rw [hd] at hm1
    rw [dbg_cache_sync_dirty K env rs.2 hm1, hs1]
    generalize flush ++ w.sent = tr at hs1 ⊢
    by_cases h1 : rs.1 = 0
    · by_cases hok : reply_rc K (env.io tr.length) = 0
      · right; right
        by_cases h3 : reply_rc K (env.io (tr.length + 1)) = 0
        · simp [h1, hok, h3, dbg_write_cmd, dbg_read_eq, hs1, cmd_req, write_req, rdata_req]
        · simp [h1, hok, h3, dbg_write_cmd, dbg_read_eq, hs1, cmd_req, write_req, rdata_req]
      · right; left
        simp [h1, hok, hs1, cmd_req, write_req]
    · left
      simp [h1, hs1]
  · rw [dbg_run_after_flush]
    generalize regcache_sync K env w = rs
    intro h0
    cases hd : rs.2.t.mem_written
    · rw [dbg_cache_sync_clean K env rs.2 hd] at h0 ⊢
      by_cases h1 : rs.1 = 0
      · simp [h1, dbg_write_cmd, hd]
      · simp [h1] at h0
    · rw [dbg_cache_sync_dirty K env rs.2 hd] at h0 ⊢
      by_cases h1 : rs.1 = 0
      · by_cases hok : reply_rc K (env.io rs.2.sent.length) = 0
        · simp [h1, hok, dbg_write_cmd]
        · simp [h1, hok] at h0
      · simp [h1] at h0
  · rw [dbg_step_after_flush]
    generalize regcache_sync K env w = rs
    intro h0
    cases hd : rs.2.t.mem_written
    · rw [dbg_cache_sync_clean K env rs.2 hd] at h0 ⊢
      by_cases h1 : rs.1 = 0
      · by_cases h3 : reply_rc K (env.io rs.2.sent.length) = 0
        · simp [h1, h3, dbg_write_cmd, dbg_read_eq, hd]
        · simp [h1, h3, dbg_write_cmd] at h0
      · simp [h1] at h0
    · rw [dbg_cache_sync_dirty K env rs.2 hd] at h0 ⊢
      by_cases h1 : rs.1 = 0
      · by_cases hok : reply_rc K (env.io rs.2.sent.length) = 0
        · by_cases h3 : reply_rc K (env.io (rs.2.sent.length + 1)) = 0
          · simp [h1, hok, h3, dbg_write_cmd, dbg_read_eq]
          · simp [h1, hok, h3, dbg_write_cmd] at h0
        · simp [h1, hok] at h0
      · simp [h1] at h0

/-- C10 at a concrete input: a session made dirty by `write32`, every exchange answered
with status 0: `dbg_run` returns 0 and the flag is clear. -/
theorem C10_resume_only_after_sync_witness :
    ((dbg_write_w K0 (Env.ok K0 fun _ => 0) World.fresh .w32 0x2000 1).2).t.mem_written = true ∧
    (dbg_run K0 (Env.ok K0 fun _ => 0)
      (dbg_write_w K0 (Env.ok K0 fun _ => 0) World.fresh .w32 0x2000 1).2).1 = 0 ∧
    (dbg_run K0 (Env.ok K0 fun _ => 0)
      (dbg_write_w K0 (Env.ok K0 fun _ => 0) World.fresh .w32 0x2000 1).2).2.t.mem_written
      = false := by
  obtain ⟨_, _, _, _, _, h, _⟩ := C10_resume_only_after_sync K0 (Env.ok K0 fun _ => 0)
    (dbg_write_w K0 (Env.ok K0 fun _ => 0) World.fresh .w32 0x2000 1).2
  exact ⟨by decide, by decide, h (by decide)⟩

/-! ## Properties of the wire trace and the flag that every operation preserves -/

theorem dbg_write_pres (K : Consts) (env : Env) {P : World → Prop}
    (hP : wire_closed K env P) (w : World) (s : dbg_reg) (v : Nat)
    (h : P w) (hq : is_wmem (write_req s v) = false)
    (hq2 : write_req s v ≠ cmd_req CMD_CACHE_SYNC) :
    P (dbg_write K env w s v).2 := by
  rcases dbg_write_sent K env w s v with hs | hs
  · exact hP.same w _ h hs (dbg_write_mem_written K env w s v)
  · exact hP.push w _ _ h hs (dbg_write_mem_written K env w s v) hq hq2

theorem dbg_write_addr_pres (K : Consts) (env : Env) {P : World → Prop}
    (hP : wire_closed K env P) (w : World) (v : Nat)
    (h : P w) :
    P (dbg_write K env w REG_ADDRESS v).2 :=
  dbg_write_pres K env hP w _ v h (by simp [is_wmem, write_req, cmd_req])
    (by simp [write_req, cmd_req])

theorem dbg_write_wdata_pres (K : Consts) (env : Env) {P : World → Prop}
    (hP : wire_closed K env P) (w : World) (v : Nat)
    (h : P w) :
    P (dbg_write K env w REG_WDATA v).2 :=
  dbg_write_pres K env hP w _ v h (by simp [is_wmem, write_req, cmd_req])
    (by simp [write_req, cmd_req])

theorem dbg_write_cmd_pres (K : Consts) (env : Env) {P : World → Prop}
    (hP : wire_closed K env P) (w : World) (c : dbg_cmd)
    (h : P w)
    (hc : c ≠ CMD_WMEM8 ∧ c ≠ CMD_WMEM16 ∧ c ≠ CMD_WMEM32 ∧ c ≠ CMD_CACHE_SYNC) :
    P (dbg_write K env w REG_CMD c.code).2 := by
  apply dbg_write_pres K env hP w _ _ h
  · cases c <;> simp_all [is_wmem, write_req, cmd_req, dbg_cmd.code]
  · cases c <;> simp_all [write_req, cmd_req, dbg_cmd.code]

theorem dbg_read_pres (K : Consts) (env : Env) {P : World → Prop}
    (hP : wire_closed K env P) (w : World) (s : dbg_reg)
    (h : P w) : P (dbg_read K env w s).2.2 := by
  rw [dbg_read_eq]
  exact hP.push w _ _ h rfl rfl (by simp [is_wmem, cmd_req]) (by simp [cmd_req])

theorem set_pc_pres (K : Consts) (env : Env) {P : World → Prop}
    (hP : wire_closed K env P) (w : World) (v : Nat)
    (h : P w) :
    P { w with t := { w.t with pc := v } } :=
  hP.same w _ h rfl rfl

theorem dbg_stop_pres (K : Consts) (env : Env) {P : World → Prop}
    (hP : wire_closed K env P) (w : World) (h : P w) :
    P (dbg_stop K env w).2 := by
  have h1 := dbg_write_cmd_pres K env hP w CMD_STOP h (by decide)
  simp only [dbg_stop]
  split
  · exact set_pc_pres K env hP _ _ (dbg_read_pres K env hP _ _ h1)
  · exact h1

theorem dbg_reload_pc_pres (K : Consts) (env : Env) {P : World → Prop}
    (hP : wire_closed K env P) (w : World)
    (h : P w) : P (dbg_reload_pc K env w).2 := by
  have h1 := dbg_write_addr_pres K env hP w K.PC h
  have h2 := dbg_write_cmd_pres K env hP _ CMD_READ_REG h1 (by decide)
  simp only [dbg_reload_pc]
  split
  · exact h1
  · split
    · exact h2
    · exact set_pc_pres K env hP _ _ (dbg_read_pres K env hP _ _ h2)

theorem dbg_read_reg_pres (K : Consts) (env : Env) {P : World → Prop}
    (hP : wire_closed K env P) (w : World) (reg val : Nat)
    (h : P w) :
    P (dbg_read_reg K env w reg val).2.2 := by
  have h1 := dbg_write_addr_pres K env hP w reg h
  have h2 := dbg_write_cmd_pres K env hP _ CMD_READ_REG h1 (by decide)
  simp only [dbg_read_reg]
  split
  · exact h
  · split
    · exact h1
    · split
      · exact h2
      · exact dbg_read_pres K env hP _ _ h2

theorem dbg_read_cpuid_pres (K : Consts) (env : Env) {P : World → Prop}
    (hP : wire_closed K env P) (w : World) (reg val : Nat)
    (h : P w) :
    P (dbg_read_cpuid K env w reg val).2.2 := by
  have h1 := dbg_write_addr_pres K env hP w reg h
  have h2 := dbg_write_cmd_pres K env hP _ CMD_CPUID h1 (by decide)
  simp only [dbg_read_cpuid]
  split
  · exact h1
  · split
    · exact h2
    · exact dbg_read_pres K env hP _ _ h2

theorem dbg_get_exec_status_pres (K : Consts) (env : Env) {P : World → Prop}
    (hP : wire_closed K env P) (w : World) (status : Nat)
    (h : P w) :
    P (dbg_get_exec_status K env w status).2.2 := by
  have h1 := dbg_write_cmd_pres K env hP w CMD_GET_EXEC_STATUS h (by decide)
  simp only [dbg_get_exec_status]
  split
  · exact h1
  · exact dbg_read_pres K env hP _ _ h1

theorem dbg_read_w_pres (K : Consts) (env : Env) {P : World → Prop}
    (hP : wire_closed K env P) (w : World) (wd : width) (addr val : Nat)
    (h : P w) :
    P (dbg_read_w K env w wd addr val).2.2 := by
  have h0 := hP.sync w h
  have h1 := dbg_write_addr_pres K env hP _ addr h0
  have h2 := dbg_write_cmd_pres K env hP _ (CMD_RMEM wd) h1 (by cases wd <;> decide)
  simp only [dbg_read_w]
  split
  · exact h0
  · split
    · exact h1
    · split
      · exact h2
      · exact dbg_read_pres K env hP _ _ h2

theorem dbg_write_reg_pres (K : Consts) (env : Env) {P : World → Prop}
    (hP : wire_closed K env P) (w : World) (reg val : Nat)
    (h : P w) :
    P (dbg_write_reg K env w reg val).2 := by
  have h1 := dbg_write_addr_pres K env hP w reg h
  have h2 := dbg_write_wdata_pres K env hP _ val h1
  have h3 := dbg_write_cmd_pres K env hP _ CMD_WRITE_REG h2 (by decide)
  simp only [dbg_write_reg]
  split
  · exact h1
  · split
    · exact h2
    · split
      · exact set_pc_pres K env hP _ _ h3
      · exact h3

theorem regcache_flush_pres (K : Consts) (env : Env) {P : World → Prop}
    (hP : wire_closed K env P) :
    ∀ (ps : List (Nat × Nat)) (w : World), P w →
      P (regcache_flush K env w ps).2 := by
  intro ps
  induction ps with
  | nil => intro w h; exact hP.same w _ h rfl rfl
  | cons p ps ih =>
    intro w h
    have h1 := dbg_write_reg_pres K env hP w p.1 p.2 h
    simp only [regcache_flush]
    split
    · exact hP.same _ _ h1 rfl rfl
    · exact ih _ h1

theorem regcache_sync_pres (K : Consts) (env : Env) {P : World → Prop}
    (hP : wire_closed K env P) (w : World)
    (h : P w) : P (regcache_sync K env w).2 :=
  regcache_flush_pres K env hP _ w h

theorem dbg_run_pres (K : Consts) (env : Env) {P : World → Prop}
    (hP : wire_closed K env P) (w : World) (h : P w) :
    P (dbg_run K env w).2 := by
  have h1 := regcache_sync_pres K env hP w h
  have h2 := hP.sync _ h1
  simp only [dbg_run]
  split
  · exact h1
  · split
    · exact h2
    · exact dbg_write_cmd_pres K env hP _ CMD_RUN h2 (by decide)

theorem dbg_step_pres (K : Consts) (env : Env) {P : World → Prop}
    (hP : wire_closed K env P) (w : World) (h : P w) :
    P (dbg_step K env w).2 := by
  have h1 := regcache_sync_pres K env hP w h
  have h2 := hP.sync _ h1
  have h3 := dbg_write_cmd_pres K env hP _ CMD_STEP h2 (by decide)
  simp only [dbg_step]
  split
  · exact h1
  · split
    · exact h2
    · split
      · exact h3
      · exact set_pc_pres K env hP _ _ (dbg_read_pres K env hP _ _ h3)

theorem dbg_reset_pres (K : Consts) (env : Env) {P : World → Prop}
    (hP : wire_closed K env P) (w : World) (h : P w) :
    P (dbg_reset K env w).2 := by
  have h1 := regcache_sync_pres K env hP w h
  simp only [dbg_reset]
  split
  · exact h1
  · exact dbg_write_cmd_pres K env hP _ CMD_RESET
      (hP.sync _ (dbg_stop_pres K env hP _ h1)) (by decide)

theorem sigint_handler_pres (K : Consts) (env : Env) {P : World → Prop}
    (hP : wire_closed K env P) (w : World)
    (h : P w) : P (sigint_handler K env w) :=
  dbg_stop_pres K env hP _ (hP.same w _ h rfl rfl)

theorem lua_read_pres (K : Consts) (env : Env) {P : World → Prop}
    (hP : wire_closed K env P) (w : World) (wd : width) (addr : Int)
    (v0 : Nat) (h : P w) :
    P (lua_read K env w wd addr v0).2 := by
  have h1 := dbg_read_w_pres K env hP w wd (addr % 2 ^ 32).toNat v0 h
  simp only [lua_read]
  split
  · exact hP.same _ _ h1 rfl rfl
  · exact h1

theorem lua_write_pres (K : Consts) (env : Env) {P : World → Prop}
    (hP : wire_closed K env P) (w : World) (wd : width) (addr val : Int)
    (h : P w) :
    P (lua_write K env w wd addr val) := by
  have h1 := hP.wmem w wd (addr % 2 ^ 32).toNat (val % 2 ^ 32).toNat h
  simp only [lua_write]
  split
  · exact hP.same _ _ h1 rfl rfl
  · exact h1

theorem andThen_pres (K : Consts) (env : Env) {P : World → Prop}
    (_hP : wire_closed K env P) (r : Run) (k : World → Run)
    (hr : ∀ w1, r.world = some w1 → P w1)
    (hk : ∀ w, P w → ∀ w1, (k w).world = some w1 →
      P w1) :
    ∀ w1, (r.andThen k).world = some w1 → P w1 := by
  intro w1 h
  cases r with
  | returned w => exact hk w (hr w rfl) w1 h
  | exited s w => exact hr w1 h
  | out_of_fuel => simp [Run.andThen, Run.world] at h

theorem err_pres (K : Consts) (env : Env) {P : World → Prop}
    (hP : wire_closed K env P) (w : World) (msg : String)
    (h : P w) : P (w.err msg) :=
  hP.same w _ h rfl rfl

theorem warnx_pres (K : Consts) (env : Env) {P : World → Prop}
    (hP : wire_closed K env P) (w : World) (msg : String)
    (h : P w) : P (w.warnx msg) :=
  hP.same w _ h rfl rfl

theorem disable_mmu_pres (K : Consts) (env : Env) {P : World → Prop}
    (hP : wire_closed K env P) (w : World)
    (h : P w) :
    ∀ w1, (disable_mmu K env w).world = some w1 → P w1 := by
  intro w1
  have h1 := dbg_read_reg_pres K env hP w (K.CR_BASE + 1) 0 h
  simp only [disable_mmu]
  split
  · intro he; simp only [Run.world, Option.some.injEq] at he; subst he
    exact err_pres K env hP _ _ h1
  · have h2 := dbg_write_reg_pres K env hP _ (K.CR_BASE + 1)
      ((dbg_read_reg K env w (K.CR_BASE + 1) 0).2.1 &&& MMU_CLEAR_MASK)
      (hP.same _
        { (dbg_read_reg K env w (K.CR_BASE + 1) 0).2.2 with
          t := { (dbg_read_reg K env w (K.CR_BASE + 1) 0).2.2.t with
            psr := (dbg_read_reg K env w (K.CR_BASE + 1) 0).2.1 } } h1 rfl rfl)
    split
    · intro he; simp only [Run.world, Option.some.injEq] at he; subst he
      exact err_pres K env hP _ _ h2
    · intro he; simp only [Run.world, Option.some.injEq] at he; subst he
      exact h2

theorem restore_mmu_pres (K : Consts) (env : Env) {P : World → Prop}
    (hP : wire_closed K env P) (w : World)
    (h : P w) :
    ∀ w1, (restore_mmu K env w).world = some w1 → P w1 := by
  intro w1
  have h1 := dbg_write_reg_pres K env hP w (K.CR_BASE + 1) w.t.psr h
  simp only [restore_mmu]
  split
  · intro he; simp only [Run.world, Option.some.injEq] at he; subst he
    exact err_pres K env hP _ _ h1
  · intro he; simp only [Run.world, Option.some.injEq] at he; subst he
    exact h1

theorem wait_finish_pres (K : Consts) (env : Env) {P : World → Prop}
    (hP : wire_closed K env P) (w : World) (st : Nat)
    (h : P w) :
    ∀ w1, (wait_finish K env w st).world = some w1 → P w1 := by
  intro w1
  have h1 := dbg_reload_pc_pres K env hP w h
  simp only [wait_finish]
  split
  · intro he; simp only [Run.world, Option.some.injEq] at he; subst he
    exact err_pres K env hP _ _ h1
  · intro he; simp only [Run.world, Option.some.injEq] at he; subst he
    exact hP.same _ _ h1 rfl rfl

theorem poll_loop_pres (K : Consts) (env : Env) {P : World → Prop}
    (hP : wire_closed K env P) :
    ∀ (fuel : Nat) (w : World) (st : Nat), P w →
      ∀ w1, (poll_loop K env fuel w st).world = some w1 → P w1 := by
  intro fuel
  induction fuel with
  | zero => intro w st _ w1 he; simp [poll_loop, Run.world] at he
  | succ n ih =>
    intro w st h w1
    have h1 := dbg_get_exec_status_pres K env hP w st h
    have h2 : P
        (if env.sigint (dbg_get_exec_status K env w st).2.2.sent.length = true then
          sigint_handler K env (dbg_get_exec_status K env w st).2.2
         else (dbg_get_exec_status K env w st).2.2) := by
      split
      · exact sigint_handler_pres K env hP _ h1
      · exact h1
    simp only [poll_loop]
    generalize (if env.sigint (dbg_get_exec_status K env w st).2.2.sent.length = true then
          sigint_handler K env (dbg_get_exec_status K env w st).2.2
         else (dbg_get_exec_status K env w st).2.2) = wi at h2 ⊢
    split
    · intro he; simp only [Run.world, Option.some.injEq] at he; subst he
      exact err_pres K env hP _ _ h1
    · split
      · exact ih _ _ h2 w1
      · exact wait_finish_pres K env hP _ _ h2 w1

theorem wait_until_stopped_pres (K : Consts) (env : Env) {P : World → Prop}
    (hP : wire_closed K env P) (fuel : Nat) (w : World)
    (h : P w) :
    ∀ w1, (wait_until_stopped K env fuel w).world = some w1 → P w1 :=
  poll_loop_pres K env hP fuel _ 0 (hP.same w _ h rfl rfl)

theorem do_exec_pres (K : Consts) (env : Env) {P : World → Prop}
    (hP : wire_closed K env P) (fuel : Nat) (w : World)
    (fn : World → Int × World)
    (hfn : ∀ w, P w → P (fn w).2)
    (h : P w) :
    ∀ w1, (do_exec K env fuel w fn).world = some w1 → P w1 := by
  have h1 : P
      (match breakpoint_at_addr w w.t.pc with
        | some b => (breakpoint_exec_orig K env w b).2
        | none => w) := by
    split
    · exact hP.wmem w _ _ _ h
    · exact h
  simp only [do_exec]
  apply andThen_pres K env hP _ _ (restore_mmu_pres K env hP _ h1)
  intro w2 h2
  have h3 : P
      (if (fn w2).1 ≠ 0 then (fn w2).2.warnx "failed to step target" else (fn w2).2) := by
    split
    · exact warnx_pres K env hP _ _ (hfn w2 h2)
    · exact hfn w2 h2
  apply andThen_pres K env hP _ _ (wait_until_stopped_pres K env hP fuel _ h3)
  intro w4 h4
  apply andThen_pres K env hP _ _ (disable_mmu_pres K env hP _ h4)
  intro w5 h5 w1
  split
  · intro he; simp only [Run.world, Option.some.injEq] at he; subst he
    exact hP.same _ _ h5 rfl rfl
  · intro he; simp only [Run.world, Option.some.injEq] at he; subst he
    exact h5

theorem lua_stop_pres (K : Consts) (env : Env) {P : World → Prop}
    (hP : wire_closed K env P) (w : World) (h : P w) :
    ∀ w1, (lua_stop K env w).world = some w1 → P w1 := by
  have h1 := dbg_stop_pres K env hP w h
  simp only [lua_stop]
  apply disable_mmu_pres K env hP
  split
  · exact warnx_pres K env hP _ _ h1
  · exact h1

theorem lua_reset_pres (K : Consts) (env : Env) {P : World → Prop}
    (hP : wire_closed K env P) (w : World) (h : P w) :
    ∀ w1, (lua_reset K env w).world = some w1 → P w1 := by
  have h1 := dbg_reset_pres K env hP w h
  simp only [lua_reset]
  apply disable_mmu_pres K env hP
  split
  · exact warnx_pres K env hP _ _ h1
  · exact h1

theorem op_apply_pres (K : Consts) (env : Env) {P : World → Prop}
    (hP : wire_closed K env P) (w w1 : World) (o : op)
    (h : P w) (ho : op.apply K env w o = some w1) :
    P w1 := by
  cases o <;> simp only [op.apply, Option.some.injEq] at ho <;> try subst ho
  · exact dbg_write_cmd_pres K env hP w CMD_SIM_TERM h (by decide)
  · exact dbg_write_cmd_pres K env hP w CMD_START_TRACE h (by decide)
  · exact dbg_stop_pres K env hP w h
  · exact hP.sync w h
  · exact dbg_run_pres K env hP w h
  · exact dbg_step_pres K env hP w h
  · exact dbg_reset_pres K env hP w h
  · exact dbg_reload_pc_pres K env hP w h
  · exact dbg_read_reg_pres K env hP w _ _ h
  · exact dbg_read_cpuid_pres K env hP w _ _ h
  · exact dbg_get_exec_status_pres K env hP w _ h
  · exact dbg_read_w_pres K env hP w _ _ _ h
  · exact hP.wmem w _ _ _ h
  · exact dbg_write_reg_pres K env hP w _ _ h
  · exact hP.same w _ h rfl rfl
  · exact hP.same w _ h rfl rfl
  · exact sigint_handler_pres K env hP w h
  · exact lua_read_pres K env hP w _ _ _ h
  · exact lua_write_pres K env hP w _ _ _ h
  · exact do_exec_pres K env hP _ w _ (dbg_step_pres K env hP) h w1 ho
  · exact do_exec_pres K env hP _ w _ (dbg_run_pres K env hP) h w1 ho
  · exact lua_stop_pres K env hP w h w1 ho
  · exact lua_reset_pres K env hP w h w1 ho

theorem run_ops_pres (K : Consts) (env : Env) {P : World → Prop}
    (hP : wire_closed K env P) :
    ∀ (os : List op) (w w1 : World), P w →
      run_ops K env w os = some w1 → P w1 := by
  intro os
  induction os with
  | nil => intro w w1 h he; simp only [run_ops, Option.some.injEq] at he; subst he; exact h
  | cons o os ih =>
    intro w w1 h he
    simp only [run_ops] at he
    cases ha : op.apply K env w o with
    | none => rw [ha] at he; simp at he
    | some w2 => rw [ha] at he; exact ih w2 w1 (op_apply_pres K env hP w w2 o h ha) he

/-! ## The flag tracks the wire -/

theorem ftw_same (K : Consts) (env : Env) (w w1 : World) (h : flag_tracks_wire K env w)
    (hs : w1.sent = w.sent) (hm : w1.t.mem_written = w.t.mem_written) :
    flag_tracks_wire K env w1 := by
  unfold flag_tracks_wire at *
  rw [hs, hm, h]

theorem ftw_push (K : Consts) (env : Env) (w w1 : World) (q : dbg_request)
    (h : flag_tracks_wire K env w) (hs : w1.sent = q :: w.sent)
    (hm : w1.t.mem_written = w.t.mem_written) (hq : is_wmem q = false)
    (hq2 : q ≠ cmd_req CMD_CACHE_SYNC) : flag_tracks_wire K env w1 := by
  unfold flag_tracks_wire at *
  rw [hs, hm, h]
  simp [wmem_done_since_sync, hq, hq2]

theorem dbg_write_ftw (K : Consts) (env : Env) (w : World) (s : dbg_reg) (v : Nat)
    (h : flag_tracks_wire K env w) (hq : is_wmem (write_req s v) = false)
    (hq2 : write_req s v ≠ cmd_req CMD_CACHE_SYNC) :
    flag_tracks_wire K env (dbg_write K env w s v).2 := by
  rcases dbg_write_sent K env w s v with hs | hs
  · exact ftw_same K env w _ h hs (dbg_write_mem_written K env w s v)
  · exact ftw_push K env w _ _ h hs (dbg_write_mem_written K env w s v) hq hq2

theorem dbg_write_addr_ftw (K : Consts) (env : Env) (w : World) (v : Nat)
    (h : flag_tracks_wire K env w) :
    flag_tracks_wire K env (dbg_write K env w REG_ADDRESS v).2 :=
  dbg_write_ftw K env w _ v h (by simp [is_wmem, write_req, cmd_req])
    (by simp [write_req, cmd_req])

theorem dbg_write_wdata_ftw (K : Consts) (env : Env) (w : World) (v : Nat)
    (h : flag_tracks_wire K env w) :
    flag_tracks_wire K env (dbg_write K env w REG_WDATA v).2 :=
  dbg_write_ftw K env w _ v h (by simp [is_wmem, write_req, cmd_req])
    (by simp [write_req, cmd_req])

theorem dbg_cache_sync_ftw (K : Consts) (env : Env) (w : World)
    (h : flag_tracks_wire K env w) : flag_tracks_wire K env (dbg_cache_sync K env w).2 := by
  cases hd : w.t.mem_written
  · rw [dbg_cache_sync_clean K env w hd]; exact h
  · rw [dbg_cache_sync_dirty K env w hd]
    unfold flag_tracks_wire at *
    rw [hd] at h
    by_cases hok : reply_rc K (env.io w.sent.length) = 0
    · simp [wmem_done_since_sync, hok, is_wmem, cmd_req, dbg_cmd.code]
    · simp [wmem_done_since_sync, hok, ← h]

theorem dbg_write_w_ftw (K : Consts) (env : Env) (w : World) (wd : width) (addr val : Nat)
    (h : flag_tracks_wire K env w) :
    flag_tracks_wire K env (dbg_write_w K env w wd addr val).2 := by
  have h1 := dbg_write_addr_ftw K env w addr h
  have h2 := dbg_write_wdata_ftw K env (dbg_write K env w REG_ADDRESS addr).2 val h1
  simp only [dbg_write_w, dbg_write_cmd]
  generalize dbg_write K env w REG_ADDRESS addr = r1 at h1 h2
  generalize dbg_write K env r1.2 REG_WDATA val = r2 at h2
  split
  · exact h1
  · split
    · exact h2
    · unfold flag_tracks_wire at *
      split
      · rename_i hf
        simp at hf
        cases wd <;>
          simp [wmem_done_since_sync, hf, is_wmem, cmd_req, write_req, dbg_cmd.code, CMD_WMEM,
            h2]
      · rename_i hf
        simp at hf
        cases wd <;>
          simp [wmem_done_since_sync, hf, is_wmem, cmd_req, write_req, dbg_cmd.code, CMD_WMEM]

theorem ftw_closed (K : Consts) (env : Env) : wire_closed K env (flag_tracks_wire K env) :=
  { same := ftw_same K env
    push := ftw_push K env
    sync := dbg_cache_sync_ftw K env
    wmem := dbg_write_w_ftw K env }

/-- The trace of a world extends the trace `tr`. -/
theorem suffix_closed (K : Consts) (env : Env) (tr : List dbg_request) :
    wire_closed K env (fun x => tr <:+ x.sent) :=
  { same := by
      intro w w1 h hs _
      show tr <:+ w1.sent
      rw [hs]; exact h
    push := by
      intro w w1 q h hs _ _ _
      show tr <:+ w1.sent
      rw [hs]; exact List.IsSuffix.trans h (List.suffix_cons q w.sent)
    sync := by
      intro w h
      show tr <:+ (dbg_cache_sync K env w).2.sent
      cases hd : w.t.mem_written
      · rw [dbg_cache_sync_clean K env w hd]; exact h
      · rw [dbg_cache_sync_dirty K env w hd]
        exact List.IsSuffix.trans h (List.suffix_cons _ w.sent)
    wmem := by
      intro w wd addr val h
      show tr <:+ (dbg_write_w K env w wd addr val).2.sent
      have key : ∀ (x : World) (s : dbg_reg) (v : Nat), tr <:+ x.sent →
          tr <:+ (dbg_write K env x s v).2.sent := by
        intro x s v hx
        rcases dbg_write_sent K env x s v with hs | hs
        · rw [hs]; exact hx
        · rw [hs]; exact List.IsSuffix.trans hx (List.suffix_cons _ x.sent)
      have h1 := key w REG_ADDRESS addr h
      have h2 := key _ REG_WDATA val h1
      have h3 := key _ REG_CMD (CMD_WMEM wd).code h2
      simp only [dbg_write_w]
      split
      · exact h1
      · split
        · exact h2
        · split
          · exact h3
          · exact h3 }

theorem op_apply_suffix (K : Consts) (env : Env) (w w1 : World) (o : op)
    (ho : op.apply K env w o = some w1) : w.sent <:+ w1.sent :=
  op_apply_pres K env (suffix_closed K env w.sent) w w1 o (List.suffix_refl _) ho

/-- When the trace says "dirty" and a longer trace says "clean", a successful
CACHE_SYNC lies in between. -/
theorem wmem_done_cleared (K : Consts) (env : Env) (old : List dbg_request) :
    ∀ new : List dbg_request, wmem_done_since_sync K env old = true →
      wmem_done_since_sync K env (new ++ old) = false →
      ∃ newer older, new ++ old = newer ++ cmd_req CMD_CACHE_SYNC :: older ∧
        old <:+ older ∧ reply_rc K (env.io older.length) = 0 := by
  intro new
  induction new with
  | nil => intro h1 h2; simp [h1] at h2
  | cons q new ih =>
    intro h1 h2
    simp only [List.cons_append, wmem_done_since_sync, List.append_eq] at h2
    by_cases hok : reply_rc K (env.io (new ++ old).length) = 0
    · rw [if_pos hok] at h2
      by_cases hw : is_wmem q = true
      · simp [hw] at h2
      · by_cases hs : q = cmd_req CMD_CACHE_SYNC
        · exact ⟨[], new ++ old, by simp [hs], List.suffix_append _ _, hok⟩
        · simp only [hw, hs, if_false] at h2
          obtain ⟨newer, older, he, hsuf, hr⟩ := ih h1 (by simpa using h2)
          exact ⟨q :: newer, older, by simp [he], hsuf, hr⟩
    · rw [if_neg hok] at h2
      obtain ⟨newer, older, he, hsuf, hr⟩ := ih h1 h2
      exact ⟨q :: newer, older, by simp [he], hsuf, hr⟩

/-! ## C4 -/

/-- C4, the claim as stated fails: on a fresh session `write32` whose WMEM32 exchange is
answered with status 1 has put a memory write command on the wire, no
CACHE_SYNC follows it, and the memory-dirty flag is clear. -/
theorem C4_counterexample :
    (run_ops K0 (Env.status_at K0 2 1) World.fresh [op.write_mem .w32 0x2000 1]).map
        (fun w => (w.sent, wmem_issued_since_sync w.sent, w.t.mem_written))
      = some ([cmd_req CMD_WMEM32, write_req REG_WDATA 1, write_req REG_ADDRESS 0x2000],
          true, false) := by
  decide

/-- C4 (amended): in every state reached from a fresh session by operations of the engine,
the memory-dirty flag is set exactly when some memory write command exchange
has succeeded since the last successful CACHE_SYNC exchange.  An operation
that takes such a state from flag set to flag clear has put a CACHE_SYNC on the
wire that was answered with success.  A `dbg_write##width` that returns 0 leaves the
flag set. -/
theorem C4_flag_tracks_successful_writes (K : Consts) (env : Env) :
    (∀ (os : List op) (w : World), run_ops K env World.fresh os = some w →
      w.t.mem_written = wmem_done_since_sync K env w.sent) ∧
    (∀ (os : List op) (w : World) (o : op) (w1 : World),
      run_ops K env World.fresh os = some w → op.apply K env w o = some w1 →
      w.t.mem_written = true → w1.t.mem_written = false →
      ∃ newer older, w1.sent = newer ++ cmd_req CMD_CACHE_SYNC :: older ∧
        w.sent <:+ older ∧ reply_rc K (env.io older.length) = 0) ∧
    (∀ (w : World) (wd : width) (addr val : Nat),
      (dbg_write_w K env w wd addr val).1 = 0 →
      (dbg_write_w K env w wd addr val).2.t.mem_written = true) := by
  have hfresh : flag_tracks_wire K env World.fresh := rfl
  refine ⟨?_, ?_, ?_⟩
  · intro os w h
    exact run_ops_pres K env (ftw_closed K env) os World.fresh w hfresh h
  · intro os w o w1 h ho hset hclear
    have hw : flag_tracks_wire K env w :=
      run_ops_pres K env (ftw_closed K env) os World.fresh w hfresh h
    have hw1 : flag_tracks_wire K env w1 := op_apply_pres K env (ftw_closed K env) w w1 o hw ho
    obtain ⟨new, hnew⟩ := op_apply_suffix K env w w1 o ho
    unfold flag_tracks_wire at hw hw1
    rw [hset] at hw
    rw [hclear, ← hnew] at hw1
    obtain ⟨newer, older, he, hsuf, hr⟩ := wmem_done_cleared K env w.sent new hw.symm hw1.symm
    exact ⟨newer, older, by rw [← hnew, he], hsuf, hr⟩
  · intro w wd addr val
    simp only [dbg_write_w]
    split
    · rename_i h1; intro h0; exact absurd h0 h1
    · split
      · rename_i h2; intro h0; exact absurd h0 h2
      · split
        · rename_i h3; intro h0; exact absurd h0 h3
        · intro _; rfl

/-- C4 at a concrete input: `write32` then `read32` on a fresh session, every exchange
answered with status 0. -/
theorem C4_flag_tracks_successful_writes_witness :
    run_ops K0 (Env.ok K0 fun _ => 0) World.fresh [op.write_mem .w32 0x2000 1]
      = some (dbg_write_w K0 (Env.ok K0 fun _ => 0) World.fresh .w32 0x2000 1).2 ∧
    (dbg_write_w K0 (Env.ok K0 fun _ => 0) World.fresh .w32 0x2000 1).2.t.mem_written
      = wmem_done_since_sync K0 (Env.ok K0 fun _ => 0)
          (dbg_write_w K0 (Env.ok K0 fun _ => 0) World.fresh .w32 0x2000 1).2.sent ∧
    (dbg_write_w K0 (Env.ok K0 fun _ => 0) World.fresh .w32 0x2000 1).1 = 0 ∧
    (dbg_write_w K0 (Env.ok K0 fun _ => 0) World.fresh .w32 0x2000 1).2.t.mem_written = true :=
  ⟨rfl,
    (C4_flag_tracks_successful_writes K0 (Env.ok K0 fun _ => 0)).1
      [op.write_mem .w32 0x2000 1] _ rfl,
    by decide,
    (C4_flag_tracks_successful_writes K0 (Env.ok K0 fun _ => 0)).2.2 World.fresh .w32 0x2000 1
      (by decide)⟩

/-! ## Register access in detail -/

theorem dbg_write_reg_hit_ok (K : Consts) (env : Env) (w : World) (reg val : Nat)
    (hreg : reg ≠ K.PC) (ha : cache_holds w REG_ADDRESS reg)
    (h0 : (dbg_write_reg K env w reg val).1 = 0) :
    ∃ b, (dbg_write_reg K env w reg val).2.sent = cmd_req CMD_WRITE_REG :: b ++ w.sent ∧
      (b = [] ∨ b = [write_req REG_WDATA val]) ∧
      reply_rc K (env.io (b ++ w.sent).length) = 0 ∧
      cache_holds (dbg_write_reg K env w reg val).2 REG_ADDRESS reg ∧
      cache_holds (dbg_write_reg K env w reg val).2 REG_WDATA val ∧
      (dbg_write_reg K env w reg val).2.t.psr = w.t.psr ∧
      (dbg_write_reg K env w reg val).2.t.pc = w.t.pc := by
  revert h0
  simp only [dbg_write_reg, dbg_write_hit K env w _ _ ha]
  by_cases hd : cache_holds w REG_WDATA val
  · simp only [dbg_write_hit K env w _ _ hd, dbg_write_cmd]
    intro h0
    refine ⟨[], ?_⟩
    simp [hreg, cmd_req, write_req] at h0 ⊢
    exact ⟨h0, ha, hd⟩
  · simp only [dbg_write_wdata_miss K env w val hd, dbg_write_cmd]
    intro h0
    refine ⟨[write_req REG_WDATA val], ?_⟩
    by_cases hr : reply_rc K (env.io w.sent.length) = 0
    · simp [hreg, hr, cmd_req, write_req] at h0 ⊢
      refine ⟨h0, ?_, ?_⟩
      · rcases ha with ⟨_, h1, h2⟩ | ⟨h1, _, _⟩
        · exact Or.inl ⟨rfl, h1, h2⟩
        · cases h1
      · exact Or.inr ⟨rfl, rfl, rfl⟩
    · simp [hreg, hr] at h0

theorem dbg_write_reg_miss (K : Consts) (env : Env) (w : World) (reg val : Nat)
    (ha : ¬ cache_holds w REG_ADDRESS reg) (hr : reply_rc K (env.io w.sent.length) = 0) :
    dbg_write_reg K env w reg val =
      dbg_write_reg K env
        { w with t := { w.t with cached_addr := reg, addr_written := true },
                 sent := write_req REG_ADDRESS reg :: w.sent } reg val := by
  rw [dbg_write_reg, dbg_write_reg, dbg_write_addr_miss K env w reg ha,
    dbg_write_hit K env _ REG_ADDRESS reg (Or.inl ⟨rfl, rfl, rfl⟩)]
  simp [hr]

theorem dbg_write_reg_miss_fail (K : Consts) (env : Env) (w : World) (reg val : Nat)
    (ha : ¬ cache_holds w REG_ADDRESS reg) (hr : reply_rc K (env.io w.sent.length) ≠ 0) :
    (dbg_write_reg K env w reg val).1 ≠ 0 := by
  rw [dbg_write_reg, dbg_write_addr_miss K env w reg ha]
  simp [hr]

/-- A successful `dbg_write_reg` of a register other than PC: what it put on the wire and
what the cache holds afterwards. -/
theorem dbg_write_reg_ok (K : Consts) (env : Env) (w : World) (reg val : Nat)
    (hreg : reg ≠ K.PC) (h0 : (dbg_write_reg K env w reg val).1 = 0) :
    ∃ a b, (dbg_write_reg K env w reg val).2.sent
        = cmd_req CMD_WRITE_REG :: b ++ a ++ w.sent ∧
      (a = [] ∨ a = [write_req REG_ADDRESS reg]) ∧
      (cache_holds w REG_ADDRESS reg → a = []) ∧
      (b = [] ∨ b = [write_req REG_WDATA val]) ∧
      reply_rc K (env.io (b ++ a ++ w.sent).length) = 0 ∧
      cache_holds (dbg_write_reg K env w reg val).2 REG_ADDRESS reg ∧
      cache_holds (dbg_write_reg K env w reg val).2 REG_WDATA val ∧
      (dbg_write_reg K env w reg val).2.t.psr = w.t.psr ∧
      (dbg_write_reg K env w reg val).2.t.pc = w.t.pc := by
  by_cases ha : cache_holds w REG_ADDRESS reg
  · obtain ⟨b, h1, h2, h3, h4, h5, h6, h7⟩ := dbg_write_reg_hit_ok K env w reg val hreg ha h0
    exact ⟨[], b, by simpa using h1, Or.inl rfl, fun _ => rfl, h2, by simpa using h3, h4, h5,
      h6, h7⟩
  · by_cases hr : reply_rc K (env.io w.sent.length) = 0
    · rw [dbg_write_reg_miss K env w reg val ha hr] at h0 ⊢
      obtain ⟨b, h1, h2, h3, h4, h5, h6, h7⟩ :=
        dbg_write_reg_hit_ok K env _ reg val hreg (Or.inl ⟨rfl, rfl, rfl⟩) h0
      exact ⟨[write_req REG_ADDRESS reg], b, by simpa using h1, Or.inr rfl,
        fun h => absurd h ha, h2, by simpa using h3, h4, h5, h6, h7⟩
    · exact absurd h0 (dbg_write_reg_miss_fail K env w reg val ha hr)
/-- A successful `dbg_read_reg` of a register other than PC. -/
theorem dbg_read_reg_ok (K : Consts) (env : Env) (w : World) (reg val : Nat)
    (hreg : reg ≠ K.PC) (h0 : (dbg_read_reg K env w reg val).1 = 0) :
    ∃ a, (dbg_read_reg K env w reg val).2.2.sent
        = rdata_req :: cmd_req CMD_READ_REG :: a ++ w.sent ∧
      (a = [] ∨ a = [write_req REG_ADDRESS reg]) ∧
      (dbg_read_reg K env w reg val).2.1 = (env.io ((a ++ w.sent).length + 1)).resp.data ∧
      cache_holds (dbg_read_reg K env w reg val).2.2 REG_ADDRESS reg ∧
      (dbg_read_reg K env w reg val).2.2.t.psr = w.t.psr := by
  revert h0
  simp only [dbg_read_reg, hreg, if_false, dbg_write_cmd, dbg_read_eq]
  by_cases ha : cache_holds w REG_ADDRESS reg
  · simp only [dbg_write_hit K env w _ _ ha]
    intro h0
    refine ⟨[], ?_⟩
    by_cases hr : reply_rc K (env.io w.sent.length) = 0
    · simp [hr, cmd_req, write_req, rdata_req] at h0 ⊢
      exact ha
    · simp [hr] at h0
  · simp only [dbg_write_addr_miss K env w reg ha]
    intro h0
    refine ⟨[write_req REG_ADDRESS reg], ?_⟩
    by_cases hr : reply_rc K (env.io w.sent.length) = 0
    · by_cases hr2 : reply_rc K (env.io (w.sent.length + 1)) = 0
      · simp [hr, hr2, cmd_req, write_req, rdata_req] at h0 ⊢
        exact Or.inl ⟨rfl, rfl, rfl⟩
      · simp [hr, hr2] at h0
    · simp [hr] at h0

theorem disable_mmu_returned (K : Consts) (env : Env) (w w1 : World)
    (hK : K.CR_BASE + 1 ≠ K.PC) (h : disable_mmu K env w = .returned w1) :
    psr_written_cleared K env w1 := by
  revert h
  simp only [disable_mmu]
  by_cases hx : (dbg_read_reg K env w (K.CR_BASE + 1) 0).1 = 0
  · obtain ⟨a, h1, _, h3, h4, _⟩ := dbg_read_reg_ok K env w (K.CR_BASE + 1) 0 hK hx
    generalize dbg_read_reg K env w (K.CR_BASE + 1) 0 = x at hx h1 h3 h4
    have h4' : cache_holds { x.2.2 with t := { x.2.2.t with psr := x.2.1 } } REG_ADDRESS
        (K.CR_BASE + 1) := h4
    by_cases hr : (dbg_write_reg K env { x.2.2 with t := { x.2.2.t with psr := x.2.1 } }
        (K.CR_BASE + 1) (x.2.1 &&& MMU_CLEAR_MASK)).1 = 0
    · obtain ⟨a2, b, g1, _, g3, g4, _, g6, g7, g8, _⟩ := dbg_write_reg_ok K env _
        (K.CR_BASE + 1) (x.2.1 &&& MMU_CLEAR_MASK) hK hr
      have ha2 := g3 h4'
      subst ha2
      simp only [hx, hr, ne_eq, not_true_eq_false, if_false, Run.returned.injEq]
      intro he
      subst he
      refine ⟨b, a ++ w.sent, ?_, ?_, ?_, g6, ?_⟩
      · rw [g1]; simp [h1]
      · rw [g8]; exact g4
      · rw [g8]; exact h3
      · rw [g8]; exact g7
    · simp [hx, hr]
  · simp [hx]
/-! ## Only `disable_mmu` assigns `psr` -/

theorem dbg_write_psr (K : Consts) (env : Env) (w : World) (s : dbg_reg) (v : Nat) :
    (dbg_write K env w s v).2.t.psr = w.t.psr := by
  by_cases h : cache_holds w s v
  · rw [dbg_write_hit K env w s v h]
  · cases s
    · rw [dbg_write_cmd]
    · rw [dbg_write_addr_miss K env w v h]
    · rw [dbg_write_wdata_miss K env w v h]
    · rw [dbg_write_rdata]

theorem dbg_read_psr (K : Consts) (env : Env) (w : World) (s : dbg_reg) :
    (dbg_read K env w s).2.2.t.psr = w.t.psr := by
  rw [dbg_read_eq]

theorem dbg_stop_psr (K : Consts) (env : Env) (w : World) :
    (dbg_stop K env w).2.t.psr = w.t.psr := by
  simp only [dbg_stop]
  split <;> simp [dbg_write_psr, dbg_read_psr]

theorem dbg_cache_sync_psr (K : Consts) (env : Env) (w : World) :
    (dbg_cache_sync K env w).2.t.psr = w.t.psr := by
  simp only [dbg_cache_sync]
  repeat' split
  all_goals simp [dbg_write_psr, dbg_read_psr]

theorem dbg_reload_pc_psr (K : Consts) (env : Env) (w : World) :
    (dbg_reload_pc K env w).2.t.psr = w.t.psr := by
  simp only [dbg_reload_pc]
  repeat' split
  all_goals simp [dbg_write_psr, dbg_read_psr]

theorem dbg_read_reg_psr (K : Consts) (env : Env) (w : World) (reg val : Nat) :
    (dbg_read_reg K env w reg val).2.2.t.psr = w.t.psr := by
  simp only [dbg_read_reg]
  repeat' split
  all_goals simp [dbg_write_psr, dbg_read_psr]

theorem dbg_read_cpuid_psr (K : Consts) (env : Env) (w : World) (reg val : Nat) :
    (dbg_read_cpuid K env w reg val).2.2.t.psr = w.t.psr := by
  simp only [dbg_read_cpuid]
  repeat' split
  all_goals simp [dbg_write_psr, dbg_read_psr]

theorem dbg_get_exec_status_psr (K : Consts) (env : Env) (w : World) (status : Nat) :
    (dbg_get_exec_status K env w status).2.2.t.psr = w.t.psr := by
  simp only [dbg_get_exec_status]
  repeat' split
  all_goals simp [dbg_write_psr, dbg_read_psr]

theorem dbg_read_w_psr (K : Consts) (env : Env) (w : World) (wd : width) (addr val : Nat) :
    (dbg_read_w K env w wd addr val).2.2.t.psr = w.t.psr := by
  simp only [dbg_read_w]
  repeat' split
  all_goals simp [dbg_write_psr, dbg_read_psr, dbg_cache_sync_psr]

theorem dbg_write_w_psr (K : Consts) (env : Env) (w : World) (wd : width) (addr val : Nat) :
    (dbg_write_w K env w wd addr val).2.t.psr = w.t.psr := by
  simp only [dbg_write_w]
  repeat' split
  all_goals simp [dbg_write_psr, dbg_read_psr]

theorem dbg_write_reg_psr (K : Consts) (env : Env) (w : World) (reg val : Nat) :
    (dbg_write_reg K env w reg val).2.t.psr = w.t.psr := by
  simp only [dbg_write_reg]
  repeat' split
  all_goals simp [dbg_write_psr, dbg_read_psr]

theorem regcache_flush_psr (K : Consts) (env : Env) :
    ∀ (ps : List (Nat × Nat)) (w : World), (regcache_flush K env w ps).2.t.psr = w.t.psr := by
  intro ps
  induction ps with
  | nil => intro w; rfl
  | cons p ps ih =>
    intro w
    simp only [regcache_flush]
    split
    · simp [dbg_write_reg_psr]
    · rw [ih, dbg_write_reg_psr]

theorem regcache_sync_psr (K : Consts) (env : Env) (w : World) :
    (regcache_sync K env w).2.t.psr = w.t.psr :=
  regcache_flush_psr K env _ w

theorem dbg_run_psr (K : Consts) (env : Env) (w : World) :
    (dbg_run K env w).2.t.psr = w.t.psr := by
  simp only [dbg_run]
  repeat' split
  all_goals simp [dbg_write_psr, dbg_read_psr, dbg_cache_sync_psr, regcache_sync_psr]

theorem dbg_step_psr (K : Consts) (env : Env) (w : World) :
    (dbg_step K env w).2.t.psr = w.t.psr := by
  simp only [dbg_step]
  repeat' split
  all_goals simp [dbg_write_psr, dbg_read_psr, dbg_cache_sync_psr, regcache_sync_psr]

theorem dbg_reset_psr (K : Consts) (env : Env) (w : World) :
    (dbg_reset K env w).2.t.psr = w.t.psr := by
  simp only [dbg_reset]
  repeat' split
  all_goals simp [dbg_write_psr, dbg_read_psr, dbg_cache_sync_psr, regcache_sync_psr,
    dbg_stop_psr]

theorem op_apply_psr (K : Consts) (env : Env) (w w1 : World) (o : op)
    (hd : o.disables = false) (ho : op.apply K env w o = some w1) : w1.t.psr = w.t.psr := by
  cases o <;> first | (simp [op.disables] at hd; done) | skip
  all_goals simp only [op.apply, Option.some.injEq] at ho
  all_goals subst ho
  · exact dbg_write_psr K env w _ _
  · exact dbg_write_psr K env w _ _
  · exact dbg_stop_psr K env w
  · exact dbg_cache_sync_psr K env w
  · exact dbg_run_psr K env w
  · exact dbg_step_psr K env w
  · exact dbg_reset_psr K env w
  · exact dbg_reload_pc_psr K env w
  · exact dbg_read_reg_psr K env w _ _
  · exact dbg_read_cpuid_psr K env w _ _
  · exact dbg_get_exec_status_psr K env w _
  · exact dbg_read_w_psr K env w _ _ _
  · exact dbg_write_w_psr K env w _ _ _
  · exact dbg_write_reg_psr K env w _ _
  · rfl
  · rfl
  · exact dbg_stop_psr K env _
  · simp only [lua_read]; split <;> simp [World.warnx, dbg_read_w_psr]
  · simp only [lua_write]; split <;> simp [World.warnx, dbg_write_w_psr]

/-! ## `do_exec` in detail -/

theorem andThen_returned (r : Run) (k : World → Run) (w1 : World)
    (h : r.andThen k = .returned w1) : ∃ w, r = .returned w ∧ k w = .returned w1 := by
  cases r with
  | returned w => exact ⟨w, rfl, h⟩
  | exited s w => simp [Run.andThen] at h
  | out_of_fuel => simp [Run.andThen] at h

theorem psr_written_cleared_congr (K : Consts) (env : Env) (w w1 : World)
    (hs : w1.sent = w.sent) (ht : w1.t = w.t) (h : psr_written_cleared K env w) :
    psr_written_cleared K env w1 := by
  unfold psr_written_cleared cache_holds at *
  rw [hs, ht]
  exact h

theorem do_exec_returned (K : Consts) (env : Env) (fuel : Nat) (w w1 : World)
    (fn : World → Int × World) (h : do_exec K env fuel w fn = .returned w1) :
    ∃ w4 w5, disable_mmu K env w4 = .returned w5 ∧ w1.sent = w5.sent ∧ w1.t = w5.t := by
  simp only [do_exec] at h
  obtain ⟨w2, _, h2⟩ := andThen_returned _ _ _ h
  obtain ⟨w4, _, h4⟩ := andThen_returned _ _ _ h2
  obtain ⟨w5, h5, h6⟩ := andThen_returned _ _ _ h4
  refine ⟨w4, w5, h5, ?_⟩
  revert h6
  split
  · intro he; simp only [Run.returned.injEq] at he; subst he; exact ⟨rfl, rfl⟩
  · intro he; simp only [Run.returned.injEq] at he; subst he; exact ⟨rfl, rfl⟩

theorem dbg_write_new (K : Consts) (env : Env) (w : World) (s : dbg_reg) (v : Nat) :
    ∃ new, (dbg_write K env w s v).2.sent = new ++ w.sent ∧ ∀ q ∈ new, q = write_req s v := by
  rcases dbg_write_sent K env w s v with h | h
  · exact ⟨[], by simp [h], by simp⟩
  · exact ⟨[write_req s v], by simp [h], by simp⟩

theorem dbg_write_w_frame (K : Consts) (env : Env) (w : World) (wd : width) (addr val : Nat) :
    ∃ new, (dbg_write_w K env w wd addr val).2.sent = new ++ w.sent ∧
      ∀ q ∈ new, q ≠ cmd_req CMD_RUN ∧ q ≠ cmd_req CMD_STEP := by
  obtain ⟨n1, h1, q1⟩ := dbg_write_new K env w REG_ADDRESS addr
  obtain ⟨n2, h2, q2⟩ := dbg_write_new K env (dbg_write K env w REG_ADDRESS addr).2 REG_WDATA val
  obtain ⟨n3, h3, q3⟩ := dbg_write_new K env
    (dbg_write K env (dbg_write K env w REG_ADDRESS addr).2 REG_WDATA val).2 REG_CMD
    (CMD_WMEM wd).code
  have e1 : ∀ q ∈ n1, q ≠ cmd_req CMD_RUN ∧ q ≠ cmd_req CMD_STEP := by
    intro q hq; rw [q1 q hq]; simp [write_req, cmd_req]
  have e2 : ∀ q ∈ n2, q ≠ cmd_req CMD_RUN ∧ q ≠ cmd_req CMD_STEP := by
    intro q hq; rw [q2 q hq]; simp [write_req, cmd_req]
  have e3 : ∀ q ∈ n3, q ≠ cmd_req CMD_RUN ∧ q ≠ cmd_req CMD_STEP := by
    intro q hq; rw [q3 q hq]; cases wd <;> simp [write_req, cmd_req, CMD_WMEM, dbg_cmd.code]
  simp only [dbg_write_w]
  split
  · exact ⟨n1, h1, e1⟩
  · split
    · refine ⟨n2 ++ n1, by simp [h2, h1], ?_⟩
      intro q hq
      rcases List.mem_append.mp hq with hq | hq
      · exact e2 q hq
      · exact e1 q hq
    · have h123 : ∃ new, (dbg_write K env (dbg_write K env (dbg_write K env w REG_ADDRESS
          addr).2 REG_WDATA val).2 REG_CMD (CMD_WMEM wd).code).2.sent = new ++ w.sent ∧
          ∀ q ∈ new, q ≠ cmd_req CMD_RUN ∧ q ≠ cmd_req CMD_STEP := by
        refine ⟨n3 ++ (n2 ++ n1), by simp [h3, h2, h1], ?_⟩
        intro q hq
        rcases List.mem_append.mp hq with hq | hq
        · exact e3 q hq
        · rcases List.mem_append.mp hq with hq | hq
          · exact e2 q hq
          · exact e1 q hq
      split
      · exact h123
      · exact h123

theorem exec_orig_at_pc_frame (K : Consts) (env : Env) (w : World) :
    (∃ new, (exec_orig_at_pc K env w).sent = new ++ w.sent ∧
      ∀ q ∈ new, q ≠ cmd_req CMD_RUN ∧ q ≠ cmd_req CMD_STEP) ∧
    (exec_orig_at_pc K env w).t.psr = w.t.psr := by
  simp only [exec_orig_at_pc]
  split
  · exact ⟨dbg_write_w_frame K env w _ _ _, dbg_write_w_psr K env w _ _ _⟩
  · exact ⟨⟨[], rfl, by simp⟩, rfl⟩

theorem mmu_clear_mask_bits (d : Nat) (hd : d < 2 ^ 32) (i : Nat) :
    (d &&& MMU_CLEAR_MASK).testBit i = (d.testBit i && decide (i ≠ 7)) := by
  rw [Nat.testBit_and]
  by_cases hi : i < 32
  · have hm : MMU_CLEAR_MASK.testBit i = decide (i ≠ 7) := by
      unfold MMU_CLEAR_MASK
      interval_cases i <;> decide
    rw [hm]
  · have hlt : d < 2 ^ i :=
      lt_of_lt_of_le hd (Nat.pow_le_pow_right (by norm_num) (Nat.le_of_not_lt hi))
    simp [Nat.testBit_lt_two_pow hlt]

theorem restore_mmu_exited (K : Consts) (env : Env) (w wx : World) (s : Nat)
    (h : restore_mmu K env w = .exited s wx) :
    ∃ new, wx.sent = new ++ w.sent ∧ ∀ q ∈ new, q ≠ cmd_req CMD_RUN ∧ q ≠ cmd_req CMD_STEP := by
  obtain ⟨⟨new, h1, h2⟩, _⟩ := dbg_write_reg_frame K env w (K.CR_BASE + 1) w.t.psr
  revert h
  simp only [restore_mmu]
  split
  · intro he
    simp only [Run.exited.injEq] at he
    obtain ⟨_, he⟩ := he
    subst he
    refine ⟨new, h1, ?_⟩
    intro q hq
    have := is_reg_write_req_ne q (h2 q hq)
    exact ⟨this.2.1, this.2.2.1⟩
  · intro he; simp at he

theorem restore_mmu_returned (K : Consts) (env : Env) (w w2 : World)
    (hK : K.CR_BASE + 1 ≠ K.PC) (h : restore_mmu K env w = .returned w2) :
    (∃ pre, w2.sent = cmd_req CMD_WRITE_REG :: pre ++ w.sent ∧
      (∀ q ∈ pre, q ≠ cmd_req CMD_RUN ∧ q ≠ cmd_req CMD_STEP) ∧
      reply_rc K (env.io (pre ++ w.sent).length) = 0) ∧
    cache_holds w2 REG_ADDRESS (K.CR_BASE + 1) ∧ cache_holds w2 REG_WDATA w.t.psr := by
  revert h
  simp only [restore_mmu]
  split
  · intro he; simp at he
  · rename_i hr
    simp only [ne_eq, not_not] at hr
    intro he
    simp only [Run.returned.injEq] at he
    subst he
    obtain ⟨a, b, g1, g2, _, g4, g5, g6, g7, _, _⟩ :=
      dbg_write_reg_ok K env w (K.CR_BASE + 1) w.t.psr hK hr
    refine ⟨⟨b ++ a, by simpa using g1, ?_, g5⟩, g6, g7⟩
    intro q hq
    rcases List.mem_append.mp hq with hq | hq
    · rcases g4 with g4 | g4 <;> simp [g4] at hq
      subst hq; simp [write_req, cmd_req]
    · rcases g2 with g2 | g2 <;> simp [g2] at hq
      subst hq; simp [write_req, cmd_req]

theorem do_exec_after_restore (K : Consts) (env : Env) (fuel : Nat) (w w2 : World)
    (fn : World → Int × World)
    (h : restore_mmu K env (exec_orig_at_pc K env w) = .returned w2) :
    ∀ wf, (do_exec K env fuel w fn).world = some wf → (fn w2).2.sent <:+ wf.sent := by
  have hc := suffix_closed K env (fn w2).2.sent
  have hd : do_exec K env fuel w fn =
      (restore_mmu K env (exec_orig_at_pc K env w)).andThen fun w2 =>
        (wait_until_stopped K env fuel
          (if (fn w2).1 ≠ 0 then (fn w2).2.warnx "failed to step target" else (fn w2).2)).andThen
        fun w4 => (disable_mmu K env w4).andThen fun w5 =>
          match breakpoint_at_addr w5 w5.t.pc with
          | some b => .returned { w5 with out := console.bkpt_hit b.id b.addr :: w5.out }
          | none => .returned w5 := rfl
  rw [hd, h]
  simp only [Run.andThen]
  have h3 : (fn w2).2.sent <:+
      (if (fn w2).1 ≠ 0 then (fn w2).2.warnx "failed to step target" else (fn w2).2).sent := by
    split
    · exact List.suffix_refl _
    · exact List.suffix_refl _
  apply andThen_pres K env hc _ _ (wait_until_stopped_pres K env hc fuel _ h3)
  intro w4 h4
  apply andThen_pres K env hc _ _ (disable_mmu_pres K env hc _ h4)
  intro w5 h5 wf
  split
  · intro he; simp only [Run.world, Option.some.injEq] at he; subst he; exact h5
  · intro he; simp only [Run.world, Option.some.injEq] at he; subst he; exact h5

theorem run_ops_psr (K : Consts) (env : Env) :
    ∀ (os : List op) (w w1 : World), (∀ o ∈ os, o.disables = false) →
      run_ops K env w os = some w1 → w1.t.psr = w.t.psr := by
  intro os
  induction os with
  | nil => intro w w1 _ he; simp only [run_ops, Option.some.injEq] at he; subst he; rfl
  | cons o os ih =>
    intro w w1 hall he
    simp only [run_ops] at he
    cases ha : op.apply K env w o with
    | none => rw [ha] at he; simp at he
    | some w2 =>
      rw [ha] at he
      rw [ih w2 w1 (fun o2 h2 => hall o2 (List.mem_cons_of_mem _ h2)) he]
      exact op_apply_psr K env w w2 o (hall o (List.mem_cons_self _ _)) ha


/-! ## What `disable_mmu` and `restore_mmu` hand to `dbg_write_reg` -/

/-- The MMU handling of `lua_stop`, `lua_reset` and `do_exec`, read on the coalescing cache (not on
the wire: a WDATA write that the cache absorbs is not sent), provided the PSR
(`CR_BASE + 1`) is not the PC register.
(1) Whenever `lua_stop`, `lua_reset`, `lua_run` or `lua_step` returns, the last exchanges on
the wire are READ_REG, the RDATA read, possibly a WDATA write, and WRITE_REG,
with the cache holding `CR_BASE + 1` for ADDRESS and, for WDATA, the word just read
with the mask `~(1 << 7)` applied, and `psr` holding the word just read; the mask clears
bit 7 of a 32-bit word and keeps every other bit.
(2) No sequence of operations other than these four changes `psr`.
(3) In `do_exec`, when the PSR write-back fails the process exits and no RUN or STEP has
been put on the wire; when it succeeds, WRITE_REG was answered with success
with the cache holding `CR_BASE + 1` for ADDRESS and the saved `psr` for WDATA, no RUN or
STEP precedes it, and `dbg_run` / `dbg_step` is called only after it.
(4) Scenario: `stop` then `run` on a fresh session whose target answers every read with
0x80: the wire carries STOP, RDATA, ADDRESS(`CR_BASE + 1`), READ_REG, RDATA, WDATA(0),
WRITE_REG for the stop, then WDATA(0x80), WRITE_REG, RUN and the first poll. -/
theorem mmu_handling_on_cache (K : Consts) (env : Env) (hK : K.CR_BASE + 1 ≠ K.PC) :
    (∀ (w w1 : World) (fuel : Nat),
      (lua_stop K env w = .returned w1 ∨ lua_reset K env w = .returned w1 ∨
        lua_run K env fuel w = .returned w1 ∨ lua_step K env fuel w = .returned w1) →
      psr_written_cleared K env w1) ∧
    (∀ d : Nat, d < 2 ^ 32 → ∀ i : Nat,
      (d &&& MMU_CLEAR_MASK).testBit i = (d.testBit i && decide (i ≠ 7))) ∧
    (∀ (os : List op) (w w1 : World), (∀ o ∈ os, o.disables = false) →
      run_ops K env w os = some w1 → w1.t.psr = w.t.psr) ∧
    (∀ (fuel : Nat) (w : World) (fn : World → Int × World),
      (∀ (s : Nat) (wx : World),
        restore_mmu K env (exec_orig_at_pc K env w) = .exited s wx →
        do_exec K env fuel w fn = .exited s wx ∧
        ∃ pre, wx.sent = pre ++ w.sent ∧
          ∀ q ∈ pre, q ≠ cmd_req CMD_RUN ∧ q ≠ cmd_req CMD_STEP) ∧
      (∀ w2 : World, restore_mmu K env (exec_orig_at_pc K env w) = .returned w2 →
        (∃ pre, w2.sent = cmd_req CMD_WRITE_REG :: pre ++ w.sent ∧
          (∀ q ∈ pre, q ≠ cmd_req CMD_RUN ∧ q ≠ cmd_req CMD_STEP) ∧
          reply_rc K (env.io (pre ++ w.sent).length) = 0) ∧
        cache_holds w2 REG_ADDRESS (K.CR_BASE + 1) ∧
        cache_holds w2 REG_WDATA w.t.psr ∧
        ∀ wf, (do_exec K env fuel w fn).world = some wf → (fn w2).2.sent <:+ wf.sent)) ∧
    ((lua_run K0 (Env.ok K0 fun _ => 0x80) 1
        ((lua_stop K0 (Env.ok K0 fun _ => 0x80) World.fresh).world.getD World.fresh)).world.map
        (fun x => x.sent.reverse.take 11)
      = some [cmd_req CMD_STOP, rdata_req, write_req REG_ADDRESS (K0.CR_BASE + 1),
          cmd_req CMD_READ_REG, rdata_req, write_req REG_WDATA 0, cmd_req CMD_WRITE_REG,
          write_req REG_WDATA 0x80, cmd_req CMD_WRITE_REG, cmd_req CMD_RUN,
          cmd_req CMD_GET_EXEC_STATUS]) := by
  refine ⟨?_, mmu_clear_mask_bits, ?_, ?_, by decide⟩
  · intro w w1 fuel h
    rcases h with h | h | h | h
    · exact disable_mmu_returned K env _ w1 hK h
    · exact disable_mmu_returned K env _ w1 hK h
    · obtain ⟨w4, w5, h5, hs, ht⟩ := do_exec_returned K env fuel w w1 _ h
      exact psr_written_cleared_congr K env w5 w1 hs ht (disable_mmu_returned K env w4 w5 hK h5)
    · obtain ⟨w4, w5, h5, hs, ht⟩ := do_exec_returned K env fuel w w1 _ h
      exact psr_written_cleared_congr K env w5 w1 hs ht (disable_mmu_returned K env w4 w5 hK h5)
  · intro os w w1 hd ho
    exact run_ops_psr K env os w w1 hd ho
  · intro fuel w fn
    obtain ⟨⟨n0, hn0, hq0⟩, hpsr⟩ := exec_orig_at_pc_frame K env w
    constructor
    · intro s wx h
      constructor
      · have hd : do_exec K env fuel w fn =
            (restore_mmu K env (exec_orig_at_pc K env w)).andThen fun w2 =>
              (wait_until_stopped K env fuel
                (if (fn w2).1 ≠ 0 then (fn w2).2.warnx "failed to step target"
                 else (fn w2).2)).andThen
              fun w4 => (disable_mmu K env w4).andThen fun w5 =>
                match breakpoint_at_addr w5 w5.t.pc with
                | some b => .returned { w5 with out := console.bkpt_hit b.id b.addr :: w5.out }
                | none => .returned w5 := rfl
        rw [hd, h]; rfl
      · obtain ⟨n1, hn1, hq1⟩ := restore_mmu_exited K env _ wx s h
        refine ⟨n1 ++ n0, by rw [hn1, hn0, List.append_assoc], ?_⟩
        intro q hq
        rcases List.mem_append.mp hq with hq | hq
        · exact hq1 q hq
        · exact hq0 q hq
    · intro w2 h
      obtain ⟨⟨pre, g1, g2, g3⟩, g4, g5⟩ := restore_mmu_returned K env _ w2 hK h
      refine ⟨⟨pre ++ n0, ?_, ?_, ?_⟩, g4, ?_, do_exec_after_restore K env fuel w w2 fn h⟩
      · rw [g1, hn0]; simp
      · intro q hq
        rcases List.mem_append.mp hq with hq | hq
        · exact g2 q hq
        · exact hq0 q hq
      · rw [hn0] at g3; simpa using g3
      · rw [hpsr] at g5; exact g5

/-! ## Where `err(1, ...)` is reached -/

theorem dbg_write_fail (K : Consts) (env : Env) (w : World) (s : dbg_reg) (v : Nat)
    (h : (dbg_write K env w s v).1 ≠ 0) : last_failed K env (dbg_write K env w s v).2 := by
  rcases dbg_write_cases K env w s v with h1 | ⟨h1, h2⟩
  · rw [h1] at h; exact absurd rfl h
  · exact ⟨_, _, h2, by rw [← h1]; exact h⟩

theorem dbg_read_fail (K : Consts) (env : Env) (w : World) (s : dbg_reg)
    (h : (dbg_read K env w s).1 ≠ 0) : last_failed K env (dbg_read K env w s).2.2 := by
  rw [dbg_read_eq] at h ⊢
  exact ⟨_, _, rfl, h⟩

theorem last_failed_congr (K : Consts) (env : Env) (w w1 : World) (hs : w1.sent = w.sent)
    (h : last_failed K env w) : last_failed K env w1 := by
  unfold last_failed at *
  rw [hs]; exact h

theorem dbg_write_reg_fail (K : Consts) (env : Env) (w : World) (reg val : Nat)
    (h : (dbg_write_reg K env w reg val).1 ≠ 0) :
    last_failed K env (dbg_write_reg K env w reg val).2 := by
  revert h
  simp only [dbg_write_reg]
  split
  · intro _; exact dbg_write_fail K env _ _ _ (by assumption)
  · split
    · intro _; exact dbg_write_fail K env _ _ _ (by assumption)
    · split
      · rename_i h3; intro h; exact absurd h3.1 h
      · intro h; exact dbg_write_fail K env _ _ _ h

theorem dbg_read_reg_fail (K : Consts) (env : Env) (w : World) (reg val : Nat)
    (h : (dbg_read_reg K env w reg val).1 ≠ 0) :
    last_failed K env (dbg_read_reg K env w reg val).2.2 := by
  revert h
  simp only [dbg_read_reg]
  split
  · intro h; exact absurd rfl h
  · split
    · intro _; exact dbg_write_fail K env _ _ _ (by assumption)
    · split
      · intro _; exact dbg_write_fail K env _ _ _ (by assumption)
      · intro h; exact dbg_read_fail K env _ _ h

theorem dbg_get_exec_status_fail (K : Consts) (env : Env) (w : World) (st : Nat)
    (h : (dbg_get_exec_status K env w st).1 ≠ 0) :
    last_failed K env (dbg_get_exec_status K env w st).2.2 := by
  revert h
  simp only [dbg_get_exec_status]
  split
  · intro _; exact dbg_write_fail K env _ _ _ (by assumption)
  · intro h; exact dbg_read_fail K env _ _ h

theorem dbg_reload_pc_fail (K : Consts) (env : Env) (w : World)
    (h : (dbg_reload_pc K env w).1 ≠ 0) : last_failed K env (dbg_reload_pc K env w).2 := by
  revert h
  simp only [dbg_reload_pc]
  split
  · intro _; exact dbg_write_fail K env _ _ _ (by assumption)
  · split
    · intro _; exact dbg_write_fail K env _ _ _ (by assumption)
    · intro h
      exact last_failed_congr K env _ _ rfl (dbg_read_fail K env _ _ h)

theorem restore_mmu_died (K : Consts) (env : Env) (w wx : World) (s : Nat)
    (h : restore_mmu K env w = .exited s wx) : died_on_failure K env s wx := by
  revert h
  simp only [restore_mmu]
  split
  · rename_i hf
    intro he
    simp only [Run.exited.injEq] at he
    obtain ⟨hs, hw⟩ := he
    subst hs; subst hw
    exact ⟨rfl, last_failed_congr K env _ _ rfl (dbg_write_reg_fail K env _ _ _ hf), _, rfl⟩
  · intro he; simp at he

theorem disable_mmu_died (K : Consts) (env : Env) (w wx : World) (s : Nat)
    (h : disable_mmu K env w = .exited s wx) : died_on_failure K env s wx := by
  revert h
  simp only [disable_mmu]
  split
  · rename_i hf
    intro he
    simp only [Run.exited.injEq] at he
    obtain ⟨hs, hw⟩ := he
    subst hs; subst hw
    exact ⟨rfl, last_failed_congr K env _ _ rfl (dbg_read_reg_fail K env _ _ _ hf), _, rfl⟩
  · split
    · rename_i hf
      intro he
      simp only [Run.exited.injEq] at he
      obtain ⟨hs, hw⟩ := he
      subst hs; subst hw
      exact ⟨rfl, last_failed_congr K env _ _ rfl (dbg_write_reg_fail K env _ _ _ hf), _, rfl⟩
    · intro he; simp at he

theorem wait_finish_died (K : Consts) (env : Env) (w wx : World) (st s : Nat)
    (h : wait_finish K env w st = .exited s wx) : died_on_failure K env s wx := by
  revert h
  simp only [wait_finish]
  split
  · rename_i hf
    intro he
    simp only [Run.exited.injEq] at he
    obtain ⟨hs, hw⟩ := he
    subst hs; subst hw
    exact ⟨rfl, last_failed_congr K env _ _ rfl (dbg_reload_pc_fail K env _ hf), _, rfl⟩
  · intro he; simp at he

theorem poll_loop_died (K : Consts) (env : Env) :
    ∀ (fuel : Nat) (w : World) (st : Nat) (s : Nat) (wx : World),
      poll_loop K env fuel w st = .exited s wx → died_on_failure K env s wx := by
  intro fuel
  induction fuel with
  | zero => intro w st s wx he; simp [poll_loop] at he
  | succ n ih =>
    intro w st s wx
    simp only [poll_loop]
    split
    · rename_i hf
      intro he
      simp only [Run.exited.injEq] at he
      obtain ⟨hs, hw⟩ := he
      subst hs; subst hw
      exact ⟨rfl, last_failed_congr K env _ _ rfl (dbg_get_exec_status_fail K env _ _ hf),
        _, rfl⟩
    · generalize (if env.sigint (dbg_get_exec_status K env w st).2.2.sent.length = true then
          sigint_handler K env (dbg_get_exec_status K env w st).2.2
         else (dbg_get_exec_status K env w st).2.2) = wi
      split
      · exact ih _ _ s wx
      · exact wait_finish_died K env _ wx _ s

theorem andThen_exited (r : Run) (k : World → Run) (s : Nat) (wx : World)
    (h : r.andThen k = .exited s wx) :
    r = .exited s wx ∨ ∃ w, r = .returned w ∧ k w = .exited s wx := by
  cases r with
  | returned w => exact Or.inr ⟨w, rfl, h⟩
  | exited s2 w2 => exact Or.inl h
  | out_of_fuel => simp [Run.andThen] at h

theorem do_exec_died (K : Consts) (env : Env) (fuel : Nat) (w wx : World) (s : Nat)
    (fn : World → Int × World) (h : do_exec K env fuel w fn = .exited s wx) :
    died_on_failure K env s wx := by
  simp only [do_exec] at h
  rcases andThen_exited _ _ _ _ h with h1 | ⟨w2, _, h2⟩
  · exact restore_mmu_died K env _ wx s h1
  · rcases andThen_exited _ _ _ _ h2 with h3 | ⟨w4, _, h4⟩
    · exact poll_loop_died K env fuel _ 0 s wx h3
    · rcases andThen_exited _ _ _ _ h4 with h5 | ⟨w5, _, h6⟩
      · exact disable_mmu_died K env _ wx s h5
      · revert h6
        split <;> (intro he; simp at he)

/-! ## The console only grows -/

theorem dbg_write_out (K : Consts) (env : Env) (w : World) (s : dbg_reg) (v : Nat) :
    (dbg_write K env w s v).2.out = w.out := by
  by_cases h : cache_holds w s v
  · rw [dbg_write_hit K env w s v h]
  · cases s
    · rw [dbg_write_cmd]
    · rw [dbg_write_addr_miss K env w v h]
    · rw [dbg_write_wdata_miss K env w v h]
    · rw [dbg_write_rdata]

theorem dbg_read_out (K : Consts) (env : Env) (w : World) (s : dbg_reg) :
    (dbg_read K env w s).2.2.out = w.out := by
  rw [dbg_read_eq]

theorem dbg_stop_out (K : Consts) (env : Env) (w : World) :
    (dbg_stop K env w).2.out = w.out := by
  simp only [dbg_stop]
  split <;> simp [dbg_write_out, dbg_read_out]

theorem dbg_reload_pc_out (K : Consts) (env : Env) (w : World) :
    (dbg_reload_pc K env w).2.out = w.out := by
  simp only [dbg_reload_pc]
  repeat' split
  all_goals simp [dbg_write_out, dbg_read_out]

theorem dbg_read_reg_out (K : Consts) (env : Env) (w : World) (reg val : Nat) :
    (dbg_read_reg K env w reg val).2.2.out = w.out := by
  simp only [dbg_read_reg]
  repeat' split
  all_goals simp [dbg_write_out, dbg_read_out]

theorem dbg_get_exec_status_out (K : Consts) (env : Env) (w : World) (status : Nat) :
    (dbg_get_exec_status K env w status).2.2.out = w.out := by
  simp only [dbg_get_exec_status]
  repeat' split
  all_goals simp [dbg_write_out, dbg_read_out]

theorem dbg_write_reg_out (K : Consts) (env : Env) (w : World) (reg val : Nat) :
    (dbg_write_reg K env w reg val).2.out = w.out := by
  simp only [dbg_write_reg]
  repeat' split
  all_goals simp [dbg_write_out, dbg_read_out]

theorem disable_mmu_out (K : Consts) (env : Env) (w : World) :
    ∀ wf, (disable_mmu K env w).world = some wf → w.out <:+ wf.out := by
  intro wf
  simp only [disable_mmu]
  repeat' split
  all_goals
    intro he
    simp only [Run.world, Option.some.injEq] at he
    subst he
    simp [World.err, dbg_write_reg_out, dbg_read_reg_out]

theorem wait_finish_out (K : Consts) (env : Env) (w : World) (st : Nat) :
    ∀ wf, (wait_finish K env w st).world = some wf → w.out <:+ wf.out := by
  intro wf
  simp only [wait_finish]
  repeat' split
  all_goals
    intro he
    simp only [Run.world, Option.some.injEq] at he
    subst he
    simp [World.err, dbg_reload_pc_out]

theorem poll_loop_out (K : Consts) (env : Env) :
    ∀ (fuel : Nat) (w : World) (st : Nat) (wf : World),
      (poll_loop K env fuel w st).world = some wf → w.out <:+ wf.out := by
  intro fuel
  induction fuel with
  | zero => intro w st wf he; simp [poll_loop, Run.world] at he
  | succ n ih =>
    intro w st wf
    have h1 := dbg_get_exec_status_out K env w st
    have h2 : (if env.sigint (dbg_get_exec_status K env w st).2.2.sent.length = true then
          sigint_handler K env (dbg_get_exec_status K env w st).2.2
         else (dbg_get_exec_status K env w st).2.2).out = w.out := by
      split
      · simp only [sigint_handler]; rw [dbg_stop_out]; exact h1
      · exact h1
    simp only [poll_loop]
    generalize (if env.sigint (dbg_get_exec_status K env w st).2.2.sent.length = true then
          sigint_handler K env (dbg_get_exec_status K env w st).2.2
         else (dbg_get_exec_status K env w st).2.2) = wi at h2 ⊢
    split
    · intro he
      simp only [Run.world, Option.some.injEq] at he
      subst he
      simp [World.err, h1]
    · split
      · intro he; rw [← h2]; exact ih _ _ wf he
      · intro he; rw [← h2]; exact wait_finish_out K env _ _ wf he

theorem dbg_get_exec_status_first (K : Consts) (env : Env) (w : World) (st : Nat) :
    cmd_req CMD_GET_EXEC_STATUS :: w.sent <:+ (dbg_get_exec_status K env w st).2.2.sent := by
  simp only [dbg_get_exec_status, dbg_write_cmd, dbg_read_eq]
  split
  · exact List.suffix_refl _
  · exact List.suffix_cons _ _

theorem poll_loop_first (K : Consts) (env : Env) (fuel : Nat) (w : World) (st : Nat) :
    ∀ wf, (poll_loop K env (fuel + 1) w st).world = some wf →
      cmd_req CMD_GET_EXEC_STATUS :: w.sent <:+ wf.sent := by
  intro wf
  have hc := suffix_closed K env (cmd_req CMD_GET_EXEC_STATUS :: w.sent)
  have h1 := dbg_get_exec_status_first K env w st
  have h2 : cmd_req CMD_GET_EXEC_STATUS :: w.sent <:+
      (if env.sigint (dbg_get_exec_status K env w st).2.2.sent.length = true then
          sigint_handler K env (dbg_get_exec_status K env w st).2.2
         else (dbg_get_exec_status K env w st).2.2).sent := by
    split
    · exact sigint_handler_pres K env hc _ h1
    · exact h1
  simp only [poll_loop]
  generalize (if env.sigint (dbg_get_exec_status K env w st).2.2.sent.length = true then
        sigint_handler K env (dbg_get_exec_status K env w st).2.2
       else (dbg_get_exec_status K env w st).2.2) = wi at h2 ⊢
  split
  · intro he
    simp only [Run.world, Option.some.injEq] at he
    subst he
    exact h1
  · split
    · exact poll_loop_pres K env hc fuel wi _ h2 wf
    · exact wait_finish_pres K env hc wi _ h2 wf

theorem andThen_world (r : Run) (k : World → Run) (Q : World → Prop)
    (hr : ∀ s wx, r = .exited s wx → Q wx)
    (hk : ∀ w, r = .returned w → ∀ wf, (k w).world = some wf → Q wf) :
    ∀ wf, (r.andThen k).world = some wf → Q wf := by
  intro wf h
  cases r with
  | returned w => exact hk w rfl wf h
  | exited s w =>
    simp only [Run.andThen, Run.world, Option.some.injEq] at h
    subst h
    exact hr s _ rfl
  | out_of_fuel => simp [Run.andThen, Run.world] at h

theorem do_exec_fn_failed (K : Consts) (env : Env) (fuel : Nat) (w w2 : World)
    (fn : World → Int × World)
    (h : restore_mmu K env (exec_orig_at_pc K env w) = .returned w2)
    (hf : (fn w2).1 ≠ 0) :
    ∀ wf, (do_exec K env (fuel + 1) w fn).world = some wf →
      console.warnx "failed to step target" ∈ wf.out ∧
      cmd_req CMD_GET_EXEC_STATUS :: (fn w2).2.sent <:+ wf.sent := by
  have hc := suffix_closed K env (cmd_req CMD_GET_EXEC_STATUS :: (fn w2).2.sent)
  have hd : do_exec K env (fuel + 1) w fn =
      (restore_mmu K env (exec_orig_at_pc K env w)).andThen fun w2 =>
        (wait_until_stopped K env (fuel + 1)
          (if (fn w2).1 ≠ 0 then (fn w2).2.warnx "failed to step target" else (fn w2).2)).andThen
        fun w4 => (disable_mmu K env w4).andThen fun w5 =>
          match breakpoint_at_addr w5 w5.t.pc with
          | some b => .returned { w5 with out := console.bkpt_hit b.id b.addr :: w5.out }
          | none => .returned w5 := rfl
  rw [hd, h]
  simp only [Run.andThen, hf, ne_eq, not_false_eq_true, if_true]
  have hwait : ∀ wf, (wait_until_stopped K env (fuel + 1)
      ((fn w2).2.warnx "failed to step target")).world = some wf →
      console.warnx "failed to step target" ∈ wf.out ∧
      cmd_req CMD_GET_EXEC_STATUS :: (fn w2).2.sent <:+ wf.sent := by
    intro wf he
    constructor
    · have := poll_loop_out K env (fuel + 1) _ 0 wf he
      exact this.subset (by simp [World.warnx])
    · have hp := poll_loop_first K env fuel _ 0 wf he
      exact hp
  apply andThen_world
  · intro s wx he
    exact hwait wx (by rw [he]; rfl)
  · intro w4 he4
    have h4 := hwait w4 (by rw [he4]; rfl)
    apply andThen_world
    · intro s wx he
      have hw : (disable_mmu K env w4).world = some wx := by rw [he]; rfl
      exact ⟨(disable_mmu_out K env w4 wx hw).subset h4.1,
        disable_mmu_pres K env hc w4 h4.2 wx hw⟩
    · intro w5 he5 wf
      have hw : (disable_mmu K env w4).world = some w5 := by rw [he5]; rfl
      have h5 : console.warnx "failed to step target" ∈ w5.out ∧
          cmd_req CMD_GET_EXEC_STATUS :: (fn w2).2.sent <:+ w5.sent :=
        ⟨(disable_mmu_out K env w4 w5 hw).subset h4.1, disable_mmu_pres K env hc w4 h4.2 w5 hw⟩
      split
      · intro he; simp only [Run.world, Option.some.injEq] at he; subst he
        exact ⟨List.mem_cons_of_mem _ h5.1, h5.2⟩
      · intro he; simp only [Run.world, Option.some.injEq] at he; subst he
        exact h5

/-! ## C9 -/

/-- C9, the claim as stated fails: on a fresh session `run` restores the PSR (exchanges 0
to 2), issues RUN (exchange 3), and the first exec-status poll (exchange 4) is
answered with status 1 over a transport that works: the process exits with
status 1 after printing "failed to get execution status.". -/
theorem C9_counterexample :
    exchange_rc K0 ((Env.status_at K0 4 1).io 4) = 0 ∧
    reply_rc K0 ((Env.status_at K0 4 1).io 4) = 1 ∧
    (lua_run K0 (Env.status_at K0 4 1) 8 World.fresh).status = some 1 ∧
    (lua_run K0 (Env.status_at K0 4 1) 8 World.fresh).world.map (fun w => (w.sent, w.out))
      = some ([cmd_req CMD_GET_EXEC_STATUS, cmd_req CMD_RUN, cmd_req CMD_WRITE_REG,
          write_req REG_WDATA 0, write_req REG_ADDRESS (K0.CR_BASE + 1)],
          [console.err "failed to get execution status."]) := by
  refine ⟨?_, ?_, ?_, ?_⟩ <;> decide

/-! ## Interruption of the poll loop -/

theorem dbg_reload_pc_ok (K : Consts) (env : Env) (w : World)
    (h0 : (dbg_reload_pc K env w).1 = 0) :
    ∃ a, (dbg_reload_pc K env w).2.sent = rdata_req :: cmd_req CMD_READ_REG :: a ++ w.sent ∧
      (a = [] ∨ a = [write_req REG_ADDRESS K.PC]) ∧
      (dbg_reload_pc K env w).2.t.pc = (env.io ((a ++ w.sent).length + 1)).resp.data := by
  revert h0
  simp only [dbg_reload_pc, dbg_write_cmd, dbg_read_eq]
  by_cases ha : cache_holds w REG_ADDRESS K.PC
  · simp only [dbg_write_hit K env w _ _ ha]
    intro h0
    refine ⟨[], ?_⟩
    by_cases hr : reply_rc K (env.io w.sent.length) = 0
    · simp [hr, cmd_req, write_req, rdata_req] at h0 ⊢
    · simp [hr] at h0
  · simp only [dbg_write_addr_miss K env w K.PC ha]
    intro h0
    refine ⟨[write_req REG_ADDRESS K.PC], ?_⟩
    by_cases hr : reply_rc K (env.io w.sent.length) = 0
    · by_cases hr2 : reply_rc K (env.io (w.sent.length + 1)) = 0
      · simp [hr, hr2, cmd_req, write_req, rdata_req] at h0 ⊢
      · simp [hr, hr2] at h0
    · simp [hr] at h0

theorem sigint_handler_eq (K : Consts) (env : Env) (w : World) :
    (sigint_handler K env w).t.interrupted = true ∧
    ((reply_rc K (env.io w.sent.length) = 0 ∧
        (sigint_handler K env w).sent = rdata_req :: cmd_req CMD_STOP :: w.sent ∧
        (sigint_handler K env w).t.pc = (env.io (w.sent.length + 1)).resp.data) ∨
      (reply_rc K (env.io w.sent.length) ≠ 0 ∧
        (sigint_handler K env w).sent = cmd_req CMD_STOP :: w.sent ∧
        (sigint_handler K env w).t.pc = w.t.pc)) := by
  simp only [sigint_handler, dbg_stop, dbg_write_cmd, dbg_read_eq]
  by_cases hr : reply_rc K (env.io w.sent.length) = 0
  · simp [hr, cmd_req, write_req, rdata_req]
  · simp [hr, cmd_req, write_req, rdata_req]

/-! ## SIGINT delivered after a completed status exchange -/

/-- A run of `wait_until_stopped` in which the target reports RUNNING, SIGINT is delivered after
the first status poll and the CMD(STOP) exchange of the handler is answered with
status 1: no RDATA read follows the STOP, the next requests are those of the PC
reload, and `wait_until_stopped` returns. -/
theorem wait_until_stopped_stop_refused :
    (wait_until_stopped K0 (Env.interrupt K0 2 1) 8 World.fresh).status = none ∧
    (wait_until_stopped K0 (Env.interrupt K0 2 1) 8 World.fresh).world.map
        (fun w => w.sent.reverse)
      = some [cmd_req CMD_GET_EXEC_STATUS, rdata_req, cmd_req CMD_STOP,
          write_req REG_ADDRESS K0.PC, cmd_req CMD_READ_REG, rdata_req] := by
  refine ⟨?_, ?_⟩ <;> decide

/-- The one delivery point of the embedding: SIGINT is delivered in an iteration of the poll
loop whose status exchange succeeded, after that exchange and before the loop
test.  The handler sets the interruption flag and issues `stop()`: CMD(STOP), and
the RDATA read into `pc` when STOP was answered with success.  The loop ends
there for every bound on the iterations: what remains is the PC reload.  When
the reload succeeds `wait_until_stopped` returns with `pc` holding the data word of the
reload's RDATA read; when it fails the process exits with status 1.  A delivery
at any other instant, in the middle of an exchange in particular, is not
described by this statement. -/
theorem poll_loop_interrupted_after_status (K : Consts) (env : Env) (fuel : Nat) (w : World)
    (st : Nat) (hpoll : (dbg_get_exec_status K env w st).1 = 0)
    (hsig : env.sigint (dbg_get_exec_status K env w st).2.2.sent.length = true) :
    poll_loop K env (fuel + 1) w st
      = wait_finish K env (sigint_handler K env (dbg_get_exec_status K env w st).2.2)
          (dbg_get_exec_status K env w st).2.1 ∧
    (sigint_handler K env (dbg_get_exec_status K env w st).2.2).t.interrupted = true ∧
    ((reply_rc K (env.io (dbg_get_exec_status K env w st).2.2.sent.length) = 0 ∧
        (sigint_handler K env (dbg_get_exec_status K env w st).2.2).sent
          = rdata_req :: cmd_req CMD_STOP :: (dbg_get_exec_status K env w st).2.2.sent ∧
        (sigint_handler K env (dbg_get_exec_status K env w st).2.2).t.pc
          = (env.io ((dbg_get_exec_status K env w st).2.2.sent.length + 1)).resp.data) ∨
      (reply_rc K (env.io (dbg_get_exec_status K env w st).2.2.sent.length) ≠ 0 ∧
        (sigint_handler K env (dbg_get_exec_status K env w st).2.2).sent
          = cmd_req CMD_STOP :: (dbg_get_exec_status K env w st).2.2.sent ∧
        (sigint_handler K env (dbg_get_exec_status K env w st).2.2).t.pc
          = (dbg_get_exec_status K env w st).2.2.t.pc)) ∧
    (∀ wf, poll_loop K env (fuel + 1) w st = .returned wf →
      ∃ a, wf.sent = rdata_req :: cmd_req CMD_READ_REG :: a
            ++ (sigint_handler K env (dbg_get_exec_status K env w st).2.2).sent ∧
        (a = [] ∨ a = [write_req REG_ADDRESS K.PC]) ∧
        wf.t.pc = (env.io ((a ++
          (sigint_handler K env (dbg_get_exec_status K env w st).2.2).sent).length
            + 1)).resp.data) ∧
    ((dbg_reload_pc K env (sigint_handler K env (dbg_get_exec_status K env w st).2.2)).1 = 0 →
      ∃ wf, poll_loop K env (fuel + 1) w st = .returned wf) ∧
    ((dbg_reload_pc K env (sigint_handler K env (dbg_get_exec_status K env w st).2.2)).1 ≠ 0 →
      (poll_loop K env (fuel + 1) w st).status = some 1) ∧
    ((wait_until_stopped K0 (Env.interrupt K0 2 0) 1 World.fresh).world.map
        (fun x => (x.sent.reverse, x.t.pc))
      = some ([cmd_req CMD_GET_EXEC_STATUS, rdata_req, cmd_req CMD_STOP, rdata_req,
          write_req REG_ADDRESS K0.PC, cmd_req CMD_READ_REG, rdata_req],
          K0.EXEC_STATUS_RUNNING)) := by
  obtain ⟨hi, hstop⟩ := sigint_handler_eq K env (dbg_get_exec_status K env w st).2.2
  have hloop : poll_loop K env (fuel + 1) w st
      = wait_finish K env (sigint_handler K env (dbg_get_exec_status K env w st).2.2)
          (dbg_get_exec_status K env w st).2.1 := by
    simp [poll_loop, hpoll, hsig, hi]
  refine ⟨hloop, hi, hstop, ?_, ?_, ?_, by decide⟩
  · intro wf
    rw [hloop]
    simp only [wait_finish]
    split
    · intro he; simp at he
    · rename_i h0
      simp only [ne_eq, not_not] at h0
      intro he
      simp only [Run.returned.injEq] at he
      subst he
      exact dbg_reload_pc_ok K env _ h0
  · intro h0
    rw [hloop]
    simp [wait_finish, h0]
  · intro hf
    rw [hloop]
    simp [wait_finish, hf, Run.status]

/-! ## `dbg_reset` in detail -/

theorem dbg_stop_eq (K : Consts) (env : Env) (w : World) :
    (reply_rc K (env.io w.sent.length) = 0 ∧
      (dbg_stop K env w).1 = reply_rc K (env.io (w.sent.length + 1)) ∧
      (dbg_stop K env w).2.sent = rdata_req :: cmd_req CMD_STOP :: w.sent ∧
      (dbg_stop K env w).2.t.mem_written = w.t.mem_written) ∨
    (reply_rc K (env.io w.sent.length) ≠ 0 ∧
      (dbg_stop K env w).1 = reply_rc K (env.io w.sent.length) ∧
      (dbg_stop K env w).2.sent = cmd_req CMD_STOP :: w.sent ∧
      (dbg_stop K env w).2.t.mem_written = w.t.mem_written) := by
  simp only [dbg_stop, dbg_write_cmd, dbg_read_eq]
  by_cases hr : reply_rc K (env.io w.sent.length) = 0
  · left; simp [hr, cmd_req, write_req, rdata_req]
  · right; simp [hr, cmd_req, write_req, rdata_req]

theorem dbg_cache_sync_eq (K : Consts) (env : Env) (w : World) :
    (w.t.mem_written = false ∧ (dbg_cache_sync K env w).1 = 0 ∧
      (dbg_cache_sync K env w).2.sent = w.sent ∧
      (dbg_cache_sync K env w).2.t.mem_written = false) ∨
    (w.t.mem_written = true ∧
      (dbg_cache_sync K env w).1 = reply_rc K (env.io w.sent.length) ∧
      (dbg_cache_sync K env w).2.sent = cmd_req CMD_CACHE_SYNC :: w.sent ∧
      (dbg_cache_sync K env w).2.t.mem_written
        = decide (reply_rc K (env.io w.sent.length) ≠ 0)) := by
  cases hd : w.t.mem_written
  · left; rw [dbg_cache_sync_clean K env w hd]; exact ⟨rfl, rfl, rfl, hd⟩
  · right; rw [dbg_cache_sync_dirty K env w hd]; exact ⟨rfl, rfl, rfl, rfl⟩

/-- What `dbg_reset` does between the register-cache sync and CMD(RESET), from the world
`x` the sync left. -/
theorem dbg_reset_middle (K : Consts) (env : Env) (x : World) :
    ∃ s c, (dbg_cache_sync K env (dbg_stop K env x).2).2.sent = c ++ s ++ x.sent ∧
      ((reply_rc K (env.io x.sent.length) = 0 ∧ s = [rdata_req, cmd_req CMD_STOP]) ∨
        (reply_rc K (env.io x.sent.length) ≠ 0 ∧ s = [cmd_req CMD_STOP])) ∧
      ((x.t.mem_written = false ∧ c = [] ∧
          (dbg_cache_sync K env (dbg_stop K env x).2).2.t.mem_written = false) ∨
        (x.t.mem_written = true ∧ c = [cmd_req CMD_CACHE_SYNC] ∧
          (dbg_cache_sync K env (dbg_stop K env x).2).2.t.mem_written
            = decide (reply_rc K (env.io (s ++ x.sent).length) ≠ 0))) := by
  have hstop := dbg_stop_eq K env x
  have hsync := dbg_cache_sync_eq K env (dbg_stop K env x).2
  generalize dbg_stop K env x = r at hstop hsync
  generalize dbg_cache_sync K env r.2 = r2 at hsync
  rcases hstop with ⟨h1, _, h3, h4⟩ | ⟨h1, _, h3, h4⟩
  · refine ⟨[rdata_req, cmd_req CMD_STOP], ?_⟩
    rcases hsync with ⟨g1, _, g3, g4⟩ | ⟨g1, _, g3, g4⟩
    · refine ⟨[], by simp [g3, h3], Or.inl ⟨h1, rfl⟩, Or.inl ⟨by rw [← h4]; exact g1, rfl, g4⟩⟩
    · refine ⟨[cmd_req CMD_CACHE_SYNC], by simp [g3, h3], Or.inl ⟨h1, rfl⟩,
        Or.inr ⟨by rw [← h4]; exact g1, rfl, ?_⟩⟩
      rw [g4, h3]; rfl
  · refine ⟨[cmd_req CMD_STOP], ?_⟩
    rcases hsync with ⟨g1, _, g3, g4⟩ | ⟨g1, _, g3, g4⟩
    · refine ⟨[], by simp [g3, h3], Or.inr ⟨h1, rfl⟩, Or.inl ⟨by rw [← h4]; exact g1, rfl, g4⟩⟩
    · refine ⟨[cmd_req CMD_CACHE_SYNC], by simp [g3, h3], Or.inr ⟨h1, rfl⟩,
        Or.inr ⟨by rw [← h4]; exact g1, rfl, ?_⟩⟩
      rw [g4, h3]; rfl
/-! ## C11 -/

/-- C11: `dbg_reset` first flushes the register cache, which puts no STOP, CACHE_SYNC or RESET
on the wire.  When the flush fails, `dbg_reset` returns its error and its world:
nothing more is sent.  When it succeeds, the wire then carries CMD(STOP) (and the
RDATA read if STOP succeeded), CMD(CACHE_SYNC) exactly when the memory-dirty flag
was set, and always CMD(RESET); the value returned is the result of the RESET
exchange alone, and the flag afterwards is still set exactly when it was set
and the CACHE_SYNC exchange failed.  In the scenario of a session made dirty by
`write32` where STOP and CACHE_SYNC are answered with status 1 and RESET with
status 0, `dbg_reset` returns 0 with the flag still set. -/
theorem C11_reset_ignores_stop_and_sync (K : Consts) (env : Env) (w : World) :
    (∃ flush, (regcache_sync K env w).2.sent = flush ++ w.sent ∧
      (∀ q ∈ flush, q ≠ cmd_req CMD_STOP ∧ q ≠ cmd_req CMD_CACHE_SYNC ∧
        q ≠ cmd_req CMD_RESET) ∧
      ((regcache_sync K env w).1 ≠ 0 → dbg_reset K env w = regcache_sync K env w) ∧
      ((regcache_sync K env w).1 = 0 →
        ∃ s c, (dbg_reset K env w).2.sent = cmd_req CMD_RESET :: c ++ s ++ flush ++ w.sent ∧
          (dbg_reset K env w).1 = reply_rc K (env.io (c ++ s ++ flush ++ w.sent).length) ∧
          ((reply_rc K (env.io (flush ++ w.sent).length) = 0 ∧
              s = [rdata_req, cmd_req CMD_STOP]) ∨
            (reply_rc K (env.io (flush ++ w.sent).length) ≠ 0 ∧ s = [cmd_req CMD_STOP])) ∧
          ((w.t.mem_written = false ∧ c = [] ∧
              (dbg_reset K env w).2.t.mem_written = false) ∨
            (w.t.mem_written = true ∧ c = [cmd_req CMD_CACHE_SYNC] ∧
              (dbg_reset K env w).2.t.mem_written
                = decide (reply_rc K (env.io (s ++ flush ++ w.sent).length) ≠ 0))))) ∧
    (((dbg_write_w K0 (Env.status_in K0 [3, 4] 1) World.fresh .w32 0x2000 1).2).t.mem_written
        = true ∧
      (dbg_reset K0 (Env.status_in K0 [3, 4] 1)
        (dbg_write_w K0 (Env.status_in K0 [3, 4] 1) World.fresh .w32 0x2000 1).2).1 = 0 ∧
      (dbg_reset K0 (Env.status_in K0 [3, 4] 1)
        (dbg_write_w K0 (Env.status_in K0 [3, 4] 1) World.fresh .w32 0x2000 1).2).2.sent
        = [cmd_req CMD_RESET, cmd_req CMD_CACHE_SYNC, cmd_req CMD_STOP, cmd_req CMD_WMEM32,
            write_req REG_WDATA 1, write_req REG_ADDRESS 0x2000] ∧
      (dbg_reset K0 (Env.status_in K0 [3, 4] 1)
        (dbg_write_w K0 (Env.status_in K0 [3, 4] 1) World.fresh .w32 0x2000 1).2).2.t.mem_written
        = true) := by
  refine ⟨?_, by decide, by decide, by decide, by decide⟩
  obtain ⟨⟨flush, hs, hq⟩, hm⟩ := regcache_flush_frame K env w.t.regcache w
  have hs1 : (regcache_sync K env w).2.sent = flush ++ w.sent := hs
  have hm1 : (regcache_sync K env w).2.t.mem_written = w.t.mem_written := hm
  refine ⟨flush, hs1, ?_, ?_, ?_⟩
  · intro q hmem
    have h := is_reg_write_req_ne q (hq q hmem)
    exact ⟨h.2.2.2.1, h.1, h.2.2.2.2.1⟩
  · intro hf
    simp only [dbg_reset, hf, ne_eq, not_false_eq_true, if_true]
  · intro h0
    obtain ⟨s, c, e1, e2, e3⟩ := dbg_reset_middle K env (regcache_sync K env w).2
    have hr : dbg_reset K env w =
        dbg_write K env (dbg_cache_sync K env (dbg_stop K env (regcache_sync K env w).2).2).2
          REG_CMD CMD_RESET.code := by
      simp only [dbg_reset, h0, ne_eq, not_true_eq_false, if_false]
    rw [hr, dbg_write_cmd]
    rw [hs1] at e1 e2 e3
    rw [hm1] at e3
    refine ⟨s, c, ?_, ?_, e2, ?_⟩
    · show write_req REG_CMD CMD_RESET.code :: _ = _
      rw [e1]; simp [cmd_req, write_req]
    · show reply_rc K (env.io (List.length _)) = _
      rw [e1]; simp
    · rcases e3 with ⟨g1, g2, g3⟩ | ⟨g1, g2, g3⟩
      · exact Or.inl ⟨g1, g2, g3⟩
      · refine Or.inr ⟨g1, g2, ?_⟩
        show (dbg_cache_sync K env (dbg_stop K env (regcache_sync K env w).2).2).2.t.mem_written
          = _
        rw [g3]; simp

/-- C11 at a concrete input: a pending register write whose ADDRESS exchange is answered with
status 1: `dbg_reset` returns 1 after that single exchange. -/
theorem C11_reset_ignores_stop_and_sync_witness :
    (regcache_sync K0 (Env.status_at K0 0 1) (regcache_write World.fresh 5 7)).1 ≠ 0 ∧
    dbg_reset K0 (Env.status_at K0 0 1) (regcache_write World.fresh 5 7)
      = regcache_sync K0 (Env.status_at K0 0 1) (regcache_write World.fresh 5 7) ∧
    (dbg_reset K0 (Env.status_at K0 0 1) (regcache_write World.fresh 5 7)).1 = 1 ∧
    (dbg_reset K0 (Env.status_at K0 0 1) (regcache_write World.fresh 5 7)).2.sent
      = [write_req REG_ADDRESS 5] := by
  obtain ⟨_, _, _, h, _⟩ := (C11_reset_ignores_stop_and_sync K0 (Env.status_at K0 0 1)
    (regcache_write World.fresh 5 7)).1
  exact ⟨by decide, h (by decide), by decide, by decide⟩

/-! ## When every later exchange succeeds -/

theorem reply_rc_of_transport (K : Consts) (env : Env) (htr : transport_works K env) (n : Nat) :
    reply_rc K (env.io n) = (env.io n).resp.status := by
  simp [reply_rc, htr n]

theorem replies_ok_of_status (K : Consts) (env : Env) (htr : transport_works K env) (n : Nat)
    (h : status_ok_from env n) : replies_ok_from K env n := by
  intro m hm
  rw [reply_rc_of_transport K env htr m]
  exact h m hm

theorem replies_ok_mono (K : Consts) (env : Env) (n m : Nat) (hnm : n ≤ m)
    (h : replies_ok_from K env n) : replies_ok_from K env m :=
  fun k hk => h k (le_trans hnm hk)

theorem dbg_write_length (K : Consts) (env : Env) (w : World) (s : dbg_reg) (v : Nat) :
    w.sent.length ≤ (dbg_write K env w s v).2.sent.length := by
  rcases dbg_write_sent K env w s v with h | h
  · rw [h]
  · rw [h]; simp

theorem dbg_write_rc_ok (K : Consts) (env : Env) (w : World) (s : dbg_reg) (v : Nat)
    (h : replies_ok_from K env w.sent.length) : (dbg_write K env w s v).1 = 0 := by
  rcases dbg_write_cases K env w s v with h1 | ⟨h1, _⟩
  · rw [h1]
  · rw [h1]; exact h _ (le_refl _)

theorem dbg_write_ok_after (K : Consts) (env : Env) (w : World) (s : dbg_reg) (v : Nat)
    (h : replies_ok_from K env w.sent.length) :
    replies_ok_from K env (dbg_write K env w s v).2.sent.length :=
  replies_ok_mono K env _ _ (dbg_write_length K env w s v) h

theorem dbg_read_rc_ok (K : Consts) (env : Env) (w : World) (s : dbg_reg)
    (h : replies_ok_from K env w.sent.length) : (dbg_read K env w s).1 = 0 := by
  rw [dbg_read_eq]; exact h _ (le_refl _)

theorem dbg_reload_pc_rc_ok (K : Consts) (env : Env) (w : World)
    (h : replies_ok_from K env w.sent.length) : (dbg_reload_pc K env w).1 = 0 := by
  have h1 := dbg_write_rc_ok K env w REG_ADDRESS K.PC h
  have h1' := dbg_write_ok_after K env w REG_ADDRESS K.PC h
  have h2 := dbg_write_rc_ok K env _ REG_CMD CMD_READ_REG.code h1'
  have h2' := dbg_write_ok_after K env _ REG_CMD CMD_READ_REG.code h1'
  have h3 := dbg_read_rc_ok K env _ REG_RDATA h2'
  simp only [dbg_reload_pc, h1, h2, ne_eq, not_true_eq_false, if_false]
  exact h3

theorem dbg_read_reg_rc_ok (K : Consts) (env : Env) (w : World) (reg val : Nat)
    (h : replies_ok_from K env w.sent.length) : (dbg_read_reg K env w reg val).1 = 0 := by
  have h1 := dbg_write_rc_ok K env w REG_ADDRESS reg h
  have h1' := dbg_write_ok_after K env w REG_ADDRESS reg h
  have h2 := dbg_write_rc_ok K env _ REG_CMD CMD_READ_REG.code h1'
  have h2' := dbg_write_ok_after K env _ REG_CMD CMD_READ_REG.code h1'
  have h3 := dbg_read_rc_ok K env _ REG_RDATA h2'
  simp only [dbg_read_reg, h1, h2, ne_eq, not_true_eq_false, if_false]
  split
  · rfl
  · exact h3

theorem dbg_write_reg_rc_ok (K : Consts) (env : Env) (w : World) (reg val : Nat)
    (h : replies_ok_from K env w.sent.length) : (dbg_write_reg K env w reg val).1 = 0 := by
  have h1 := dbg_write_rc_ok K env w REG_ADDRESS reg h
  have h1' := dbg_write_ok_after K env w REG_ADDRESS reg h
  have h2 := dbg_write_rc_ok K env _ REG_WDATA val h1'
  have h2' := dbg_write_ok_after K env _ REG_WDATA val h1'
  have h3 := dbg_write_rc_ok K env _ REG_CMD CMD_WRITE_REG.code h2'
  simp only [dbg_write_reg, h1, h2, ne_eq, not_true_eq_false, if_false]
  split <;> exact h3

theorem wait_finish_returns (K : Consts) (env : Env) (w : World) (st : Nat)
    (h : replies_ok_from K env w.sent.length) : ∃ wf, wait_finish K env w st = .returned wf := by
  simp [wait_finish, dbg_reload_pc_rc_ok K env w h]

theorem disable_mmu_returns (K : Consts) (env : Env) (w : World)
    (h : replies_ok_from K env w.sent.length) : ∃ wf, disable_mmu K env w = .returned wf := by
  have h1 := dbg_read_reg_rc_ok K env w (K.CR_BASE + 1) 0 h
  have hlen : w.sent.length ≤ (dbg_read_reg K env w (K.CR_BASE + 1) 0).2.2.sent.length :=
    (dbg_read_reg_pres K env (suffix_closed K env w.sent) w _ _ (List.suffix_refl _)).length_le
  have h2 := dbg_write_reg_rc_ok K env
    { (dbg_read_reg K env w (K.CR_BASE + 1) 0).2.2 with
      t := { (dbg_read_reg K env w (K.CR_BASE + 1) 0).2.2.t with
        psr := (dbg_read_reg K env w (K.CR_BASE + 1) 0).2.1 } }
    (K.CR_BASE + 1) ((dbg_read_reg K env w (K.CR_BASE + 1) 0).2.1 &&& MMU_CLEAR_MASK)
    (replies_ok_mono K env _ _ hlen h)
  simp [disable_mmu, h1, h2]

theorem dbg_get_exec_status_ok (K : Consts) (env : Env) (w : World) (st : Nat)
    (h : replies_ok_from K env w.sent.length) :
    dbg_get_exec_status K env w st
      = (0, (env.io (w.sent.length + 1)).resp.data,
          { w with sent := rdata_req :: cmd_req CMD_GET_EXEC_STATUS :: w.sent }) := by
  have h0 := h w.sent.length (le_refl _)
  have h1 := h (w.sent.length + 1) (Nat.le_succ _)
  simp [dbg_get_exec_status, dbg_write_cmd, dbg_read_eq, h0, h1, cmd_req, write_req, rdata_req]

/-- With no SIGINT and every exchange succeeding, the poll loop ends at the first
poll that reports the target stopped, given enough iterations. -/
theorem poll_loop_returns (K : Consts) (env : Env) (hsig : ∀ n, env.sigint n = false) :
    ∀ (k fuel : Nat) (w : World) (st : Nat), w.t.interrupted = false →
      replies_ok_from K env w.sent.length →
      (∀ i, i < k → reports_running K env (w.sent.length + 2 * i + 1)) →
      ¬ reports_running K env (w.sent.length + 2 * k + 1) → k < fuel →
      ∃ wf, poll_loop K env fuel w st = .returned wf := by
  intro k
  induction k with
  | zero =>
    intro fuel w st hi hok _ hstop hf
    obtain ⟨f, rfl⟩ : ∃ f, fuel = f + 1 := ⟨fuel - 1, by omega⟩
    have hx := dbg_get_exec_status_ok K env w st hok
    have hstop' : ¬ (env.io (w.sent.length + 1)).resp.data &&& K.EXEC_STATUS_RUNNING ≠ 0 := by
      simpa [reports_running] using hstop
    simp only [poll_loop, hx, hsig, ne_eq, not_true_eq_false, if_false]
    simp only [Bool.false_eq_true, if_false]
    rw [if_neg (fun hc => hstop' hc.2)]
    apply wait_finish_returns
    exact replies_ok_mono K env _ _ (by simp; omega) hok
  | succ k ih =>
    intro fuel w st hi hok hrun hstop hf
    obtain ⟨f, rfl⟩ : ∃ f, fuel = f + 1 := ⟨fuel - 1, by omega⟩
    have hx := dbg_get_exec_status_ok K env w st hok
    have hr0 : (env.io (w.sent.length + 1)).resp.data &&& K.EXEC_STATUS_RUNNING ≠ 0 := by
      have := hrun 0 (Nat.succ_pos _)
      simpa [reports_running] using this
    simp only [poll_loop, hx, hsig, ne_eq, not_true_eq_false, if_false]
    simp only [Bool.false_eq_true, if_false]
    rw [if_pos ⟨hi, hr0⟩]
    apply ih
    · exact hi
    · exact replies_ok_mono K env _ _ (by simp; omega) hok
    · intro i hik
      have := hrun (i + 1) (Nat.succ_lt_succ hik)
      have e : w.sent.length + 2 * (i + 1) + 1
          = (rdata_req :: cmd_req CMD_GET_EXEC_STATUS :: w.sent).length + 2 * i + 1 := by
        simp; omega
      rw [e] at this; exact this
    · have e : w.sent.length + 2 * (k + 1) + 1
          = (rdata_req :: cmd_req CMD_GET_EXEC_STATUS :: w.sent).length + 2 * k + 1 := by
        simp; omega
      rw [e] at hstop; exact hstop
    · omega
theorem do_exec_returns (K : Consts) (env : Env) (fuel : Nat) (w w2 : World)
    (fn : World → Int × World) (k : Nat) (hsig : ∀ n, env.sigint n = false)
    (h : restore_mmu K env (exec_orig_at_pc K env w) = .returned w2)
    (hok : replies_ok_from K env (fn w2).2.sent.length)
    (hrun : ∀ i, i < k → reports_running K env ((fn w2).2.sent.length + 2 * i + 1))
    (hstop : ¬ reports_running K env ((fn w2).2.sent.length + 2 * k + 1)) (hk : k < fuel) :
    ∃ wf, do_exec K env fuel w fn = .returned wf := by
  have hc := suffix_closed K env (fn w2).2.sent
  have hd : do_exec K env fuel w fn =
      (restore_mmu K env (exec_orig_at_pc K env w)).andThen fun w2 =>
        (wait_until_stopped K env fuel
          (if (fn w2).1 ≠ 0 then (fn w2).2.warnx "failed to step target" else (fn w2).2)).andThen
        fun w4 => (disable_mmu K env w4).andThen fun w5 =>
          match breakpoint_at_addr w5 w5.t.pc with
          | some b => .returned { w5 with out := console.bkpt_hit b.id b.addr :: w5.out }
          | none => .returned w5 := rfl
  rw [hd, h]
  simp only [Run.andThen]
  have hs3 : (if (fn w2).1 ≠ 0 then (fn w2).2.warnx "failed to step target"
      else (fn w2).2).sent = (fn w2).2.sent := by
    split <;> rfl
  generalize (if (fn w2).1 ≠ 0 then (fn w2).2.warnx "failed to step target"
      else (fn w2).2) = w3 at hs3 ⊢
  obtain ⟨w4, h4⟩ := poll_loop_returns K env hsig k fuel
    { w3 with t := { w3.t with interrupted := false } } 0 rfl
    (by show replies_ok_from K env w3.sent.length; rw [hs3]; exact hok)
    (by intro i hi; show reports_running K env (w3.sent.length + 2 * i + 1)
        rw [hs3]; exact hrun i hi)
    (by show ¬ reports_running K env (w3.sent.length + 2 * k + 1); rw [hs3]; exact hstop) hk
  have h4' : wait_until_stopped K env fuel w3 = .returned w4 := h4
  have hsuf : (fn w2).2.sent <:+ w4.sent :=
    wait_until_stopped_pres K env hc fuel w3 (by show _ <:+ w3.sent; rw [hs3]) w4
      (by rw [h4']; rfl)
  obtain ⟨w5, h5⟩ := disable_mmu_returns K env w4
    (replies_ok_mono K env _ _ hsuf.length_le hok)
  rw [h4']
  simp only [h5]
  split
  · exact ⟨_, rfl⟩
  · exact ⟨_, rfl⟩

/-- C9 (amended): what `do_exec` does when an exchange is answered with a non-zero response
status over a transport that works.  Whenever `do_exec` ends the process, the exit
status is 1, an `err` line was printed and the most recent exchange had been
answered with a non-zero status.  A failure of the PSR write-back, of an
exec-status poll, of the PC reload, of the PSR read or of the PSR write after
the stop ends the process with status 1.  A failure of `dbg_run` / `dbg_step` only prints
"failed to step target": the poll is started all the same, and once a poll
reports the target stopped, with no SIGINT, the later exchanges answered with
status 0 and enough iterations allowed, `do_exec` returns with that warning on the
console.  In the scenario where RUN is answered with status 1 and every other
exchange with status 0, `run` on a fresh session returns with the warning. -/
theorem C9_exec_failures (K : Consts) (env : Env) (fuel : Nat) (w : World)
    (fn : World → Int × World) (htr : transport_works K env) :
    (∀ (s : Nat) (wx : World), do_exec K env fuel w fn = .exited s wx →
      s = 1 ∧ (∃ q rest, wx.sent = q :: rest ∧ (env.io rest.length).resp.status ≠ 0) ∧
      ∃ msg, wx.out.head? = some (console.err msg)) ∧
    ((dbg_write_reg K env (exec_orig_at_pc K env w) (K.CR_BASE + 1)
        (exec_orig_at_pc K env w).t.psr).1 ≠ 0 →
      (do_exec K env fuel w fn).status = some 1) ∧
    (∀ (x : World) (st : Nat), (dbg_get_exec_status K env x st).1 ≠ 0 →
      (poll_loop K env (fuel + 1) x st).status = some 1) ∧
    (∀ (x : World) (st : Nat), (dbg_reload_pc K env x).1 ≠ 0 →
      (wait_finish K env x st).status = some 1) ∧
    (∀ x : World, (dbg_read_reg K env x (K.CR_BASE + 1) 0).1 ≠ 0 →
      (disable_mmu K env x).status = some 1) ∧
    (∀ x : World, (dbg_read_reg K env x (K.CR_BASE + 1) 0).1 = 0 →
      (dbg_write_reg K env
        { (dbg_read_reg K env x (K.CR_BASE + 1) 0).2.2 with
          t := { (dbg_read_reg K env x (K.CR_BASE + 1) 0).2.2.t with
            psr := (dbg_read_reg K env x (K.CR_BASE + 1) 0).2.1 } }
        (K.CR_BASE + 1) ((dbg_read_reg K env x (K.CR_BASE + 1) 0).2.1 &&& MMU_CLEAR_MASK)).1
        ≠ 0 →
      (disable_mmu K env x).status = some 1) ∧
    (∀ w2 : World, restore_mmu K env (exec_orig_at_pc K env w) = .returned w2 →
      (fn w2).1 ≠ 0 →
      ∀ wf, (do_exec K env (fuel + 1) w fn).world = some wf →
        console.warnx "failed to step target" ∈ wf.out ∧
        cmd_req CMD_GET_EXEC_STATUS :: (fn w2).2.sent <:+ wf.sent) ∧
    (∀ (w2 : World) (k : Nat), restore_mmu K env (exec_orig_at_pc K env w) = .returned w2 →
      (fn w2).1 ≠ 0 → (∀ n, env.sigint n = false) →
      status_ok_from env (fn w2).2.sent.length →
      (∀ i, i < k → reports_running K env ((fn w2).2.sent.length + 2 * i + 1)) →
      ¬ reports_running K env ((fn w2).2.sent.length + 2 * k + 1) → k < fuel →
      ∃ wf, do_exec K env fuel w fn = .returned wf ∧
        console.warnx "failed to step target" ∈ wf.out) ∧
    ((dbg_run K0 (Env.status_at K0 3 1)
        ((restore_mmu K0 (Env.status_at K0 3 1) World.fresh).world.getD World.fresh)).1 = 1 ∧
      (lua_run K0 (Env.status_at K0 3 1) 1 World.fresh).status = none ∧
      (lua_run K0 (Env.status_at K0 3 1) 1 World.fresh).world.map (fun x => x.out)
        = some [console.warnx "failed to step target"]) := by
  refine ⟨?_, ?_, ?_, ?_, ?_, ?_,
    fun w2 h hf => do_exec_fn_failed K env fuel w w2 fn h hf, ?_, ?_⟩
  · intro s wx h
    obtain ⟨h1, ⟨q, rest, h2, h3⟩, h4⟩ := do_exec_died K env fuel w wx s fn h
    rw [reply_rc_of_transport K env htr] at h3
    exact ⟨h1, ⟨q, rest, h2, h3⟩, h4⟩
  · intro hf
    have hd : do_exec K env fuel w fn =
        (restore_mmu K env (exec_orig_at_pc K env w)).andThen fun w2 =>
          (wait_until_stopped K env fuel
            (if (fn w2).1 ≠ 0 then (fn w2).2.warnx "failed to step target"
             else (fn w2).2)).andThen
          fun w4 => (disable_mmu K env w4).andThen fun w5 =>
            match breakpoint_at_addr w5 w5.t.pc with
            | some b => .returned { w5 with out := console.bkpt_hit b.id b.addr :: w5.out }
            | none => .returned w5 := rfl
    rw [hd]
    simp [restore_mmu, hf, Run.andThen, Run.status]
  · intro x st hf
    simp [poll_loop, hf, Run.status]
  · intro x st hf
    simp [wait_finish, hf, Run.status]
  · intro x hf
    simp [disable_mmu, hf, Run.status]
  · intro x h0 hf
    simp [disable_mmu, h0, hf, Run.status]
  · intro w2 k h hf hsig hok hrun hstop hk
    obtain ⟨wf, hwf⟩ := do_exec_returns K env fuel w w2 fn k hsig h
      (replies_ok_of_status K env htr _ hok) hrun hstop hk
    refine ⟨wf, hwf, ?_⟩
    obtain ⟨f, rfl⟩ : ∃ f, fuel = f + 1 := ⟨fuel - 1, by omega⟩
    exact (do_exec_fn_failed K env f w w2 fn h hf wf (by rw [hwf]; rfl)).1
  · refine ⟨?_, ?_, ?_⟩ <;> decide

/-- C9 at a concrete input: the transport works and the first exec-status poll of a fresh
session is answered with status 1. -/
theorem C9_exec_failures_witness :
    transport_works K0 (Env.status_at K0 0 1) ∧
    (dbg_get_exec_status K0 (Env.status_at K0 0 1) World.fresh 0).1 ≠ 0 ∧
    (poll_loop K0 (Env.status_at K0 0 1) (0 + 1) World.fresh 0).status = some 1 :=
  ⟨fun _ => rfl, by decide,
    (C9_exec_failures K0 (Env.status_at K0 0 1) 0 World.fresh
      (dbg_run K0 (Env.status_at K0 0 1)) (fun _ => rfl)).2.2.1 World.fresh 0 (by decide)⟩

/-! ## C5 -/

/-- C5: what the code does on three inputs, each with bit 7 set in the PSR of the target
(every read is answered with 0x80).
(a) `connect` then `run`: `lua_connect` stops and resets the target without `disable_mmu`, so
after it nothing has read or written the PSR (no READ_REG and no WRITE_REG is on
the wire) and `psr` is the 0 of `calloc`; the write-back of the `run` sends
ADDRESS(`CR_BASE + 1`), WDATA(0), WRITE_REG, and RUN follows: the PSR is written with a
word that was never read.
(b) `stop`, then the end of `main`: `stop` reads 0x80 and writes 0; `main` resumes through
`dbg_run`, so RUN follows the WRITE_REG of the disable with no write-back of 0x80.
(c) `write32(0x10, 0)` whose WDATA exchange is refused, then `stop`: the WDATA write of
`disable_mmu` is absorbed by the cache entry the refused write left, so WRITE_REG goes out
although the only WDATA exchange that carried the cleared word was refused. -/
theorem C5_psr_not_saved_or_not_sent :
    ((lua_connect K0 (Env.ok K0 fun _ => 0x80)).1 = none ∧
      (lua_connect K0 (Env.ok K0 fun _ => 0x80)).2.t.psr = 0 ∧
      cmd_req CMD_READ_REG ∉ (lua_connect K0 (Env.ok K0 fun _ => 0x80)).2.sent ∧
      cmd_req CMD_WRITE_REG ∉ (lua_connect K0 (Env.ok K0 fun _ => 0x80)).2.sent ∧
      (lua_run K0 (Env.ok K0 fun _ => 0x80) 1
          (lua_connect K0 (Env.ok K0 fun _ => 0x80)).2).world.map
          (fun w => w.sent.reverse.take 9)
        = some [cmd_req CMD_STOP, rdata_req, cmd_req CMD_STOP, rdata_req, cmd_req CMD_RESET,
            write_req REG_ADDRESS (K0.CR_BASE + 1), write_req REG_WDATA 0,
            cmd_req CMD_WRITE_REG, cmd_req CMD_RUN]) ∧
    (((lua_stop K0 (Env.ok K0 fun _ => 0x80) World.fresh).world.map (fun w => w.t.psr))
        = some 0x80 ∧
      ((lua_stop K0 (Env.ok K0 fun _ => 0x80) World.fresh).world.map
          (fun w => (main_exit K0 (Env.ok K0 fun _ => 0x80) w).2.sent.reverse))
        = some [cmd_req CMD_STOP, rdata_req, write_req REG_ADDRESS (K0.CR_BASE + 1),
            cmd_req CMD_READ_REG, rdata_req, write_req REG_WDATA 0, cmd_req CMD_WRITE_REG,
            cmd_req CMD_RUN]) ∧
    (reply_rc K0 ((Env.refuse K0 1 0x80).io 1) = 1 ∧
      (lua_stop K0 (Env.refuse K0 1 0x80)
          (lua_write K0 (Env.refuse K0 1 0x80) World.fresh .w32 0x10 0)).world.map
          (fun w => (w.t.psr, w.sent.reverse))
        = some (0x80, [write_req REG_ADDRESS 0x10, write_req REG_WDATA 0, cmd_req CMD_STOP,
            rdata_req, write_req REG_ADDRESS (K0.CR_BASE + 1), cmd_req CMD_READ_REG,
            rdata_req, cmd_req CMD_WRITE_REG])) := by
  refine ⟨⟨?_, ?_, ?_, ?_, ?_⟩, ⟨?_, ?_⟩, ⟨?_, ?_⟩⟩ <;> decide

end Oldland
